import Mathlib

/-!
# WhatsApp Smart wizard (public/js/whatsapp-smart.js)

A shallow embedding of the conversational wizard: the module-level `state`
object, the chat area produced by `renderCurrentStep`, the click handlers
installed by `attachStepEvents`, and the callbacks queued with `setTimeout`.

Conventions of the embedding:

* `state.currentStep` only ever takes values that are multiples of 0.5
  (it is changed by `= 0`, `= 1.5`, `++` and `+= 0.5`), so it is stored in
  half steps: the natural number `n` stands for the JavaScript value `n / 2`
  (`2` is step 1, `3` is step 1.5, `11` is step 5.5).
* The HTML string assembled by `renderCurrentStep` is kept as the list of
  its chat bubbles and input affordances (`Item`); texts are kept as the
  translation key passed to `t` or as the literal answer.
* Time is counted in milliseconds. A `setTimeout` appends a timer with its
  due time; timers run in order of due time, ties in order of creation.
  Timers whose callback only scrolls or focuses are left out, as they touch
  neither `state` nor the chat area. No timer is ever cancelled by the script.
* `createSummaryCard` reads `state.problem.id`; when it is reached while
  `state.problem` is `null` the render throws, which leaves the chat area as it
  was and ends the running callback (`renderThrows`, `renderFails`).
* `attachStepEvents` adds a listener to every button each time it runs, and a
  language change makes it run twice on the same elements; `World.listeners`
  counts the runs and `dispatch` runs a click handler that many times.
* The delays are those of `DEFAULT_CONFIG`, the Maps script is taken to be
  loaded and the browser to offer geolocation.
* A translation table is the log of the assignments made to it, read with
  the last assignment winning (`Table.get`); its values are JSON values, and
  `{...a, ...b}` is `a ++ b`. A locale file is an object whose entries come in
  the order of `Object.entries`; numbers and arrays are kept as their printed
  text. Keys are taken not to be names of `Object.prototype` properties. The
  tables are a parameter of `t` and of the message; `TRANSLATIONS` is the
  built-in one.
* Strings are sequences of Unicode scalar values (no lone surrogates), so
  `encodeURIComponent` never throws; octets and code points are natural
  numbers.
* A function that can throw returns an `Option`, `none` standing for the
  exception.
* `state.currentLanguage` is kept as one of the three keys of `TRANSLATIONS`
  (`Lang`). `detectLanguage` and `LanguageReach` work on the strings
  themselves and show for which pages that is so.
-/

namespace WhatsAppSmart

/-! ## SECTION 1: configuration -/

/-- The value of `DEFAULT_CONFIG.typingDelayInitial`. -/
def typingDelayInitial : Nat := 1500

/-- The value of `DEFAULT_CONFIG.typingDelayAfterUser`. -/
def typingDelayAfterUser : Nat := 1200

/-- The value of `DEFAULT_CONFIG.transitionDelay`. -/
def transitionDelay : Nat := 400

/-! ## SECTION 3: data structures -/

/-- The `id` of an entry of `PROBLEMS`. -/
inductive ProblemId
  | battery | nostart | flat | towing | wreck | locked | other
  deriving DecidableEq, Repr

/-- An entry of `PROBLEMS`. -/
structure Problem where
  id : ProblemId
  needsDestination : Bool
  deriving DecidableEq, Repr

/-- The `PROBLEMS` table. -/
def PROBLEMS : List Problem :=
  [ ⟨.battery, false⟩, ⟨.nostart, false⟩, ⟨.flat, false⟩, ⟨.towing, true⟩,
    ⟨.wreck, false⟩, ⟨.locked, false⟩, ⟨.other, false⟩ ]

/-- The `id` of an entry of `VEHICLE_CATEGORIES`. -/
inductive VehicleId
  | citadine | berline | utilitaire | premium
  deriving DecidableEq, Repr

/-- The `VEHICLE_CATEGORIES` table. -/
def VEHICLE_CATEGORIES : List VehicleId :=
  [.citadine, .berline, .utilitaire, .premium]

/-- The `data-option-id` of a small option button (wheel position,
transmission, four-wheel drive). -/
inductive OptionId
  | front | rear | manual | automatic | yes | no
  deriving DecidableEq, Repr

/-- The `TRANSMISSIONS` table. -/
def TRANSMISSIONS : List OptionId := [.manual, .automatic]

/-- The language codes that are keys of `TRANSLATIONS`. -/
inductive Lang
  | fr | en | nl
  deriving DecidableEq, Repr

/-- The string used for a problem in translation keys. -/
def ProblemId.name : ProblemId → String
  | .battery => "battery" | .nostart => "nostart" | .flat => "flat"
  | .towing => "towing" | .wreck => "wreck" | .locked => "locked"
  | .other => "other"

/-- The string used for a vehicle category in translation keys. -/
def VehicleId.name : VehicleId → String
  | .citadine => "citadine" | .berline => "berline"
  | .utilitaire => "utilitaire" | .premium => "premium"

/-- The string carried by a small option button. -/
def OptionId.name : OptionId → String
  | .front => "front" | .rear => "rear" | .manual => "manual"
  | .automatic => "automatic" | .yes => "yes" | .no => "no"

/-! ## SECTION 5: state -/

/-- The values of `state.location.type`. -/
inductive LocationType
  | gps | manual
  deriving DecidableEq, Repr

/-- Latitude and longitude, kept as the decimal text JavaScript prints. -/
structure Coords where
  lat : String
  lng : String
  deriving DecidableEq, Repr

/-- The record `state.location`. -/
structure Location where
  type : Option LocationType
  coords : Option Coords
  address : String
  deriving DecidableEq, Repr

/-- The record `state.destination`. -/
structure Destination where
  address : String
  unknown : Bool
  distance : Option String
  duration : Option String
  deriving DecidableEq, Repr

/-- The module-level `state` object; `currentStep` is counted in half steps. -/
structure State where
  currentStep : Nat
  isTyping : Bool
  showAddressInput : Bool
  showDestinationInput : Bool
  currentLanguage : Lang
  problem : Option Problem
  vehicle : Option VehicleId
  wheelPosition : Option OptionId
  transmission : Option OptionId
  fourWheelDrive : Option Bool
  vehicleBrand : Option String
  vehicleModel : Option String
  vehicleYear : Option String
  location : Location
  destination : Destination
  deriving DecidableEq, Repr

/-- The initial value of `state.location`. -/
def emptyLocation : Location := ⟨none, none, ""⟩

/-- The initial value of `state.destination`. -/
def emptyDestination : Destination := ⟨"", false, none, none⟩

/-- The object literal assigned to `state` when the script is loaded;
`lang` is the result of `detectLanguage()`. -/
def initialState (lang : Lang) : State :=
  { currentStep := 0, isTyping := false, showAddressInput := false,
    showDestinationInput := false, currentLanguage := lang,
    problem := none, vehicle := none, wheelPosition := none,
    transmission := none, fourWheelDrive := none,
    vehicleBrand := none, vehicleModel := none, vehicleYear := none,
    location := emptyLocation, destination := emptyDestination }

/-- JavaScript truthiness of a value that is `null` or a string. -/
def truthy : Option String → Bool
  | none => false
  | some v => v != ""

/-- The test `state.problem?.id === id`. -/
def State.problemIs (s : State) (id : ProblemId) : Bool :=
  match s.problem with
  | none => false
  | some p => p.id == id

/-- The test `state.problem?.needsDestination`. -/
def State.needsDestination (s : State) : Bool :=
  match s.problem with
  | none => false
  | some p => p.needsDestination

/-- The expression `state.problem?.needsDestination ? 6 : 5`, in half steps. -/
def State.finalStep (s : State) : Nat :=
  if s.needsDestination then 12 else 10

/-! ## SECTIONS 9 to 11: chat bubbles and steps -/

/-- A text shown in a bubble: a key looked up with `t`, or a literal. -/
inductive Txt
  | t (key : String)
  | lit (text : String)
  deriving DecidableEq, Repr

/-- The three text inputs of the wreck flow. -/
inductive InputId
  | brand | model | year
  deriving DecidableEq, Repr

/-- One element of the chat area. -/
inductive Item
  /-- The result of `createBotMessage`. -/
  | bot (text : Txt)
  /-- The result of `createUserMessage`. -/
  | user (text : Txt)
  /-- The result of `createTypingIndicator`. -/
  | typing
  /-- The container `#wa-step0-options` with one button per problem. -/
  | problemOptions (ids : List ProblemId)
  /-- The options container of step 1 with one button per vehicle category. -/
  | vehicleOptions (ids : List VehicleId)
  /-- A text input of the wreck flow with its submit button. -/
  | textInput (id : InputId)
  /-- A small options container. -/
  | smallOptions (ids : List OptionId)
  /-- The buttons `#wa-gps-btn` and `#wa-address-btn`. -/
  | locationOptions
  /-- The input `#wa-address-input` with the link `#wa-address-back`. -/
  | addressInput
  /-- The buttons `#wa-destination-address-btn` and `#wa-unknown-btn`. -/
  | destinationOptions
  /-- The input `#wa-destination-input` with `#wa-destination-back`. -/
  | destinationInput
  /-- The result of `createSummaryCard`, holding `#wa-final-whatsapp-btn`. -/
  | summaryCard
  deriving DecidableEq, Repr

/-- The function `createStep0`. -/
def createStep0 (s : State) : List Item :=
  if s.isTyping = true ∧ s.currentStep = 0 then [Item.typing]
  else if 0 ≤ s.currentStep then
    [Item.bot (.t "step0_bot_message")] ++
      (if s.currentStep = 0 then [Item.problemOptions (PROBLEMS.map (·.id))] else [])
  else []

/-- The function `createStep1`. -/
def createStep1 (s : State) : List Item :=
  match s.problem with
  | none => []
  | some p =>
    [Item.user (.t ("problem_" ++ p.id.name))] ++
      (if s.isTyping = true ∧ s.currentStep = 2 then [Item.typing]
       else if 2 ≤ s.currentStep ∧ s.isTyping = false then
         [Item.bot (.t ("response_" ++ p.id.name))] ++
           (if s.currentStep = 2 then [Item.vehicleOptions VEHICLE_CATEGORIES] else [])
       else [])

/-- The answer bubble shown by a wreck step once the flow has moved on. -/
def answerBubble (v : Option String) : List Item :=
  match v with
  | none => []
  | some text => if text != "" then [Item.user (.lit text)] else []

/-- The function `createWreckStep1`. -/
def createWreckStep1 (s : State) : List Item :=
  if s.problemIs .wreck then
    if s.isTyping = true ∧ s.currentStep = 2 then [Item.typing]
    else if 2 ≤ s.currentStep ∧ s.isTyping = false then
      [Item.bot (.t "wreck_step1_bot_question")] ++
        (if s.currentStep = 2 then [Item.textInput .brand]
         else answerBubble s.vehicleBrand)
    else []
  else []

/-- The function `createWreckStep2`. -/
def createWreckStep2 (s : State) : List Item :=
  if truthy s.vehicleBrand ∧ s.problemIs .wreck then
    if s.isTyping = true ∧ s.currentStep = 4 then [Item.typing]
    else if 4 ≤ s.currentStep ∧ s.isTyping = false then
      [Item.bot (.t "wreck_step2_bot_question")] ++
        (if s.currentStep = 4 then [Item.textInput .model]
         else answerBubble s.vehicleModel)
    else []
  else []

/-- The function `createWreckStep3`. -/
def createWreckStep3 (s : State) : List Item :=
  if truthy s.vehicleModel ∧ s.problemIs .wreck then
    if s.isTyping = true ∧ s.currentStep = 6 then [Item.typing]
    else if 6 ≤ s.currentStep ∧ s.isTyping = false then
      [Item.bot (.t "wreck_step3_bot_question")] ++
        (if s.currentStep = 6 then [Item.textInput .year]
         else answerBubble s.vehicleYear)
    else []
  else []

/-- The function `createStep1b`. -/
def createStep1b (s : State) : List Item :=
  match s.vehicle with
  | none => []
  | some v =>
    if s.problemIs .flat then
      [Item.user (.t ("vehicle_" ++ v.name))] ++
        (if s.isTyping = true ∧ s.currentStep = 3 then [Item.typing]
         else if 3 ≤ s.currentStep ∧ s.isTyping = false then
           [Item.bot (.t "step1b_bot_question")] ++
             (if s.currentStep = 3 then [Item.smallOptions [.front, .rear]] else [])
         else [])
    else []

/-- The part shared by the two cases of `createStep2`: typing indicator, or
the transmission question with its options at exactly step 2. -/
def transmissionQuestion (s : State) : List Item :=
  if s.isTyping = true ∧ s.currentStep = 4 then [Item.typing]
  else if 4 ≤ s.currentStep ∧ s.isTyping = false then
    [Item.bot (.t "step2_bot_question")] ++
      (if s.currentStep = 4 then [Item.smallOptions TRANSMISSIONS] else [])
  else []

/-- The function `createStep2`. -/
def createStep2 (s : State) : List Item :=
  (match s.vehicle with
   | none => []
   | some v =>
     if s.problemIs .flat then []
     else [Item.user (.t ("vehicle_" ++ v.name))] ++ transmissionQuestion s) ++
  (match s.wheelPosition with
   | none => []
   | some wp =>
     if s.problemIs .flat then
       [Item.user (.t ("wheel_position_" ++ wp.name))] ++ transmissionQuestion s
     else [])

/-- The function `createStep3`. -/
def createStep3 (s : State) : List Item :=
  match s.transmission with
  | none => []
  | some tr =>
    [Item.user (.t ("transmission_" ++ tr.name))] ++
      (if s.isTyping = true ∧ s.currentStep = 6 then [Item.typing]
       else if 6 ≤ s.currentStep ∧ s.isTyping = false then
         [Item.bot (.t "step3_bot_question")] ++
           (if s.currentStep = 6 then [Item.smallOptions [.yes, .no]] else [])
       else [])

/-- The tail of `createStep4` after the user bubble. -/
def locationQuestion (s : State) : List Item :=
  if s.isTyping = true ∧ s.currentStep = 8 then [Item.typing]
  else if 8 ≤ s.currentStep then
    [Item.bot (.t "step4_bot_question")] ++
      (if s.currentStep = 8 then
         (if s.showAddressInput = false then [Item.locationOptions]
          else [Item.addressInput])
       else [])
  else []

/-- The function `createStep4`. -/
def createStep4 (s : State) : List Item :=
  if s.problemIs .wreck then
    (if truthy s.vehicleYear then
       [Item.user (.lit (s.vehicleYear.getD ""))] ++ locationQuestion s
     else [])
  else
    match s.fourWheelDrive with
    | none => []
    | some fw =>
      [Item.user (.t ("fourwd_" ++ (if fw then "yes" else "no")))] ++ locationQuestion s

/-- The function `createStep4b`. -/
def createStep4b (s : State) : List Item :=
  match s.location.type with
  | none => []
  | some ty =>
    [Item.user (if ty = .gps then .t "location_gps" else .lit s.location.address),
     Item.bot (.t "step4b_bot_question")] ++
      (if s.showDestinationInput = false then [Item.destinationOptions]
       else [Item.destinationInput])

/-- The value `finalCondition` of `createStep5`, as a truth value. -/
def finalCondition (s : State) : Bool :=
  if s.needsDestination then (s.destination.address != "") || s.destination.unknown
  else s.location.type.isSome

/-- The function `createStep5`. -/
def createStep5 (s : State) : List Item :=
  if finalCondition s then
    (if s.needsDestination then
       [Item.user (if s.destination.unknown then .t "destination_unknown"
                   else .lit s.destination.address)]
     else []) ++
    (if s.isTyping = true ∧ s.currentStep = s.finalStep then [Item.typing]
     else if s.finalStep ≤ s.currentStep then
       [Item.bot (.t "step5_bot_message")] ++
         (if s.finalStep < s.currentStep then [Item.summaryCard] else [])
     else [])
  else []

/-- The string `html` assembled by `renderCurrentStep`. -/
def chatHtml (s : State) : List Item :=
  (if 0 ≤ s.currentStep then createStep0 s else []) ++
  (if s.problemIs .wreck then
     (if 2 ≤ s.currentStep then createWreckStep1 s else []) ++
     (if 4 ≤ s.currentStep then createWreckStep2 s else []) ++
     (if 6 ≤ s.currentStep then createWreckStep3 s else []) ++
     (if 8 ≤ s.currentStep then createStep4 s else []) ++
     (if 10 ≤ s.currentStep then createStep5 s else [])
   else
     (if 2 ≤ s.currentStep then createStep1 s else []) ++
     (if 3 ≤ s.currentStep ∧ s.problemIs .flat then createStep1b s else []) ++
     (if 4 ≤ s.currentStep then createStep2 s else []) ++
     (if 6 ≤ s.currentStep then createStep3 s else []) ++
     (if 8 ≤ s.currentStep then createStep4 s else []) ++
     (if 10 ≤ s.currentStep ∧ s.needsDestination then createStep4b s else []) ++
     (if s.finalStep ≤ s.currentStep then createStep5 s else []))

/-! ## The page: state, chat area and pending callbacks -/

/-- The callbacks handed to `setTimeout` that touch `state` or the chat area. -/
inductive Callback
  /-- The function `goToNextStep`, queued by an answer handler. -/
  | goToNextStep
  /-- The arrow function queued by `goToNextStep` to end the typing pause. -/
  | afterTyping
  /-- The arrow function queued at the final step to show the recap. -/
  | showRecap
  /-- The arrow function queued by the vehicle handler on a flat tyre. -/
  | flatAfterTyping
  /-- The arrow function queued by `showModal`. -/
  | initialAfterTyping
  /-- The arrow function queued by the address button (autocomplete set-up). -/
  | initAddressPlaces
  deriving DecidableEq, Repr

/-- A pending `setTimeout`: the time it is due and its callback. -/
structure Timer where
  due : Nat
  cb : Callback
  deriving DecidableEq, Repr

/-- Everything the wizard script can read or change. -/
structure World where
  /-- The module-level `state`. -/
  state : State
  /-- The contents of `#wa-chat-area` left by the last `renderCurrentStep`. -/
  chatArea : List Item
  /-- The callbacks waiting in `setTimeout`, in order of creation. -/
  timers : List Timer
  /-- The clock, in milliseconds. -/
  now : Nat
  /-- Whether `modalElement` is set. -/
  modalElement : Bool
  /-- Whether the modal is displayed. -/
  visible : Bool
  /-- Whether `directionsService` is set. -/
  directionsService : Bool
  /-- Whether an autocomplete is attached to the current `#wa-address-input`. -/
  addressAutocomplete : Bool
  /-- The number of `getCurrentPosition` calls that have not called back. -/
  gpsRequests : Nat
  /-- The number of `directionsService.route` calls that have not called back. -/
  routeRequests : Nat
  /-- How many times `attachStepEvents` has run on the elements now in the
  chat area: each run adds one listener to every button. -/
  listeners : Nat
  /-- Whether the `#wa-gps-btn` now in the chat area is disabled. -/
  gpsDisabled : Bool
  /-- Whether the header now in the modal has its listeners. -/
  headerEvents : Bool
  deriving DecidableEq, Repr

/-- The page after the script has been loaded and before the wizard is opened. -/
def pageLoad (lang : Lang) : World :=
  { state := initialState lang, chatArea := [], timers := [], now := 0,
    modalElement := false, visible := false, directionsService := false,
    addressAutocomplete := false, gpsRequests := 0, routeRequests := 0, listeners := 0,
    gpsDisabled := false, headerEvents := false }

/-- The call `setTimeout(cb, delay)`. -/
def World.setTimeout (w : World) (cb : Callback) (delay : Nat) : World :=
  { w with timers := w.timers ++ [⟨w.now + delay, cb⟩] }

/-! ## SECTION 13: render and navigation -/

/-- Whether building the chat area throws: `createSummaryCard` reads
`state.problem.id`, so the template fails with a `TypeError` when the recap
card is reached while `state.problem` is `null`. -/
def renderThrows (s : State) : Bool :=
  s.problem.isNone && decide (Item.summaryCard ∈ chatHtml s)

/-- Whether the call `renderCurrentStep()` ends with that exception (without a
chat area the function returns before building anything). -/
def renderFails (w : World) : Bool :=
  w.modalElement && renderThrows w.state

/-- The function `renderCurrentStep`: the chat area is replaced by freshly
built elements, on which `attachStepEvents` runs once; it also sets up the
autocomplete of the destination input when that input is present (the Maps
script is taken to be loaded), which creates the directions service. When
building the elements throws, nothing is changed. -/
def renderCurrentStep (w : World) : World :=
  if w.modalElement = true ∧ renderThrows w.state = false then
    { w with
      chatArea := chatHtml w.state
      addressAutocomplete := false
      directionsService :=
        w.directionsService || decide (Item.destinationInput ∈ chatHtml w.state)
      listeners := 1
      gpsDisabled := false }
  else w

/-- The function `goToNextStep`, up to the `setTimeout` it queues; an
exception in `renderCurrentStep` ends the call before the `setTimeout`. -/
def goToNextStep (w : World) : World :=
  let w1 : World :=
    { w with state := { w.state with currentStep := w.state.currentStep + 2, isTyping := true } }
  if renderFails w1 then w1
  else (renderCurrentStep w1).setTimeout .afterTyping typingDelayAfterUser

/-- The callback queued by `goToNextStep`; an exception in `renderCurrentStep`
ends it before the recap is scheduled. -/
def afterTyping (w : World) : World :=
  let w0 : World := { w with state := { w.state with isTyping := false } }
  if renderFails w0 then w0
  else
    let w1 := renderCurrentStep w0
    if w1.state.currentStep = w1.state.finalStep then w1.setTimeout .showRecap 2000
    else w1

/-- The callback queued at the final step: `state.currentStep += 0.5`. -/
def showRecap (w : World) : World :=
  renderCurrentStep { w with state := { w.state with currentStep := w.state.currentStep + 1 } }

/-- The callbacks queued by `showModal` and by the vehicle handler on a flat
tyre: the typing pause ends and the chat area is rendered again. -/
def endTyping (w : World) : World :=
  renderCurrentStep { w with state := { w.state with isTyping := false } }

/-! ## SECTION 14: event handlers -/

/-- The click handler of a problem button. -/
def onProblemClick (problemId : ProblemId) (w : World) : World :=
  ({ w with state := { w.state with problem := PROBLEMS.find? (fun p => p.id == problemId) } }
  ).setTimeout .goToNextStep transitionDelay

/-- The click handler of a vehicle category button. -/
def onVehicleClick (vehicleId : VehicleId) (w : World) : World :=
  let w1 : World := { w with state := { w.state with vehicle := some vehicleId } }
  if w1.state.problemIs .flat then
    let w2 : World := { w1 with state := { w1.state with currentStep := 3, isTyping := true } }
    if renderFails w2 then w2
    else (renderCurrentStep w2).setTimeout .flatAfterTyping typingDelayAfterUser
  else w1.setTimeout .goToNextStep transitionDelay

/-- The function `handleBrandSubmit`; `value` is the trimmed input. -/
def handleBrandSubmit (value : String) (w : World) : World :=
  if value != "" then
    ({ w with state := { w.state with vehicleBrand := some value } }
    ).setTimeout .goToNextStep transitionDelay
  else w

/-- The function `handleModelSubmit`; `value` is the trimmed input. -/
def handleModelSubmit (value : String) (w : World) : World :=
  if value != "" then
    ({ w with state := { w.state with vehicleModel := some value } }
    ).setTimeout .goToNextStep transitionDelay
  else w

/-- The function `handleYearSubmit`; `value` is the trimmed input. -/
def handleYearSubmit (value : String) (w : World) : World :=
  if value != "" then
    ({ w with state := { w.state with vehicleYear := some value } }
    ).setTimeout .goToNextStep transitionDelay
  else w

/-- The click handler of a small option button. -/
def onSmallOptionClick (value : OptionId) (w : World) : World :=
  if w.state.currentStep = 3 then
    ({ w with state := { w.state with wheelPosition := some value } }
    ).setTimeout .goToNextStep transitionDelay
  else if w.state.currentStep = 4 then
    ({ w with state := { w.state with transmission := some value } }
    ).setTimeout .goToNextStep transitionDelay
  else if w.state.currentStep = 6 then
    ({ w with state := { w.state with fourWheelDrive := some (value == OptionId.yes) } }
    ).setTimeout .goToNextStep transitionDelay
  else w

/-- The click handler of `#wa-address-btn`. -/
def onAddressBtnClick (w : World) : World :=
  let w1 : World := { w with state := { w.state with showAddressInput := true } }
  if renderFails w1 then w1
  else (renderCurrentStep w1).setTimeout .initAddressPlaces 100

/-- The callback queued by `onAddressBtnClick`: `initGooglePlaces` attaches
the autocomplete when `#wa-address-input` is in the chat area. -/
def initAddressPlaces (w : World) : World :=
  if Item.addressInput ∈ w.chatArea then
    { w with addressAutocomplete := true, directionsService := true }
  else w

/-- The click handler of `#wa-address-back`. -/
def onAddressBackClick (w : World) : World :=
  renderCurrentStep { w with state := { w.state with showAddressInput := false } }

/-- The click handler of `#wa-destination-address-btn`. -/
def onDestinationAddressBtnClick (w : World) : World :=
  renderCurrentStep { w with state := { w.state with showDestinationInput := true } }

/-- The click handler of `#wa-destination-back`. -/
def onDestinationBackClick (w : World) : World :=
  renderCurrentStep { w with state := { w.state with showDestinationInput := false } }

/-- The click handler of `#wa-unknown-btn`. -/
def onUnknownBtnClick (w : World) : World :=
  ({ w with state := { w.state with
      destination := { w.state.destination with unknown := true, address := "" } } }
  ).setTimeout .goToNextStep transitionDelay

/-! ## SECTION 15: geolocation -/

/-- The kinds of error `getCurrentPosition` reports. -/
inductive GeoError
  | permissionDenied | positionUnavailable | timeout | unknown
  deriving DecidableEq, Repr

/-- The function `handleGPSLocation` up to the call of `getCurrentPosition`
(the browser is taken to offer geolocation): the button is looked up,
disabled, and a position is requested. -/
def handleGPSLocation (w : World) : World :=
  if Item.locationOptions ∈ w.chatArea then
    { w with gpsDisabled := true, gpsRequests := w.gpsRequests + 1 }
  else w

/-- The success callback given to `getCurrentPosition`. -/
def onPosition (lat lng : String) (w : World) : World :=
  ({ w with state := { w.state with
      location := { w.state.location with type := some .gps, coords := some ⟨lat, lng⟩ } } }
  ).setTimeout .goToNextStep transitionDelay

/-- The error callback given to `getCurrentPosition`; the error code only
selects the text of the alert. The button it enables again is the one that
was clicked; when the chat area has been rendered since, the render that
follows puts an enabled button there in any case. -/
def onPositionError (_code : GeoError) (w : World) : World :=
  renderCurrentStep
    { w with gpsDisabled := false, state := { w.state with showAddressInput := true } }

/-! ## SECTIONS 16 and 17: address selection and route lookup -/

/-- The function `handleAddressSelect`. -/
def handleAddressSelect (address : String) (w : World) : World :=
  ({ w with state := { w.state with
      location := { w.state.location with type := some .manual, address := address } } }
  ).setTimeout .goToNextStep transitionDelay

/-- The function `calculateDistance` up to the call of `route`. -/
def calculateDistance (w : World) : World :=
  if w.directionsService = false then w
  else { w with routeRequests := w.routeRequests + 1 }

/-- The function `handleDestinationSelect`. -/
def handleDestinationSelect (address : String) (w : World) : World :=
  calculateDistance
    { w with state := { w.state with
        destination := { w.state.destination with address := address, unknown := false } } }

/-- The callback given to `directionsService.route`: `some (distance, duration)`
stands for status OK with a first route, `none` for any other outcome. -/
def onRoute (result : Option (String × String)) (w : World) : World :=
  match result with
  | some (distance, duration) =>
    ({ w with state := { w.state with
        destination := { w.state.destination with
          distance := some distance, duration := some duration } } }
    ).setTimeout .goToNextStep 1000
  | none => w

/-! ## SECTION 19: modal show and hide -/

/-- The function `showModal`: when there is no modal yet it is created, and
`attachHeaderEvents` runs on its header. At step 0 the recap card is not
built, so the call of `renderCurrentStep` cannot throw here. -/
def showModal (w : World) : World :=
  let w1 : World :=
    { w with modalElement := true, headerEvents := w.headerEvents || !w.modalElement }
  let w2 : World := renderCurrentStep
    { w1 with state := { w1.state with
        currentStep := 0
        isTyping := true
        showAddressInput := false
        problem := none
        vehicle := none
        transmission := none
        fourWheelDrive := none
        location := { type := none, coords := none, address := "" }
        destination := { address := "", unknown := false, distance := none, duration := none } } }
  { w2.setTimeout .initialAfterTyping typingDelayInitial with visible := true }

/-- The function `hideModal`. -/
def hideModal (w : World) : World :=
  if w.modalElement then { w with visible := false } else w

/-- The click handler of a `.wa-lang-option`: the header is replaced, the
chat area is rendered, and `attachHeaderEvents` runs, which calls
`attachStepEvents` a second time on the elements just rendered. When the
render throws, the new header is left without listeners. (The option has one
such listener per earlier `attachStepEvents`; after the first has run the
language is the chosen one and the others do nothing.) -/
def onLanguageOptionClick (newLang : Lang) (w : World) : World :=
  if newLang ≠ w.state.currentLanguage then
    let w1 : World := { w with state := { w.state with currentLanguage := newLang } }
    if renderFails w1 then { w1 with headerEvents := false }
    else
      let w2 := renderCurrentStep w1
      { w2 with listeners := w2.listeners + 1 }
  else w

/-! ## Events and runs -/

/-- What can happen to the page from outside: a click or text entry of the
visitor, or the answer of the browser or of the Maps service to a request. -/
inductive Event
  /-- A click on one of the page buttons bound to `handleWhatsAppClick`. -/
  | showModal
  /-- The close button, the Escape key or a click on the overlay. -/
  | hideModal
  | clickProblem (id : ProblemId)
  | clickVehicle (id : VehicleId)
  /-- The brand field is submitted; `value` is the trimmed input. -/
  | submitBrand (value : String)
  /-- The model field is submitted; `value` is the trimmed input. -/
  | submitModel (value : String)
  /-- The year field is submitted; `value` is the trimmed input. -/
  | submitYear (value : String)
  | clickSmallOption (id : OptionId)
  | clickGps
  /-- The browser reports a position. -/
  | gpsSuccess (lat lng : String)
  /-- The browser reports a geolocation error. -/
  | gpsError (code : GeoError)
  | clickAddressBtn
  | clickAddressBack
  /-- The visitor picks a place in the autocomplete of the address input. -/
  | selectAddress (address : String)
  | clickDestinationAddressBtn
  | clickDestinationBack
  /-- The visitor picks a place in the autocomplete of the destination input. -/
  | selectDestination (address : String)
  /-- The Maps service answers a route request. -/
  | routeResult (result : Option (String × String))
  | clickUnknown
  /-- The visitor picks a language in the header. -/
  | changeLanguage (lang : Lang)
  deriving DecidableEq, Repr

/-- Whether the chat area holds a problem button with this id. -/
def hasProblemOption (html : List Item) (id : ProblemId) : Bool :=
  html.any fun it => match it with
    | .problemOptions ids => ids.contains id
    | _ => false

/-- Whether the chat area holds a vehicle button with this id. -/
def hasVehicleOption (html : List Item) (id : VehicleId) : Bool :=
  html.any fun it => match it with
    | .vehicleOptions ids => ids.contains id
    | _ => false

/-- Whether the chat area holds a small option button with this id. -/
def hasSmallOption (html : List Item) (id : OptionId) : Bool :=
  html.any fun it => match it with
    | .smallOptions ids => ids.contains id
    | _ => false

/-- Whether an event can happen: a click needs its element in the chat
area of a displayed modal (and a GPS button that is not disabled), a place
can only be picked in an input with an autocomplete and is never empty, an
answer needs an open request, and a language needs a header with listeners. -/
def enabled (w : World) : Event → Bool
  | .showModal => true
  | .hideModal => true
  | .clickProblem id => w.visible && hasProblemOption w.chatArea id
  | .clickVehicle id => w.visible && hasVehicleOption w.chatArea id
  | .submitBrand _ => w.visible && decide (Item.textInput .brand ∈ w.chatArea)
  | .submitModel _ => w.visible && decide (Item.textInput .model ∈ w.chatArea)
  | .submitYear _ => w.visible && decide (Item.textInput .year ∈ w.chatArea)
  | .clickSmallOption id => w.visible && hasSmallOption w.chatArea id
  | .clickGps => w.visible && decide (Item.locationOptions ∈ w.chatArea) && !w.gpsDisabled
  | .gpsSuccess _ _ => decide (0 < w.gpsRequests)
  | .gpsError _ => decide (0 < w.gpsRequests)
  | .clickAddressBtn => w.visible && decide (Item.locationOptions ∈ w.chatArea)
  | .clickAddressBack => w.visible && decide (Item.addressInput ∈ w.chatArea)
  | .selectAddress address =>
      w.visible && decide (Item.addressInput ∈ w.chatArea) && w.addressAutocomplete
        && (address != "")
  | .clickDestinationAddressBtn =>
      w.visible && decide (Item.destinationOptions ∈ w.chatArea)
  | .clickDestinationBack => w.visible && decide (Item.destinationInput ∈ w.chatArea)
  | .selectDestination address =>
      w.visible && decide (Item.destinationInput ∈ w.chatArea) && (address != "")
  | .routeResult _ => decide (0 < w.routeRequests)
  | .clickUnknown => w.visible && decide (Item.destinationOptions ∈ w.chatArea)
  | .changeLanguage _ => w.visible && w.headerEvents

/-- The handler that runs on an event. -/
def handle (w : World) : Event → World
  | .showModal => showModal w
  | .hideModal => hideModal w
  | .clickProblem id => onProblemClick id w
  | .clickVehicle id => onVehicleClick id w
  | .submitBrand value => handleBrandSubmit value w
  | .submitModel value => handleModelSubmit value w
  | .submitYear value => handleYearSubmit value w
  | .clickSmallOption id => onSmallOptionClick id w
  | .clickGps => handleGPSLocation w
  | .gpsSuccess lat lng => onPosition lat lng { w with gpsRequests := w.gpsRequests - 1 }
  | .gpsError code => onPositionError code { w with gpsRequests := w.gpsRequests - 1 }
  | .clickAddressBtn => onAddressBtnClick w
  | .clickAddressBack => onAddressBackClick w
  | .selectAddress address => handleAddressSelect address w
  | .clickDestinationAddressBtn => onDestinationAddressBtnClick w
  | .clickDestinationBack => onDestinationBackClick w
  | .selectDestination address => handleDestinationSelect address w
  | .routeResult result => onRoute result { w with routeRequests := w.routeRequests - 1 }
  | .clickUnknown => onUnknownBtnClick w
  | .changeLanguage lang => onLanguageOptionClick lang w

/-- Whether the handler of an event is a listener that `attachStepEvents`
adds to an element of the chat area (an autocomplete is only set up once per
input, so picking a place is not among them). -/
def Event.onChatArea : Event → Bool
  | .clickProblem _ | .clickVehicle _ | .submitBrand _ | .submitModel _ | .submitYear _
  | .clickSmallOption _ | .clickGps | .clickAddressBtn | .clickAddressBack
  | .clickDestinationAddressBtn | .clickDestinationBack | .clickUnknown => true
  | _ => false

/-- The handler runs `n` times in a row. -/
def handleTimes (e : Event) : Nat → World → World
  | 0, w => w
  | n + 1, w => handleTimes e n (handle w e)

/-- What an event sets off: every listener of the element runs, one after the
other, so the handler of a chat-area element runs once per `attachStepEvents`
that has seen the element. -/
def dispatch (w : World) (e : Event) : World :=
  if e.onChatArea then handleTimes e w.listeners w else handle w e

/-- The body of a queued callback. -/
def runCallback (w : World) : Callback → World
  | .goToNextStep => goToNextStep w
  | .afterTyping => afterTyping w
  | .showRecap => showRecap w
  | .flatAfterTyping => endTyping w
  | .initialAfterTyping => endTyping w
  | .initAddressPlaces => initAddressPlaces w

/-- The timer that runs next: the earliest due, the oldest among equals. -/
def nextTimer : List Timer → Option Timer
  | [] => none
  | tm :: rest =>
    match nextTimer rest with
    | none => some tm
    | some m => if m.due < tm.due then some m else some tm

/-- The next timer runs: the clock moves to its due time, the timer leaves
the queue and its callback is executed. -/
def fire (w : World) : Option World :=
  match nextTimer w.timers with
  | none => none
  | some tm => some (runCallback { w with now := tm.due, timers := w.timers.erase tm } tm.cb)

/-- One move of a run. -/
inductive Act
  /-- Time passes, without reaching past a pending timer. -/
  | wait (ms : Nat)
  /-- The next pending timer runs. -/
  | fire
  /-- An event happens now. -/
  | ev (e : Event)
  deriving DecidableEq, Repr

/-- One move of the page; `none` when the move is not possible. -/
def step (w : World) : Act → Option World
  | .wait ms =>
    if w.timers.all (fun tm => decide (w.now + ms ≤ tm.due)) then
      some { w with now := w.now + ms }
    else none
  | .fire => fire w
  | .ev e => if enabled w e then some (dispatch w e) else none

/-- A run: the moves are made one after the other. -/
def run (w : World) : List Act → Option World
  | [] => some w
  | a :: rest =>
    match step w a with
    | none => none
    | some w1 => run w1 rest

/-- The values taken by `currentStep` (in half steps) along a run, starting
with the value before the first move. -/
def stepsAlong (w : World) : List Act → Option (List Nat)
  | [] => some [w.state.currentStep]
  | a :: rest =>
    match step w a with
    | none => none
    | some w1 => (stepsAlong w1 rest).map (fun l => w.state.currentStep :: l)

/-- A list with every run of equal neighbours shortened to one element. -/
def squeeze : List Nat → List Nat
  | [] => []
  | [a] => [a]
  | a :: b :: rest => if a = b then squeeze (b :: rest) else a :: squeeze (b :: rest)

/-- The worlds that can be reached from a freshly loaded page. -/
inductive Reach : World → Prop
  | load (lang : Lang) : Reach (pageLoad lang)
  | move {w w1 : World} (a : Act) : Reach w → step w a = some w1 → Reach w1

/-! ## Sessions in which every question is answered once -/

/-- A displayed wizard at rest: the chat area shows `st`, no callback is
queued and no request is open. -/
def settled (st : State) (now : Nat) (ds : Bool) : World :=
  { state := st, chatArea := chatHtml st, timers := [], now := now, modalElement := true,
    visible := true, directionsService := ds, addressAutocomplete := false,
    gpsRequests := 0, routeRequests := 0, listeners := 1, gpsDisabled := false,
    headerEvents := true }

/-- The state once `goToNextStep` has run and its typing pause has ended. -/
def bump (st : State) : State :=
  { st with currentStep := st.currentStep + 2, isTyping := false }

/-- The state once the recap has been shown after the last `goToNextStep`. -/
def bumpFinal (st : State) : State :=
  { st with currentStep := st.currentStep + 3, isTyping := false }

/-- From rest at `st`, whatever the clock, the moves `acts` can be made, take
`currentStep` through `ks` and end at rest at `st1`. -/
def Leads (st : State) (acts : List Act) (ks : List Nat) (st1 : State) : Prop :=
  ∀ now ds, ∃ now1 ds1,
    run (settled st now ds) acts = some (settled st1 now1 ds1) ∧
    stepsAlong (settled st now ds) acts = some ks

/-- The visitor waits `d` ms and gives an answer; the queued `goToNextStep`
runs and its typing pause ends. -/
def answer (d : Nat) (e : Event) : List Act := [.wait d, .ev e, .fire, .fire]

/-- The visitor waits `d` ms and gives the last answer; the queued
`goToNextStep` runs, its typing pause ends and the recap is shown. -/
def lastAnswer (d : Nat) (e : Event) : List Act := [.wait d, .ev e, .fire, .fire, .fire]

/-- The two ways of answering the location question: the browser position
(reported `delay` ms after the click), or an address picked in the
autocomplete `delay` ms after it was set up. -/
inductive LocationAnswer
  | gps (lat lng : String) (delay : Nat)
  | manual (address : String) (delay : Nat)

/-- The moves of a location answer up to the answer itself. -/
def LocationAnswer.acts : LocationAnswer → List Act
  | .gps lat lng d => [.ev .clickGps, .wait d, .ev (.gpsSuccess lat lng)]
  | .manual address d => [.ev .clickAddressBtn, .fire, .wait d, .ev (.selectAddress address)]

/-- An address picked in the autocomplete is never empty. -/
def LocationAnswer.wellFormed : LocationAnswer → Prop
  | .gps _ _ _ => True
  | .manual address _ => address ≠ ""

instance : (loc : LocationAnswer) → Decidable loc.wellFormed
  | .gps _ _ _ => isTrue trivial
  | .manual address _ => inferInstanceAs (Decidable (address ≠ ""))

/-- The state left by the handler of a location answer. -/
def LocationAnswer.record (st : State) : LocationAnswer → State
  | .gps lat lng _ =>
    { st with location := { st.location with type := some .gps, coords := some ⟨lat, lng⟩ } }
  | .manual address _ =>
    { st with showAddressInput := true
              location := { st.location with type := some .manual, address := address } }

/-- The ways of answering the destination question: the "unknown" button
after `delay` ms, or an address picked in the autocomplete after `delay` ms
for which the route request, answered `lookup` ms later, gives a distance
and a duration. -/
inductive DestinationAnswer
  | unknown (delay : Nat)
  | address (address distance duration : String) (delay lookup : Nat)

/-- The moves of a destination answer up to the queued `goToNextStep`. -/
def DestinationAnswer.acts : DestinationAnswer → List Act
  | .unknown d => [.wait d, .ev .clickUnknown]
  | .address a dist dur d l =>
    [.ev .clickDestinationAddressBtn, .wait d, .ev (.selectDestination a), .wait l,
     .ev (.routeResult (some (dist, dur)))]

/-- An address picked in the autocomplete is never empty. -/
def DestinationAnswer.wellFormed : DestinationAnswer → Prop
  | .unknown _ => True
  | .address a _ _ _ _ => a ≠ ""

instance : (dest : DestinationAnswer) → Decidable dest.wellFormed
  | .unknown _ => isTrue trivial
  | .address a _ _ _ _ => inferInstanceAs (Decidable (a ≠ ""))

/-- The state left by the handlers of a destination answer. -/
def DestinationAnswer.record (st : State) : DestinationAnswer → State
  | .unknown _ =>
    { st with destination := { st.destination with unknown := true, address := "" } }
  | .address a dist dur _ _ =>
    { st with showDestinationInput := true
              destination := { address := a, unknown := false,
                               distance := some dist, duration := some dur } }

/-- The wizard is opened and its first typing pause ends. -/
def openWizard : List Act := [.ev .showModal, .fire]

/-- The questions asked before the location on the branch of a problem
other than flat tyre and wreck, each answered once. -/
def vehicleQuestions (p : ProblemId) (v : VehicleId) (tr fw : OptionId)
    (d0 d1 d2 d3 : Nat) : List Act :=
  answer d0 (.clickProblem p) ++ answer d1 (.clickVehicle v) ++
    answer d2 (.clickSmallOption tr) ++ answer d3 (.clickSmallOption fw)

/-- A whole session on the standard branch: problem, vehicle category,
transmission, four-wheel drive and location are answered once, in turn. -/
def standardSession (p : ProblemId) (v : VehicleId) (tr fw : OptionId)
    (loc : LocationAnswer) (d0 d1 d2 d3 d4 : Nat) : List Act :=
  openWizard ++ vehicleQuestions p v tr fw d0 d1 d2 d3 ++
    ([.wait d4] ++ loc.acts ++ [.fire, .fire, .fire])

/-- A towing session up to the moment the destination question is shown. -/
def towingToDestination (v : VehicleId) (tr fw : OptionId) (loc : LocationAnswer)
    (d0 d1 d2 d3 d4 : Nat) : List Act :=
  openWizard ++ vehicleQuestions .towing v tr fw d0 d1 d2 d3 ++
    ([.wait d4] ++ loc.acts ++ [.fire, .fire])

/-- A whole towing session. -/
def towingSession (v : VehicleId) (tr fw : OptionId) (loc : LocationAnswer)
    (dest : DestinationAnswer) (d0 d1 d2 d3 d4 : Nat) : List Act :=
  towingToDestination v tr fw loc d0 d1 d2 d3 d4 ++ (dest.acts ++ [.fire, .fire, .fire])

/-- A whole wreck session: brand, model, year and location are answered
once, in turn. -/
def wreckSession (brand model year : String) (loc : LocationAnswer)
    (d0 d1 d2 d3 d4 : Nat) : List Act :=
  openWizard ++ answer d0 (.clickProblem .wreck) ++ answer d1 (.submitBrand brand) ++
    answer d2 (.submitModel model) ++ answer d3 (.submitYear year) ++
    ([.wait d4] ++ loc.acts ++ [.fire, .fire, .fire])

/-- The state at the vehicle question: the problem has been chosen. -/
def afterProblem (lang : Lang) (p : ProblemId) : State :=
  bump { initialState lang with problem := some ⟨p, decide (p = .towing)⟩ }

/-- The state at the transmission question on the standard branch. -/
def afterVehicle (lang : Lang) (p : ProblemId) (v : VehicleId) : State :=
  bump { afterProblem lang p with vehicle := some v }

/-- The state at the four-wheel-drive question. -/
def afterTransmission (lang : Lang) (p : ProblemId) (v : VehicleId) (tr : OptionId) : State :=
  bump { afterVehicle lang p v with transmission := some tr }

/-- The state at the location question on the standard branch. -/
def afterFourWheelDrive (lang : Lang) (p : ProblemId) (v : VehicleId) (tr fw : OptionId) :
    State :=
  bump { afterTransmission lang p v tr with fourWheelDrive := some (fw == OptionId.yes) }

/-- The state at the model question of the wreck branch. -/
def afterBrand (lang : Lang) (brand : String) : State :=
  bump { afterProblem lang .wreck with vehicleBrand := some brand }

/-- The state at the year question of the wreck branch. -/
def afterModel (lang : Lang) (brand model : String) : State :=
  bump { afterBrand lang brand with vehicleModel := some model }

/-- The state at the location question of the wreck branch. -/
def afterYear (lang : Lang) (brand model year : String) : State :=
  bump { afterModel lang brand model with vehicleYear := some year }

/-- Whether an item lets the visitor answer (a button group, an input or
the recap card), as opposed to a chat bubble. -/
@[simp]
def Item.isAffordance : Item → Bool
  | .bot _ => false
  | .user _ => false
  | .typing => false
  | _ => true

/-! ## Particular sessions -/

/-- A flat-tyre session: problem flat, a vehicle category, then a wheel
position once the wheel question is shown; the queued `goToNextStep` runs and
its typing pause ends. -/
def flatTyreSession (v : VehicleId) (wheel : OptionId) : List Act :=
  [.ev .showModal, .fire, .wait 2000, .ev (.clickProblem .flat), .fire, .fire,
   .wait 1500, .ev (.clickVehicle v), .fire,
   .wait 1000, .ev (.clickSmallOption wheel), .fire, .fire]

/-- A towing session in which the route request for the picked destination
fails. -/
def towingRouteFailure : List Act :=
  towingToDestination .berline .manual .no (.gps "48.85" "2.35" 900) 2000 1500 1000 800 500 ++
    [.ev .clickDestinationAddressBtn, .wait 4000, .ev (.selectDestination "Garage X"),
     .wait 700, .ev (.routeResult none)]

/-- A wreck session answered up to the recap, after which the wizard is
closed and opened again. -/
def wreckThenReopen : List Act :=
  wreckSession "Fiat" "Panda" "2009" (.gps "50.85" "4.35" 900) 2000 3000 3000 3000 500 ++
    [.wait 5000, .ev .hideModal, .wait 60000, .ev .showModal]

/-- A flat-tyre session answered up to the wheel position, after which the
wizard is closed and opened again. -/
def flatThenReopen : List Act :=
  flatTyreSession .citadine .rear ++ [.wait 5000, .ev .hideModal, .wait 60000, .ev .showModal]

/-- After a wreck session the wizard is opened again and the problem
"battery" is chosen. -/
def wreckThenBattery : List Act :=
  wreckThenReopen ++ [.fire, .wait 2000, .ev (.clickProblem .battery), .fire, .fire]

/-- A flat-tyre session up to the vehicle question. -/
def flatAtVehicleQuestion : List Act :=
  [.ev .showModal, .fire, .wait 2000, .ev (.clickProblem .flat), .fire, .fire]

/-- A battery session reaches its final step; while the recap is pending
(it is shown 2000 ms after the typing pause) the visitor closes the wizard
and opens it again; the recap callback of the first session then runs. -/
def staleRecap : List Act :=
  openWizard ++ vehicleQuestions .battery .berline .manual .no 2000 1500 1000 800 ++
    [.wait 500, .ev .clickGps, .wait 900, .ev (.gpsSuccess "50.85" "4.35"), .fire, .fire,
     .wait 500, .ev .hideModal, .wait 700, .ev .showModal, .fire]

/-- At the location question the visitor asks for the browser position,
leaves the permission prompt unanswered and picks an address instead; the
session reaches its final step, and while the recap is pending the visitor
closes the wizard, opens it again and only then allows the position: the
`goToNextStep` queued by the position and the recap of the first session
both run in the new session. -/
def staleRecapAndPosition : List Act :=
  openWizard ++ vehicleQuestions .battery .berline .manual .no 2000 1500 1000 800 ++
    [.wait 500, .ev .clickGps, .wait 1000, .ev .clickAddressBtn, .fire,
     .wait 4000, .ev (.selectAddress "Rue Neuve 10, Brussels"), .fire, .fire,
     .wait 300, .ev .hideModal, .wait 500, .ev .showModal,
     .wait 200, .ev (.gpsSuccess "50.85" "4.35"), .fire, .fire]

/-! ## Invariants of the page -/

/-- The chat area shows some state `snap` that has the current step and,
unless it is step 0, the current problem: every change of `currentStep` is
followed by `renderCurrentStep` in the same callback, and the problem is
only chosen from the buttons of step 0. The other case is that a render has
thrown since: then no problem is set, and the chat area, left as it was,
shows a state without a problem from step 4.5 on, while `currentStep` is
past 5. -/
def InSync (w : World) : Prop :=
  ∃ snap : State, w.chatArea = chatHtml snap ∧ renderThrows snap = false ∧
    ((snap.currentStep = w.state.currentStep ∧
        (snap.currentStep ≠ 0 → snap.problem = w.state.problem)) ∨
      (w.state.problem = none ∧ 10 < w.state.currentStep ∧ snap.problem = none ∧
        9 ≤ snap.currentStep))

/-- Before the wizard is first opened the chat area does not exist; from
then on it is in sync with the state. -/
def Coherent (w : World) : Prop :=
  (w.modalElement = false → w.chatArea = []) ∧ (w.modalElement = true → InSync w)

/-- The worlds of one session: those reached from `w0`, the world right after
`showModal`, by moves other than opening the wizard again. -/
inductive SessionReach (w0 : World) : World → Prop
  | start : SessionReach w0 w0
  | move {w w1 : World} (a : Act) :
      SessionReach w0 w → a ≠ .ev .showModal → step w a = some w1 → SessionReach w0 w1

/-- The wheel position is only set on the flat-tyre branch, from its
sub-step on. -/
def WheelOnlyFlat (s : State) : Prop :=
  s.wheelPosition ≠ none → s.problemIs .flat = true ∧ 3 ≤ s.currentStep

/-- The world at the end of a run (the starting world if the run is not
possible). -/
def worldAfter (w0 : World) (acts : List Act) : World :=
  (run w0 acts).getD w0

/-- No recap callback is waiting. -/
def NoRecapPending (w : World) : Prop :=
  ∀ tm ∈ w.timers, tm.cb ≠ .showRecap

/-- Nothing is waiting that could change the step or give an answer: no
queued `goToNextStep`, no recap callback, no open position or route
request. -/
def NothingPending (w : World) : Prop :=
  (∀ tm ∈ w.timers, tm.cb ≠ .goToNextStep ∧ tm.cb ≠ .showRecap) ∧
    w.gpsRequests = 0 ∧ w.routeRequests = 0

instance (w : World) : Decidable (NoRecapPending w) :=
  inferInstanceAs (Decidable (∀ tm ∈ w.timers, tm.cb ≠ .showRecap))

instance (w : World) : Decidable (NothingPending w) :=
  inferInstanceAs (Decidable ((∀ tm ∈ w.timers, tm.cb ≠ .goToNextStep ∧ tm.cb ≠ .showRecap) ∧
    w.gpsRequests = 0 ∧ w.routeRequests = 0))

/-- A pending recap callback was queued at a final step, and the half step
only arises at 1.5 on the flat-tyre branch. -/
def RecapAtFinal (w : World) : Prop :=
  (∀ tm ∈ w.timers, tm.cb = .showRecap → 10 ≤ w.state.currentStep) ∧
    w.state.currentStep ≠ 1 ∧
    (w.state.currentStep = 3 → w.state.problemIs .flat = true)

/-- While no problem is chosen the wizard is at step 0 with nothing pending,
and a chosen problem is an entry of `PROBLEMS`. -/
def ProblemChosen (w : World) : Prop :=
  (w.state.problem = none → w.state.currentStep = 0 ∧ NothingPending w) ∧
    ∀ p, w.state.problem = some p → p ∈ PROBLEMS

/-- The moves of a flat-tyre session after the wizard has been opened, up to
the vehicle answer. -/
def flatUpToVehicle (v : VehicleId) : List Act :=
  [.fire, .wait 2000, .ev (.clickProblem .flat), .fire, .fire, .wait 1500, .ev (.clickVehicle v)]

/-- The moves of a flat-tyre session after the wizard has been opened, up to
the wheel answer. -/
def flatUpToWheel : List Act :=
  flatUpToVehicle .berline ++ [.fire, .wait 1000, .ev (.clickSmallOption .front)]

/-- The moves of a battery session after the wizard has been opened, up to the
vehicle question. -/
def batteryUpToVehicleQuestion : List Act :=
  [.fire, .wait 2000, .ev (.clickProblem .battery), .fire, .fire]

/-- What the state is like when an event can happen: the step at which its
element is in the chat area, or the open request it answers. -/
def Guard (w : World) : Event → Prop
  | .clickProblem _ => w.state.currentStep = 0
  | .clickVehicle _ =>
      w.state.problem ≠ none ∧ w.state.problemIs .wreck = false ∧
        (w.state.currentStep = 2 ∨
          (w.state.currentStep = 3 ∧ w.state.problemIs .flat = true))
  | .submitBrand _ | .submitModel _ | .submitYear _ =>
      w.state.problemIs .wreck = true ∧
        (w.state.currentStep = 2 ∨ w.state.currentStep = 4 ∨ w.state.currentStep = 6)
  | .clickSmallOption _ =>
      (w.state.currentStep = 3 ∧ w.state.problemIs .flat = true) ∨
      (w.state.currentStep = 4 ∧ w.state.problemIs .wreck = false) ∨
      (w.state.currentStep = 6 ∧ w.state.problemIs .wreck = false)
  | .clickGps | .clickAddressBtn | .clickAddressBack | .selectAddress _ =>
      w.state.currentStep = 8
  | .clickDestinationAddressBtn | .clickDestinationBack | .selectDestination _
  | .clickUnknown =>
      10 ≤ w.state.currentStep ∧ w.state.needsDestination = true ∧
        w.state.problemIs .wreck = false
  | .gpsSuccess _ _ | .gpsError _ => 0 < w.gpsRequests
  | .routeResult _ => 0 < w.routeRequests
  | .showModal | .hideModal | .changeLanguage _ => True

/-- Once elements are in the chat area, `attachStepEvents` has run on them. -/
def Attached (w : World) : Prop :=
  w.chatArea ≠ [] → 1 ≤ w.listeners

/-- A battery session up to the location question. -/
def batteryUpToLocation : List Act :=
  openWizard ++ vehicleQuestions .battery .berline .manual .no 2000 1500 1000 800

/-- A battery session up to the address input of the location question. -/
def batteryAtAddressInput : List Act :=
  batteryUpToLocation ++ [.wait 500, .ev .clickAddressBtn, .fire]

/-- The visitor waits `d` ms and gives an answer, gives the same answer again
`gap` ms later, and the queued callbacks run: two `goToNextStep` and the end
of their two typing pauses. -/
def answerTwice (d gap : Nat) (e : Event) : List Act :=
  [.wait d, .ev e, .wait gap, .ev e] ++ [.fire, .fire, .fire, .fire]

/-- The visitor clicks the problem "battery" twice, 150 ms apart. -/
def doubleClickProblem : List Act :=
  openWizard ++ answerTwice 2000 150 (.clickProblem .battery)

/-- A battery session in which the transmission "manual" is clicked twice,
150 ms apart. -/
def doubleClickTransmission : List Act :=
  openWizard ++ answer 2000 (.clickProblem .battery) ++ answer 1500 (.clickVehicle .berline) ++
    answerTwice 1000 150 (.clickSmallOption .manual)

/-- A battery session has reached its final step and the recap is pending: it
was queued at 16200 ms and is due at 18200 ms; the clock is at 16700 ms. -/
def recapPending : List Act :=
  openWizard ++ vehicleQuestions .battery .berline .manual .no 2000 1500 1000 800 ++
    [.wait 500, .ev .clickGps, .wait 900, .ev (.gpsSuccess "50.85" "4.35"), .fire, .fire,
     .wait 500]

/-- The visitor closes the wizard and opens it again 700 ms later. -/
def closeAndReopen : List Act :=
  [.ev .hideModal, .wait 700, .ev .showModal]

/-! ## SECTION 2: translations -/

mutual
/-- A value read from a locale file by `response.json()`. Numbers and arrays
are never looked into by the script and are kept as the text JavaScript
prints for them. -/
inductive Json
  | null
  | bool (b : Bool)
  | num (text : String)
  | str (s : String)
  | arr (text : String)
  | obj (entries : Entries)
  deriving DecidableEq, Repr
/-- The own properties of an object, in the order of `Object.entries`. -/
inductive Entries
  | nil
  | cons (key : String) (value : Json) (rest : Entries)
  deriving DecidableEq, Repr
end

/-- JavaScript truthiness of a JSON value: `null`, `false`, 0 and the empty
string are falsy. -/
def Json.truthy : Json → Bool
  | .null => false
  | .bool b => b
  | .num text => text != "0"
  | .str s => s != ""
  | .arr _ => true
  | .obj _ => true

/-- The text a template literal prints for a value. -/
def Json.toText : Json → String
  | .null => "null"
  | .bool b => if b then "true" else "false"
  | .num text => text
  | .str s => s
  | .arr text => text
  | .obj _ => "[object Object]"

/-- The property `value[key]` of an object (`none` stands for `undefined`). -/
def Entries.get : Entries → String → Option Json
  | .nil, _ => none
  | .cons k v rest, key => if k = key then some v else rest.get key

/-- A flat table of translations, kept as the list of the assignments that
built it, in order: a later assignment to a key replaces an earlier one. -/
abbrev Table := List (String × Json)

/-- The property `table[key]` (`none` stands for `undefined`). -/
def Table.get : Table → String → Option Json
  | [], _ => none
  | (k, v) :: rest, key =>
    match Table.get rest key with
    | some x => some x
    | none => if k = key then some v else none

/-- The result of `prefix.replace(/s$/, '')`. -/
def removeTrailingS (p : String) : String :=
  match p.data.reverse with
  | 's' :: rest => String.mk rest.reverse
  | _ => p

/-- Whether `value.label || value.response || value.examples` is truthy. -/
def isLabelled (value : Entries) : Bool :=
  ((value.get "label").map Json.truthy).getD false ||
  ((value.get "response").map Json.truthy).getD false ||
  ((value.get "examples").map Json.truthy).getD false

/-- The assignment `flattened[key] = value.field`, made when the field is
truthy. -/
def assignField (value : Entries) (field key : String) : Table :=
  match value.get field with
  | some v => if v.truthy then [(key, v)] else []
  | none => []

mutual
/-- The function `flattenTranslations`, on the entries of its argument. -/
def flattenTranslations : Entries → String → Table
  | .nil, _ => []
  | .cons key value rest, pfx => flattenEntry key value pfx ++ flattenTranslations rest pfx
/-- One turn of the loop of `flattenTranslations`. -/
def flattenEntry (key : String) : Json → String → Table
  | .obj value, pfx =>
    if isLabelled value then
      let singularPrefix := removeTrailingS pfx
      let finalKey := if singularPrefix ≠ "" then singularPrefix ++ "_" ++ key else key
      assignField value "label" finalKey ++ assignField value "response" ("response_" ++ key) ++
        assignField value "examples" (finalKey ++ "_examples")
    else flattenTranslations value (if pfx ≠ "" then pfx ++ "_" ++ key else key)
  | value, pfx => [(if pfx ≠ "" then pfx ++ "_" ++ key else key, value)]
end

/-- What `fetch` and `response.json()` give for a locale file: the request or
the parsing throws, the response is not ok, or the file is read (a locale file
holds an object). -/
inductive FetchResult
  | failed
  | notOk
  | ok (data : Entries)

/-- The function `loadTranslations`: the tables after the loop, given the
tables before it and the outcome of each request. -/
def loadTranslations (T : Lang → Table) (fetched : Lang → FetchResult) : Lang → Table :=
  fun lang =>
    match fetched lang with
    | .ok data => T lang ++ flattenTranslations data ""
    | _ => T lang

/-- A table whose values are all strings, as in the object literal
`TRANSLATIONS`. -/
def textTable (rows : List (String × String)) : Table :=
  rows.map fun row => (row.1, Json.str row.2)

/-- The French table of the object literal `TRANSLATIONS`. -/
def TRANSLATIONS_fr : Table :=
  textTable [
    ("header_title", "Demande de devis"),
    ("header_status", "Disponible 24h/24"),
    ("progress_step", "Étape"),
    ("progress_of", "sur"),
    ("progress_badge", "Rapide et sans engagement"),
    ("lang_fr", "Français"),
    ("lang_en", "English"),
    ("lang_nl", "Nederlands"),
    ("step0_bot_greeting", "Bonjour ! On est disponibles pour vous aider."),
    ("step0_bot_question", "Décrivez-nous votre problème et recevez un tarif, sans engagement."),
    ("problem_battery", "Ma batterie est plate"),
    ("problem_nostart", "Ma voiture ne démarre plus"),
    ("problem_flat", "J'ai un pneu crevé"),
    ("problem_towing", "J'ai besoin d'un remorquage"),
    ("problem_wreck", "Je veux évacuer une épave"),
    ("problem_other", "Autre problème"),
    ("response_battery", "On peut venir faire un boost ou remplacer votre batterie sur place. Pour vous donner un prix, on a besoin de quelques infos sur votre véhicule."),
    ("response_nostart", "On peut venir diagnostiquer le problème sur place, ou remorquer votre véhicule chez votre garagiste. Dites-nous en plus sur votre voiture."),
    ("response_flat", "On peut venir changer votre roue sur place. Pour vous donner un tarif, quelques questions rapides sur votre véhicule."),
    ("response_towing", "On peut remorquer votre véhicule où vous voulez : garage, domicile, concessionnaire. Quelques infos sur votre voiture pour le tarif."),
    ("response_wreck", "On s'occupe de l'évacuation et des formalités. Quelques infos sur le véhicule pour établir le devis."),
    ("response_other", "Pas de souci, on verra ça ensemble. Donnez-nous d'abord quelques infos sur votre véhicule."),
    ("urgent_title", "Urgence ? Appelez-nous"),
    ("urgent_phone", "0479 89 00 89"),
    ("step1_bot_question", "Quel type de véhicule ?"),
    ("vehicle_citadine", "Citadine"),
    ("vehicle_citadine_examples", "Clio, 208, Polo..."),
    ("vehicle_berline", "Berline / SUV"),
    ("vehicle_berline_examples", "Golf, 308, A3..."),
    ("vehicle_utilitaire", "Utilitaire"),
    ("vehicle_utilitaire_examples", "Kangoo, Berlingo..."),
    ("vehicle_premium", "Premium / Sport"),
    ("vehicle_premium_examples", "BMW, Mercedes..."),
    ("step2_bot_question", "Boîte manuelle ou automatique ?"),
    ("transmission_manual", "Manuelle"),
    ("transmission_automatic", "Automatique"),
    ("step3_bot_question", "4 roues motrices ?"),
    ("fourwd_yes", "Oui"),
    ("fourwd_no", "Non"),
    ("step4_bot_question", "Dernière étape : où êtes-vous ? On calcule le tarif et le temps d'arrivée."),
    ("step4_gps_btn", "Utiliser ma position actuelle"),
    ("step4_address_btn", "Entrer une adresse"),
    ("step4_separator", "ou"),
    ("step4_address_placeholder", "Tapez une adresse..."),
    ("step4_back_btn", "Retour"),
    ("step4_privacy", "Utilisé uniquement pour ce devis"),
    ("gps_searching", "Localisation en cours..."),
    ("step4b_bot_question", "Où souhaitez-vous emmener le véhicule ?"),
    ("step4b_unknown_btn", "Je ne sais pas encore"),
    ("step4b_hint", "On peut vous conseiller un garage proche et de confiance."),
    ("distance_label", "Distance"),
    ("duration_label", "Temps estimé"),
    ("step5_bot_message", "Parfait, on a tout ce qu'il faut. Cliquez ci-dessous pour recevoir votre tarif sur WhatsApp."),
    ("step5_summary_title", "Récapitulatif"),
    ("step5_summary_company", "Bruxelles Car Dépannage"),
    ("summary_problem", "Problème"),
    ("summary_vehicle", "Véhicule"),
    ("summary_transmission", "Transmission"),
    ("summary_location", "Position"),
    ("summary_destination", "Destination"),
    ("location_gps", "Localisé"),
    ("location_address", "Adresse fournie"),
    ("destination_unknown", "À déterminer"),
    ("fourwd_label_yes", "4x4"),
    ("fourwd_label_no", "2RM"),
    ("cta_whatsapp", "Envoyer sur WhatsApp"),
    ("cta_trust_title", "Sans engagement"),
    ("cta_trust_message", "On ne se déplace jamais sans votre feu vert."),
    ("badge_rating", "4.9/5"),
    ("badge_time", "30 min"),
    ("badge_payment", "Paiement sur place"),
    ("msg_greeting", "Bonjour,"),
    ("msg_intro", "Je souhaite obtenir un devis pour une intervention."),
    ("msg_problem", "Problème :"),
    ("msg_vehicle", "Véhicule :"),
    ("msg_transmission", "Transmission :"),
    ("msg_location", "Localisation :"),
    ("msg_destination", "Destination :"),
    ("msg_distance", "Distance estimée :"),
    ("msg_closing", "Merci de me communiquer le tarif et le délai d'intervention."),
    ("footer_privacy", "Vos données restent confidentielles") ]

/-- The English table of the object literal `TRANSLATIONS`. -/
def TRANSLATIONS_en : Table :=
  textTable [
    ("header_title", "Quote Request"),
    ("header_status", "Available 24/7"),
    ("progress_step", "Step"),
    ("progress_of", "of"),
    ("progress_badge", "Fast and no commitment"),
    ("lang_fr", "Français"),
    ("lang_en", "English"),
    ("lang_nl", "Nederlands"),
    ("step0_bot_greeting", "Hello! We're here to help you."),
    ("step0_bot_question", "Describe your problem and get a quote, no commitment."),
    ("problem_battery", "Dead battery"),
    ("problem_nostart", "Won't start"),
    ("problem_flat", "Flat tire"),
    ("problem_towing", "Towing"),
    ("problem_wreck", "Wreck removal"),
    ("problem_other", "Other problem"),
    ("response_battery", "We can jump-start or replace your battery on-site. To give you a price, we need some info about your vehicle."),
    ("response_nostart", "We can diagnose the problem on-site or tow your vehicle to your mechanic. Tell us about your car."),
    ("response_flat", "We can change your wheel on-site. A few quick questions about your vehicle for the quote."),
    ("response_towing", "We can tow your vehicle anywhere: garage, home, dealer. Some info about your car for the price."),
    ("response_wreck", "We handle the removal and paperwork. Some vehicle info to establish the quote."),
    ("response_other", "No problem, we'll figure it out together. First, tell us about your vehicle."),
    ("urgent_title", "Urgent? Call us"),
    ("urgent_phone", "0479 89 00 89"),
    ("step1_bot_question", "What type of vehicle?"),
    ("vehicle_citadine", "City car"),
    ("vehicle_citadine_examples", "Clio, 208, Polo..."),
    ("vehicle_berline", "Sedan / SUV"),
    ("vehicle_berline_examples", "Golf, 308, A3..."),
    ("vehicle_utilitaire", "Van"),
    ("vehicle_utilitaire_examples", "Kangoo, Berlingo..."),
    ("vehicle_premium", "Premium / Sport"),
    ("vehicle_premium_examples", "BMW, Mercedes..."),
    ("step2_bot_question", "Manual or automatic transmission?"),
    ("transmission_manual", "Manual"),
    ("transmission_automatic", "Automatic"),
    ("step3_bot_question", "4-wheel drive?"),
    ("fourwd_yes", "Yes"),
    ("fourwd_no", "No"),
    ("step4_bot_question", "Last step: where are you? We'll calculate the price and arrival time."),
    ("step4_gps_btn", "Use my current location"),
    ("step4_address_btn", "Enter an address"),
    ("step4_separator", "or"),
    ("step4_address_placeholder", "Type an address..."),
    ("step4_back_btn", "Back"),
    ("step4_privacy", "Used only for this quote"),
    ("gps_searching", "Locating..."),
    ("step4b_bot_question", "Where do you want the vehicle taken?"),
    ("step4b_unknown_btn", "I don't know yet"),
    ("step4b_hint", "We can recommend a nearby trusted garage."),
    ("distance_label", "Distance"),
    ("duration_label", "Est. time"),
    ("step5_bot_message", "Perfect, we have everything we need. Click below to receive your quote on WhatsApp."),
    ("step5_summary_title", "Summary"),
    ("step5_summary_company", "Brussels Car Breakdown"),
    ("summary_problem", "Problem"),
    ("summary_vehicle", "Vehicle"),
    ("summary_transmission", "Transmission"),
    ("summary_location", "Location"),
    ("summary_destination", "Destination"),
    ("location_gps", "Located"),
    ("location_address", "Address provided"),
    ("destination_unknown", "To be determined"),
    ("fourwd_label_yes", "4WD"),
    ("fourwd_label_no", "2WD"),
    ("cta_whatsapp", "Send on WhatsApp"),
    ("cta_trust_title", "No commitment"),
    ("cta_trust_message", "We never dispatch without your approval."),
    ("badge_rating", "4.9/5"),
    ("badge_time", "30 min"),
    ("badge_payment", "Payment on-site"),
    ("msg_greeting", "Hello,"),
    ("msg_intro", "I would like to get a quote for a service."),
    ("msg_problem", "Problem:"),
    ("msg_vehicle", "Vehicle:"),
    ("msg_transmission", "Transmission:"),
    ("msg_location", "Location:"),
    ("msg_destination", "Destination:"),
    ("msg_distance", "Estimated distance:"),
    ("msg_closing", "Please provide me with the price and service time."),
    ("footer_privacy", "Your data remains confidential") ]

/-- The Dutch table of the object literal `TRANSLATIONS`. -/
def TRANSLATIONS_nl : Table :=
  textTable [
    ("header_title", "Offerte aanvraag"),
    ("header_status", "Beschikbaar 24/7"),
    ("progress_step", "Stap"),
    ("progress_of", "van"),
    ("progress_badge", "Snel en zonder verplichting"),
    ("lang_fr", "Français"),
    ("lang_en", "English"),
    ("lang_nl", "Nederlands"),
    ("step0_bot_greeting", "Dag! We zijn beschikbaar om u te helpen."),
    ("step0_bot_question", "Beschrijf uw probleem en ontvang een prijs, zonder verplichting."),
    ("problem_battery", "Batterij leeg"),
    ("problem_nostart", "Start niet"),
    ("problem_flat", "Lekke band"),
    ("problem_towing", "Slepen"),
    ("problem_wreck", "Wrak verwijdering"),
    ("problem_other", "Ander probleem"),
    ("response_battery", "We kunnen komen voor een boost of uw batterij ter plaatse vervangen. Om u een prijs te geven, hebben we wat info over uw voertuig nodig."),
    ("response_nostart", "We kunnen het probleem ter plaatse diagnosticeren of uw voertuig naar uw garage slepen. Vertel ons meer over uw auto."),
    ("response_flat", "We kunnen uw wiel ter plaatse vervangen. Een paar snelle vragen over uw voertuig voor de prijs."),
    ("response_towing", "We kunnen uw voertuig overal naartoe slepen: garage, thuis, dealer. Wat info over uw auto voor de prijs."),
    ("response_wreck", "We zorgen voor de verwijdering en formaliteiten. Wat info over het voertuig om de offerte op te stellen."),
    ("response_other", "Geen probleem, we zullen het samen bekijken. Geef ons eerst wat info over uw voertuig."),
    ("urgent_title", "Dringend? Bel ons"),
    ("urgent_phone", "0479 89 00 89"),
    ("step1_bot_question", "Welk type voertuig?"),
    ("vehicle_citadine", "Stadsauto"),
    ("vehicle_citadine_examples", "Clio, 208, Polo..."),
    ("vehicle_berline", "Sedan / SUV"),
    ("vehicle_berline_examples", "Golf, 308, A3..."),
    ("vehicle_utilitaire", "Bestelwagen"),
    ("vehicle_utilitaire_examples", "Kangoo, Berlingo..."),
    ("vehicle_premium", "Premium / Sport"),
    ("vehicle_premium_examples", "BMW, Mercedes..."),
    ("step2_bot_question", "Manuele of automatische versnelling?"),
    ("transmission_manual", "Manueel"),
    ("transmission_automatic", "Automatisch"),
    ("step3_bot_question", "Vierwielaandrijving?"),
    ("fourwd_yes", "Ja"),
    ("fourwd_no", "Nee"),
    ("step4_bot_question", "Laatste stap: waar bent u? We berekenen de prijs en aankomsttijd."),
    ("step4_gps_btn", "Gebruik mijn huidige locatie"),
    ("step4_address_btn", "Voer een adres in"),
    ("step4_separator", "of"),
    ("step4_address_placeholder", "Typ een adres..."),
    ("step4_back_btn", "Terug"),
    ("step4_privacy", "Alleen gebruikt voor deze offerte"),
    ("gps_searching", "Localiseren..."),
    ("step4b_bot_question", "Waar wilt u het voertuig naartoe brengen?"),
    ("step4b_unknown_btn", "Ik weet het nog niet"),
    ("step4b_hint", "We kunnen een betrouwbare garage in de buurt aanbevelen."),
    ("distance_label", "Afstand"),
    ("duration_label", "Geschatte tijd"),
    ("step5_bot_message", "Perfect, we hebben alles wat we nodig hebben. Klik hieronder om uw prijs op WhatsApp te ontvangen."),
    ("step5_summary_title", "Samenvatting"),
    ("step5_summary_company", "Brussels Car Breakdown"),
    ("summary_problem", "Probleem"),
    ("summary_vehicle", "Voertuig"),
    ("summary_transmission", "Transmissie"),
    ("summary_location", "Locatie"),
    ("summary_destination", "Bestemming"),
    ("location_gps", "Gelokaliseerd"),
    ("location_address", "Adres verstrekt"),
    ("destination_unknown", "Te bepalen"),
    ("fourwd_label_yes", "4WD"),
    ("fourwd_label_no", "2WD"),
    ("cta_whatsapp", "Verstuur via WhatsApp"),
    ("cta_trust_title", "Geen verplichting"),
    ("cta_trust_message", "We komen nooit zonder uw goedkeuring."),
    ("badge_rating", "4.9/5"),
    ("badge_time", "30 min"),
    ("badge_payment", "Betaling ter plaatse"),
    ("msg_greeting", "Dag,"),
    ("msg_intro", "Ik wil graag een offerte voor een dienst."),
    ("msg_problem", "Probleem:"),
    ("msg_vehicle", "Voertuig:"),
    ("msg_transmission", "Transmissie:"),
    ("msg_location", "Locatie:"),
    ("msg_destination", "Bestemming:"),
    ("msg_distance", "Geschatte afstand:"),
    ("msg_closing", "Gelieve mij de prijs en de servicetijd mee te delen."),
    ("footer_privacy", "Uw gegevens blijven vertrouwelijk") ]

/-- The object literal `TRANSLATIONS`. -/
def TRANSLATIONS : Lang → Table
  | .fr => TRANSLATIONS_fr
  | .en => TRANSLATIONS_en
  | .nl => TRANSLATIONS_nl

/-- The keys of `TRANSLATIONS`. -/
def languageCodes : List String := ["fr", "en", "nl"]

/-- The key of `TRANSLATIONS` for a language. -/
def Lang.code : Lang → String
  | .fr => "fr" | .en => "en" | .nl => "nl"

/-- The first match of `/\/(fr|en|nl)\//` in a path. -/
def pathMatch : List Char → Option String
  | [] => none
  | c :: rest =>
    match c, rest with
    | '/', a :: b :: '/' :: _ =>
      if String.mk [a, b] ∈ languageCodes then some (String.mk [a, b]) else pathMatch rest
    | _, _ => pathMatch rest

/-- The expression `lang.split('-')[0].toLowerCase()`; `lower` is the
function `toLowerCase`. -/
def langCode (lower : String → String) (lang : String) : String :=
  lower (String.mk (lang.data.takeWhile (· ≠ '-')))

/-- The function `t`, for the tables `T`. -/
def t (T : Lang → Table) (s : State) (key : String) : Json :=
  match (T s.currentLanguage).get key with
  | some v => if v.truthy then v else .str key
  | none => .str key

/-- The text printed for `${t(key)}`. -/
def tText (T : Lang → Table) (s : State) (key : String) : String :=
  (t T s key).toText

/-- The text printed for a value that is `null` or a string. -/
def optText (v : Option String) : String :=
  v.getD "null"

/-- The function `createGoogleMapsLink`. -/
def createGoogleMapsLink (lat lng : String) : String :=
  "https://maps.google.com/?q=" ++ lat ++ "," ++ lng

/-- The function `buildWhatsAppMessage`, for the tables `T`; `none` when it
throws (reading `state.problem.id` or `state.location.coords.lat` of
`null`). -/
def buildWhatsAppMessage (T : Lang → Table) (s : State) : Option String :=
  match s.problem with
  | none => none
  | some p =>
    let msg0 := tText T s "msg_greeting" ++ "\n\n" ++ tText T s "msg_intro" ++ "\n\n"
    let msg1 := msg0 ++
      (tText T s "msg_problem" ++ " " ++ tText T s ("problem_" ++ p.id.name) ++ "\n")
    let msg2 :=
      if p.id = .wreck then
        msg1 ++ (tText T s "msg_vehicle" ++ " " ++ optText s.vehicleBrand ++ " " ++
          optText s.vehicleModel ++ " (" ++ optText s.vehicleYear ++ ")\n")
      else
        msg1 ++
          (tText T s "msg_vehicle" ++ " " ++
            tText T s ("vehicle_" ++ optText (s.vehicle.map VehicleId.name)) ++ "\n") ++
          (tText T s "msg_transmission" ++ " " ++
            tText T s ("transmission_" ++ optText (s.transmission.map OptionId.name)) ++ ", ") ++
          ((if s.fourWheelDrive = some true then tText T s "fourwd_label_yes"
            else tText T s "fourwd_label_no") ++ "\n")
    let msg3 : Option String :=
      if s.location.type = some .gps then
        match s.location.coords with
        | none => none
        | some c =>
          some (msg2 ++ (tText T s "msg_location" ++ " " ++ createGoogleMapsLink c.lat c.lng ++
            "\n"))
      else some (msg2 ++ (tText T s "msg_location" ++ " " ++ s.location.address ++ "\n"))
    msg3.map fun m3 =>
      let msg4 :=
        if p.needsDestination then
          if s.destination.unknown then
            m3 ++ (tText T s "msg_destination" ++ " " ++ tText T s "destination_unknown" ++ "\n")
          else
            let m4 := m3 ++ (tText T s "msg_destination" ++ " " ++ s.destination.address ++ "\n")
            if truthy s.destination.distance then
              let m5 := m4 ++ (tText T s "msg_distance" ++ " " ++ optText s.destination.distance)
              let m6 :=
                if truthy s.destination.duration then
                  m5 ++ (" (~" ++ optText s.destination.duration ++ ")")
                else m5
              m6 ++ "\n"
            else m4
        else m3
      msg4 ++ ("\n" ++ tText T s "msg_closing")

/-! ## The parts of the message, as the specification words them -/

/-- The greeting, the introduction and the problem line. -/
def greetingLines (T : Lang → Table) (s : State) (p : Problem) : String :=
  tText T s "msg_greeting" ++ "\n\n" ++ tText T s "msg_intro" ++ "\n\n" ++
    (tText T s "msg_problem" ++ " " ++ tText T s ("problem_" ++ p.id.name) ++ "\n")

/-- The vehicle line of the wreck branch: brand, model and year. -/
def wreckVehicleLine (T : Lang → Table) (s : State) : String :=
  tText T s "msg_vehicle" ++ " " ++ optText s.vehicleBrand ++ " " ++
    optText s.vehicleModel ++ " (" ++ optText s.vehicleYear ++ ")\n"

/-- The vehicle line of the other branches: the translated category. -/
def vehicleLine (T : Lang → Table) (s : State) : String :=
  tText T s "msg_vehicle" ++ " " ++
    tText T s ("vehicle_" ++ optText (s.vehicle.map VehicleId.name)) ++ "\n"

/-- The transmission line: the translated transmission, a comma and the
drive label. -/
def transmissionLine (T : Lang → Table) (s : State) : String :=
  tText T s "msg_transmission" ++ " " ++
    tText T s ("transmission_" ++ optText (s.transmission.map OptionId.name)) ++ ", " ++
    (if s.fourWheelDrive = some true then tText T s "fourwd_label_yes"
     else tText T s "fourwd_label_no") ++ "\n"

/-- The vehicle part: one line on the wreck branch, two lines otherwise. -/
def vehicleLines (T : Lang → Table) (s : State) (p : Problem) : String :=
  if p.id = .wreck then wreckVehicleLine T s else vehicleLine T s ++ transmissionLine T s

/-- The location line: a map link for a browser position (`none` when the
coordinates are missing), the address otherwise. -/
def locationLine (T : Lang → Table) (s : State) : Option String :=
  if s.location.type = some .gps then
    s.location.coords.map fun c =>
      tText T s "msg_location" ++ " " ++ createGoogleMapsLink c.lat c.lng ++ "\n"
  else some (tText T s "msg_location" ++ " " ++ s.location.address ++ "\n")

/-- The distance line: the distance text and, when there is one, the
duration text in parentheses. -/
def distanceLine (T : Lang → Table) (s : State) : String :=
  tText T s "msg_distance" ++ " " ++ optText s.destination.distance ++
    (if truthy s.destination.duration then " (~" ++ optText s.destination.duration ++ ")"
     else "") ++ "\n"

/-- The destination part: nothing unless the problem needs a destination;
then the "unknown" text, or the address followed by the distance line when a
distance was resolved. -/
def destinationLines (T : Lang → Table) (s : State) (p : Problem) : String :=
  if p.needsDestination then
    if s.destination.unknown then
      tText T s "msg_destination" ++ " " ++ tText T s "destination_unknown" ++ "\n"
    else
      tText T s "msg_destination" ++ " " ++ s.destination.address ++ "\n" ++
        (if truthy s.destination.distance then distanceLine T s else "")
  else ""

/-- The empty line and the closing text. -/
def closingLines (T : Lang → Table) (s : State) : String :=
  "\n" ++ tText T s "msg_closing"

/-- The lines of a text: its pieces between line feeds. -/
def linesOf : List Char → List String
  | [] => [""]
  | c :: rest =>
    match linesOf rest with
    | [] => [""]
    | l :: ls => if c = '\n' then "" :: l :: ls else String.mk (c :: l.data) :: ls

/-- Whether `text` occurs in `line`. -/
def containsText (line text : String) : Bool :=
  line.data.tails.any fun rest => text.data.isPrefixOf rest

/-- A battery session answered with berline, manual, no four-wheel drive and
the address "Rue Neuve 10, Brussels". -/
def rueNeuveSession : List Act :=
  standardSession .battery .berline .manual .no (.manual "Rue Neuve 10, Brussels" 3000)
    2000 1500 1000 800 2500

/-- A towing session with the browser position (48.85, 2.35), the destination
"Garage X" and a route of 12 km and 18 min. -/
def garageSession : List Act :=
  towingSession .berline .manual .no (.gps "48.85" "2.35" 900)
    (.address "Garage X" "12 km" "18 min" 4000 700) 2000 1500 1000 800 500

/-- After a failed route request the visitor goes back to the two
destination buttons and chooses "unknown". -/
def backToUnknown : List Act :=
  [.wait 3000, .ev .clickDestinationBack, .wait 1500, .ev .clickUnknown, .fire, .fire, .fire]

/-- The user turns of a chat area, in order. -/
def userTurns (html : List Item) : List Txt :=
  html.filterMap fun item =>
    match item with
    | .user text => some text
    | _ => none

/-- A towing session up to the `goToNextStep` that follows the location
answer: the wizard is at step 5 and the typing pause has begun. -/
def towingTyping : List Act :=
  openWizard ++ vehicleQuestions .towing .berline .manual .no 2000 1500 1000 800 ++
    [.wait 500, .ev .clickGps, .wait 900, .ev (.gpsSuccess "48.85" "2.35"), .fire]

/-- A whole towing session in which the destination is answered with
"unknown". -/
def towingUnknown : List Act :=
  towingSession .berline .manual .no (.gps "48.85" "2.35" 900) (.unknown 3000)
    2000 1500 1000 800 500

/-- A wreck session up to the location question. -/
def wreckUpToLocation : List Act :=
  openWizard ++ answer 2000 (.clickProblem .wreck) ++ answer 3000 (.submitBrand "Fiat") ++
    answer 3000 (.submitModel "Panda") ++ answer 3000 (.submitYear "2009")

/-- A battery session in which the browser refuses the position with the
given error; the visitor goes back to the two location buttons, asks for the
address input, and picks an address. -/
def gpsErrorSession (code : GeoError) : List Act :=
  openWizard ++ vehicleQuestions .battery .berline .manual .no 2000 1500 1000 800 ++
    [.wait 500, .ev .clickGps, .wait 900, .ev (.gpsError code),
     .wait 1000, .ev .clickAddressBack, .wait 500, .ev .clickAddressBtn, .fire,
     .wait 3000, .ev (.selectAddress "Rue Neuve 10, Brussels"), .fire, .fire, .fire]

/-- The language of a key of `TRANSLATIONS`. -/
def Lang.ofCode (code : String) : Option Lang :=
  if code = "fr" then some .fr
  else if code = "en" then some .en
  else if code = "nl" then some .nl
  else none

/-- The key a path of nested keys is flattened to, starting from the prefix
`pfx`: each step is `prefix ? prefix_key : key`. -/
def pathKey (pfx : String) : List String → String
  | [] => pfx
  | key :: rest => pathKey (if pfx ≠ "" then pfx ++ "_" ++ key else key) rest

/-- The segments of a path joined with "_", as the specification words it. -/
def joinedWithUnderscore : List String → String
  | [] => ""
  | [key] => key
  | key :: next :: rest => key ++ "_" ++ joinedWithUnderscore (next :: rest)

/-- Whether a value is an object (`typeof value === 'object'`, not `null`,
not an array). -/
def Json.isObject : Json → Bool
  | .obj _ => true
  | _ => false

/-- The object reached from `root` along a path of keys, each of which holds
an object without `label`, `response` or `examples`. -/
def Entries.objectAt (root : Entries) : List String → Option Entries
  | [] => some root
  | key :: rest =>
    match root.get key with
    | some (.obj sub) => if isLabelled sub then none else Entries.objectAt sub rest
    | _ => none

/-- Lower case of the letters A to Z, which is what `toLowerCase` does on a
language tag. -/
def asciiLower (s : String) : String :=
  String.mk (s.data.map Char.toLower)

/-- A sample locale file: a labelled problem, and a nested text. -/
def sampleLocale : Entries :=
  .cons "problems" (.obj (.cons "locked" (.obj
      (.cons "label" (.str "Je suis enfermé dehors")
      (.cons "response" (.str "On peut ouvrir votre véhicule sans l\x27abîmer.")
      (.cons "examples" (.arr "clés à l\x27intérieur,clé perdue") .nil)))) .nil))
  (.cons "step0" (.obj (.cons "bot" (.obj (.cons "message" (.str "Bonjour !") .nil)) .nil))
  .nil)

/-- The French file is read, the request for the English one throws and the
answer for the Dutch one is not ok. -/
def sampleFetch : Lang → FetchResult
  | .fr => .ok sampleLocale
  | .en => .failed
  | .nl => .notOk

/-! ## SECTION 18: the WhatsApp link -/

/-- The value of `DEFAULT_CONFIG.phoneNumber`. -/
def defaultPhoneNumber : String := "32479890089"

/-- The characters `encodeURIComponent` leaves as they are: letters, digits
and `- _ . ! ~ * ' ( )`. -/
def isUnreserved (c : Char) : Bool :=
  c.isAlphanum || decide (c ∈ ['-', '_', '.', '!', '~', '*', Char.ofNat 39, '(', ')'])

/-- The upper-case hexadecimal digit of a number below 16. -/
def hexDigit (n : Nat) : Char :=
  if n < 10 then Char.ofNat (48 + n) else Char.ofNat (55 + n)

/-- The octets of the UTF-8 form of a code point. -/
def utf8Bytes (n : Nat) : List Nat :=
  if n < 128 then [n]
  else if n < 2048 then [192 + n / 64, 128 + n % 64]
  else if n < 65536 then [224 + n / 4096, 128 + n / 64 % 64, 128 + n % 64]
  else [240 + n / 262144, 128 + n / 4096 % 64, 128 + n / 64 % 64, 128 + n % 64]

/-- What `encodeURIComponent` writes for one character: the character itself
when it is unreserved, otherwise "%" and two hexadecimal digits for each octet
of its UTF-8 form. -/
def percentEncodeChar (c : Char) : List Char :=
  if isUnreserved c then [c]
  else ((utf8Bytes c.toNat).map fun b => ['%', hexDigit (b / 16), hexDigit (b % 16)]).flatten

/-- The function `encodeURIComponent`, on a string without lone surrogates. -/
def encodeURIComponent (s : String) : String :=
  String.mk (s.data.map percentEncodeChar).flatten

/-- The function `generateWhatsAppURL`, for the phone number of `CONFIG` and
the tables `T`; `none` when `buildWhatsAppMessage` throws. -/
def generateWhatsAppURL (phoneNumber : String) (T : Lang → Table) (s : State) :
    Option String :=
  (buildWhatsAppMessage T s).map fun message =>
    "https://wa.me/" ++ phoneNumber ++ "?text=" ++ encodeURIComponent message

/-! ## Percent-decoding, as the specification words it -/

/-- The value of a hexadecimal digit. -/
def hexVal (c : Char) : Option Nat :=
  if 48 ≤ c.toNat ∧ c.toNat ≤ 57 then some (c.toNat - 48)
  else if 65 ≤ c.toNat ∧ c.toNat ≤ 70 then some (c.toNat - 55)
  else if 97 ≤ c.toNat ∧ c.toNat ≤ 102 then some (c.toNat - 87)
  else none

/-- A piece of a percent-encoded text: a character that stands for itself, or
an octet written as "%" and two hexadecimal digits. -/
inductive UriToken
  | lit (c : Char)
  | byte (b : Nat)
  deriving DecidableEq, Repr

/-- The pieces of a percent-encoded text; `none` when a "%" is not followed
by two hexadecimal digits. -/
def uriTokens : List Char → Option (List UriToken)
  | [] => some []
  | c :: rest =>
    if c = '%' then
      match rest with
      | a :: b :: rest2 =>
        match hexVal a, hexVal b with
        | some x, some y => (uriTokens rest2).map fun ts => UriToken.byte (16 * x + y) :: ts
        | _, _ => none
      | _ => none
    else (uriTokens rest).map fun ts => UriToken.lit c :: ts

/-- An unfinished UTF-8 sequence: the continuation octets still to come, the
value read so far, and the smallest value the sequence may stand for. -/
structure Pending where
  need : Nat
  acc : Nat
  least : Nat

/-- The characters the pieces stand for: octets are read as UTF-8; `none`
for an octet sequence that is not the UTF-8 form of a character. -/
def utf8Decode : List UriToken → Option Pending → Option (List Char)
  | [], none => some []
  | [], some _ => none
  | .lit c :: rest, none => (utf8Decode rest none).map fun cs => c :: cs
  | .lit _ :: _, some _ => none
  | .byte b :: rest, none =>
    if b < 128 then (utf8Decode rest none).map fun cs => Char.ofNat b :: cs
    else if 192 ≤ b ∧ b < 224 then utf8Decode rest (some ⟨1, b - 192, 128⟩)
    else if 224 ≤ b ∧ b < 240 then utf8Decode rest (some ⟨2, b - 224, 2048⟩)
    else if 240 ≤ b ∧ b < 248 then utf8Decode rest (some ⟨3, b - 240, 65536⟩)
    else none
  | .byte b :: rest, some p =>
    if 128 ≤ b ∧ b < 192 then
      if p.need = 1 then
        if p.least ≤ p.acc * 64 + (b - 128) ∧ p.acc * 64 + (b - 128) < 1114112 ∧
            ¬ (55296 ≤ p.acc * 64 + (b - 128) ∧ p.acc * 64 + (b - 128) ≤ 57343) then
          (utf8Decode rest none).map fun cs => Char.ofNat (p.acc * 64 + (b - 128)) :: cs
        else none
      else utf8Decode rest (some ⟨p.need - 1, p.acc * 64 + (b - 128), p.least⟩)
    else none

/-- Percent-decoding of a text (the function `decodeURIComponent`). -/
def decodeURIComponent (s : String) : Option String :=
  match uriTokens s.data with
  | some ts => (utf8Decode ts none).map String.mk
  | none => none

/-- The pieces `encodeURIComponent` writes for one character. -/
def charTokens (c : Char) : List UriToken :=
  if isUnreserved c then [.lit c] else (utf8Bytes c.toNat).map UriToken.byte

/-- A towing session in which "unknown" is clicked 300 ms after step 5 is
shown, while its typing pause is still running; then the queued callbacks
run. -/
def towingUnknownWhileTyping : List Act :=
  towingTyping ++ [.wait 300, .ev .clickUnknown, .fire, .fire, .fire, .fire, .fire]

/-! ## The language of the page -/

/-- The names every object inherits from `Object.prototype`. -/
def objectPrototypeNames : List String :=
  ["constructor", "__defineGetter__", "__defineSetter__", "hasOwnProperty",
   "__lookupGetter__", "__lookupSetter__", "isPrototypeOf", "propertyIsEnumerable",
   "toString", "valueOf", "__proto__", "toLocaleString"]

/-- Whether `TRANSLATIONS[code]` is truthy. `TRANSLATIONS` is an object
literal with the keys "fr", "en" and "nl", each holding a table; for a name
inherited from `Object.prototype` the lookup gives a function (for
"__proto__" the prototype itself), which is truthy as well; for every other
string it gives `undefined`. -/
def hasTranslations (code : String) : Bool :=
  decide (code ∈ languageCodes) || decide (code ∈ objectPrototypeNames)

/-- The function `detectLanguage`: `configLanguage` is `CONFIG.language`,
`pathname` is `window.location.pathname`, `htmlLang` is
`document.documentElement.lang` and `browserLang` is
`navigator.language || navigator.userLanguage` (the empty string for a
missing value). -/
def detectLanguage (lower : String → String)
    (configLanguage pathname htmlLang browserLang : String) : String :=
  if configLanguage ≠ "" ∧ hasTranslations configLanguage = true then configLanguage
  else match pathMatch pathname.data with
    | some code => code
    | none =>
      if htmlLang ≠ "" ∧ hasTranslations (langCode lower htmlLang) = true then
        langCode lower htmlLang
      else if browserLang ≠ "" ∧ hasTranslations (langCode lower browserLang) = true then
        langCode lower browserLang
      else "fr"

/-- The `data-lang` values of the language options: `createLanguageSelector`
renders one option for each of `Object.keys(TRANSLATIONS)`. -/
def languageOptions : List String := languageCodes

/-- The values `state.currentLanguage` takes. It is assigned in two places
only: the object literal of `state`, with the result of `detectLanguage()`,
and the click handler of a language option, with the `data-lang` of the
option when it differs from the current value. -/
inductive LanguageReach (detected : String) : String → Prop
  | load : LanguageReach detected detected
  | change {cur : String} (newLang : String) :
      LanguageReach detected cur → newLang ∈ languageOptions → newLang ≠ cur →
      LanguageReach detected newLang

/-! # Theorems -/

/-! ## General facts about runs -/

theorem run_append (w : World) (l1 l2 : List Act) :
    run w (l1 ++ l2) = (run w l1).bind (fun w1 => run w1 l2) := by
  induction l1 generalizing w with
  | nil => rfl
  | cons a r ih =>
    simp only [List.cons_append, run]
    cases step w a with
    | none => rfl
    | some w1 => exact ih w1

theorem stepsAlong_ne_nil (w : World) (l : List Act) (ks : List Nat)
    (h : stepsAlong w l = some ks) : ks ≠ [] := by
  cases l with
  | nil => simp [stepsAlong] at h; subst h; simp
  | cons a r =>
    simp only [stepsAlong] at h
    cases hs : step w a with
    | none => simp [hs] at h
    | some w1 =>
      simp only [hs] at h
      cases hr : stepsAlong w1 r with
      | none => simp [hr] at h
      | some l => simp [hr] at h; subst h; simp

theorem stepsAlong_append (w w1 : World) (l1 l2 : List Act) (k1 k2 : List Nat)
    (hrun : run w l1 = some w1) (h1 : stepsAlong w l1 = some k1)
    (h2 : stepsAlong w1 l2 = some k2) :
    stepsAlong w (l1 ++ l2) = some (k1.dropLast ++ k2) := by
  induction l1 generalizing w k1 with
  | nil =>
    simp only [run, Option.some.injEq] at hrun
    subst hrun
    simp only [stepsAlong, Option.some.injEq] at h1
    subst h1
    simpa using h2
  | cons a r ih =>
    simp only [run] at hrun
    simp only [stepsAlong] at h1
    simp only [List.cons_append, stepsAlong]
    cases hs : step w a with
    | none => simp [hs] at hrun
    | some wa =>
      simp only [hs] at hrun h1
      cases hr : stepsAlong wa r with
      | none => simp [hr] at h1
      | some kr =>
        simp only [hr, Option.map_some', Option.some.injEq] at h1
        subst h1
        have hne := stepsAlong_ne_nil wa r kr hr
        have hih := ih wa kr hrun hr
        simp only [List.append_eq] at hih ⊢
        simp [hih, List.dropLast_cons_of_ne_nil hne]

theorem Leads.append {st st1 st2 : State} {a1 a2 : List Act} {k1 k2 : List Nat}
    (h1 : Leads st a1 k1 st1) (h2 : Leads st1 a2 k2 st2) :
    Leads st (a1 ++ a2) (k1.dropLast ++ k2) st2 := by
  intro now ds
  obtain ⟨n1, ds1, hr1, hs1⟩ := h1 now ds
  obtain ⟨n2, ds2, hr2, hs2⟩ := h2 n1 ds1
  refine ⟨n2, ds2, ?_, stepsAlong_append _ _ _ _ _ _ hr1 hs1 hs2⟩
  rw [run_append, hr1]
  exact hr2

theorem renderThrows_of_some (s : State) (q : Problem) (h : s.problem = some q) :
    renderThrows s = false := by
  simp [renderThrows, h]

theorem advance (w : World) (t : Nat) (hm : w.modalElement = true) (hv : w.visible = true)
    (hg : w.gpsRequests = 0) (hr : w.routeRequests = 0) (hh : w.headerEvents = true)
    (ht : w.timers = [⟨t, .goToNextStep⟩]) (q : Problem) (hq : w.state.problem = some q)
    (hnf : w.state.currentStep + 2 ≠ w.state.finalStep) :
    ∃ now1 ds1, run w [.fire, .fire] = some (settled (bump w.state) now1 ds1) ∧
      stepsAlong w [.fire, .fire] = some
        [w.state.currentStep, w.state.currentStep + 2, w.state.currentStep + 2] := by
  simp only [State.finalStep, State.needsDestination] at hnf
  have hrf : ∀ s1 : State, s1.problem = w.state.problem → renderThrows s1 = false :=
    fun s1 h => renderThrows_of_some s1 q (h.trans hq)
  have hs : stepsAlong w [.fire, .fire] = some
      [w.state.currentStep, w.state.currentStep + 2, w.state.currentStep + 2] := by
    simp [stepsAlong, step, fire, ht, nextTimer, runCallback, goToNextStep, afterTyping,
      renderCurrentStep, renderFails, hrf, hm, World.setTimeout, hnf, State.finalStep,
      State.needsDestination]
  cases hrun : run w [.fire, .fire] with
  | none =>
    simp [run, step, fire, ht, nextTimer, runCallback, goToNextStep, afterTyping,
      renderCurrentStep, renderFails, hrf, hm, World.setTimeout, hnf, State.finalStep,
      State.needsDestination] at hrun
  | some w1 =>
    simp [run, step, fire, ht, nextTimer, runCallback, goToNextStep, afterTyping,
      renderCurrentStep, renderFails, hrf, hm, World.setTimeout, hnf, State.finalStep,
      State.needsDestination, hv, hg, hr, hh] at hrun
    refine ⟨w1.now, w1.directionsService, ?_, hs⟩
    subst hrun
    rfl

theorem finish (w : World) (t : Nat) (hm : w.modalElement = true) (hv : w.visible = true)
    (hg : w.gpsRequests = 0) (hr : w.routeRequests = 0) (hh : w.headerEvents = true)
    (ht : w.timers = [⟨t, .goToNextStep⟩]) (q : Problem) (hq : w.state.problem = some q)
    (hf : w.state.currentStep + 2 = w.state.finalStep) :
    ∃ now1 ds1, run w [.fire, .fire, .fire] = some (settled (bumpFinal w.state) now1 ds1) ∧
      stepsAlong w [.fire, .fire, .fire] = some
        [w.state.currentStep, w.state.currentStep + 2, w.state.currentStep + 2,
         w.state.currentStep + 3] := by
  simp only [State.finalStep, State.needsDestination] at hf
  have hrf : ∀ s1 : State, s1.problem = w.state.problem → renderThrows s1 = false :=
    fun s1 h => renderThrows_of_some s1 q (h.trans hq)
  have hf2 := hf.symm
  have hs : stepsAlong w [.fire, .fire, .fire] = some
      [w.state.currentStep, w.state.currentStep + 2, w.state.currentStep + 2,
       w.state.currentStep + 3] := by
    simp [stepsAlong, step, fire, ht, nextTimer, runCallback, goToNextStep, afterTyping,
      showRecap, renderCurrentStep, renderFails, hrf, hm, World.setTimeout, hf2, State.finalStep,
      State.needsDestination]
  cases hrun : run w [.fire, .fire, .fire] with
  | none =>
    simp [run, step, fire, ht, nextTimer, runCallback, goToNextStep, afterTyping, showRecap,
      renderCurrentStep, renderFails, hrf, hm, World.setTimeout, hf2, State.finalStep,
      State.needsDestination] at hrun
  | some w1 =>
    simp [run, step, fire, ht, nextTimer, runCallback, goToNextStep, afterTyping, showRecap,
      renderCurrentStep, renderFails, hrf, hm, World.setTimeout, hf2, State.finalStep,
      State.needsDestination, hv, hg, hr, hh] at hrun
    refine ⟨w1.now, w1.directionsService, ?_, hs⟩
    subst hrun
    rfl

theorem step_wait_settled (st : State) (now ds d) :
    step (settled st now ds) (.wait d) = some (settled st (now + d) ds) := rfl

theorem step_ev (w : World) (e : Event) :
    step w (.ev e) = if enabled w e then some (dispatch w e) else none := rfl

theorem dispatch_settled (st : State) (now : Nat) (ds : Bool) (e : Event) :
    dispatch (settled st now ds) e = handle (settled st now ds) e := by
  cases e <;> rfl

theorem answer_pending {st st1 : State} (d : Nat) (e : Event) (now : Nat) (ds : Bool)
    (hen : ∀ now ds, enabled (settled st now ds) e = true)
    (hh : ∀ now ds, handle (settled st now ds) e =
      ({ settled st now ds with state := st1 }).setTimeout .goToNextStep transitionDelay)
    (hk : st1.currentStep = st.currentStep) :
    run (settled st now ds) [.wait d, .ev e] =
      some (({ settled st (now + d) ds with state := st1 }).setTimeout .goToNextStep
        transitionDelay) ∧
    stepsAlong (settled st now ds) [.wait d, .ev e] =
      some [st.currentStep, st.currentStep, st.currentStep] := by
  constructor
  · simp only [run, step_wait_settled, step_ev, dispatch_settled, hen, hh, if_true]
  · simp only [stepsAlong, step_wait_settled, step_ev, dispatch_settled, hen, hh, if_true,
      Option.map_some']
    show some [st.currentStep, st.currentStep, st1.currentStep] = _
    rw [hk]

theorem Leads.answer {st st1 : State} (d : Nat) (e : Event)
    (hen : ∀ now ds, enabled (settled st now ds) e = true)
    (hh : ∀ now ds, handle (settled st now ds) e =
      ({ settled st now ds with state := st1 }).setTimeout .goToNextStep transitionDelay)
    (hk : st1.currentStep = st.currentStep) (q : Problem) (hq : st1.problem = some q)
    (hnf : st1.currentStep + 2 ≠ st1.finalStep) :
    Leads st (answer d e)
      [st.currentStep, st.currentStep, st.currentStep, st.currentStep + 2, st.currentStep + 2]
      (bump st1) := by
  intro now ds
  obtain ⟨h1, h2⟩ := answer_pending d e now ds hen hh hk
  generalize hW : (({ settled st (now + d) ds with state := st1 }).setTimeout .goToNextStep
    transitionDelay) = W at h1
  have hWs : W.state = st1 := by subst hW; rfl
  obtain ⟨n1, ds1, hr, hs⟩ := advance W (now + d + transitionDelay)
    (by subst hW; rfl) (by subst hW; rfl) (by subst hW; rfl) (by subst hW; rfl)
    (by subst hW; rfl) (by subst hW; rfl) q (by rw [hWs]; exact hq) (by rw [hWs]; exact hnf)
  rw [hWs] at hr hs
  refine ⟨n1, ds1, ?_, ?_⟩
  · show run _ ([.wait d, .ev e] ++ [.fire, .fire]) = _
    rw [run_append, h1, Option.some_bind, hr]
  · show stepsAlong _ ([.wait d, .ev e] ++ [.fire, .fire]) = _
    rw [stepsAlong_append _ _ _ _ _ _ h1 h2 hs, hk]
    rfl

theorem Leads.lastAnswer {st st1 : State} (d : Nat) (e : Event)
    (hen : ∀ now ds, enabled (settled st now ds) e = true)
    (hh : ∀ now ds, handle (settled st now ds) e =
      ({ settled st now ds with state := st1 }).setTimeout .goToNextStep transitionDelay)
    (hk : st1.currentStep = st.currentStep) (q : Problem) (hq : st1.problem = some q)
    (hf : st1.currentStep + 2 = st1.finalStep) :
    Leads st (lastAnswer d e)
      [st.currentStep, st.currentStep, st.currentStep, st.currentStep + 2, st.currentStep + 2,
       st.currentStep + 3]
      (bumpFinal st1) := by
  intro now ds
  obtain ⟨h1, h2⟩ := answer_pending d e now ds hen hh hk
  generalize hW : (({ settled st (now + d) ds with state := st1 }).setTimeout .goToNextStep
    transitionDelay) = W at h1
  have hWs : W.state = st1 := by subst hW; rfl
  obtain ⟨n1, ds1, hr, hs⟩ := finish W (now + d + transitionDelay)
    (by subst hW; rfl) (by subst hW; rfl) (by subst hW; rfl) (by subst hW; rfl)
    (by subst hW; rfl) (by subst hW; rfl) q (by rw [hWs]; exact hq) (by rw [hWs]; exact hf)
  rw [hWs] at hr hs
  refine ⟨n1, ds1, ?_, ?_⟩
  · show run _ ([.wait d, .ev e] ++ [.fire, .fire, .fire]) = _
    rw [run_append, h1, Option.some_bind, hr]
  · show stepsAlong _ ([.wait d, .ev e] ++ [.fire, .fire, .fire]) = _
    rw [stepsAlong_append _ _ _ _ _ _ h1 h2 hs, hk]
    rfl

/-! ## What the chat area offers at each step -/

theorem find_problem (p : ProblemId) :
    PROBLEMS.find? (fun q => q.id == p) = some ⟨p, decide (p = .towing)⟩ := by
  cases p <;> rfl

theorem offers_problems (s : State) (h0 : s.currentStep = 0) (ht : s.isTyping = false)
    (p : ProblemId) : hasProblemOption (chatHtml s) p = true := by
  cases p <;> simp [chatHtml, createStep0, hasProblemOption, h0, ht, PROBLEMS]

theorem offers_vehicles (s : State) (h2 : s.currentStep = 2) (ht : s.isTyping = false)
    (q : Problem) (hq : s.problem = some q) (hw : q.id ≠ .wreck) (v : VehicleId) :
    hasVehicleOption (chatHtml s) v = true := by
  cases v <;>
  simp [chatHtml, createStep0, createStep1, hasVehicleOption, h2, ht, hq, hw,
    State.problemIs, VEHICLE_CATEGORIES]

theorem offers_transmissions (s : State) (h4 : s.currentStep = 4) (ht : s.isTyping = false)
    (hw : s.problemIs .wreck = false) (hf : s.problemIs .flat = false)
    (v : VehicleId) (hv : s.vehicle = some v) (tr : OptionId)
    (htr : tr = .manual ∨ tr = .automatic) :
    hasSmallOption (chatHtml s) tr = true := by
  rcases htr with rfl | rfl <;>
  simp [chatHtml, createStep0, createStep1, createStep2, transmissionQuestion,
    hasSmallOption, h4, ht, hw, hf, hv, TRANSMISSIONS]

theorem offers_fourwd (s : State) (h6 : s.currentStep = 6) (ht : s.isTyping = false)
    (hw : s.problemIs .wreck = false)
    (tr : OptionId) (htr : s.transmission = some tr) (fw : OptionId)
    (hfw : fw = .yes ∨ fw = .no) :
    hasSmallOption (chatHtml s) fw = true := by
  rcases hfw with rfl | rfl <;>
  simp [chatHtml, createStep0, createStep1, createStep2, createStep3, transmissionQuestion,
    hasSmallOption, h6, ht, hw, htr]

theorem offers_location (s : State) (h8 : s.currentStep = 8) (ht : s.isTyping = false)
    (hw : s.problemIs .wreck = false) (b : Bool) (hb : s.fourWheelDrive = some b) :
    (s.showAddressInput = false → Item.locationOptions ∈ chatHtml s) ∧
    (s.showAddressInput = true → Item.addressInput ∈ chatHtml s) := by
  constructor <;> intro ha <;>
  simp [chatHtml, createStep4, locationQuestion, h8, ht, hw, hb, ha]

/-! ## The standard branch, question by question -/

theorem renderThrows_step0 (s : State) (h : s.currentStep = 0) : renderThrows s = false := by
  by_cases hw : s.problemIs .wreck = true <;> by_cases hn : s.needsDestination = true <;>
  by_cases ht : s.isTyping = true <;>
  simp [renderThrows, chatHtml, createStep0, h, State.finalStep, hw, hn, ht]

theorem opens (lang : Lang) :
    run (pageLoad lang) openWizard = some (settled (initialState lang) typingDelayInitial false) ∧
    stepsAlong (pageLoad lang) openWizard = some [0, 0, 0] := by
  constructor <;>
  simp [run, stepsAlong, openWizard, step, enabled, dispatch, Event.onChatArea, handle,
    showModal, pageLoad,
    renderCurrentStep, renderThrows_step0, World.setTimeout, fire, nextTimer, runCallback, endTyping, settled,
    initialState, emptyLocation, emptyDestination, chatHtml, createStep0, State.problemIs,
    State.finalStep, State.needsDestination]

theorem leads_problem (lang : Lang) (p : ProblemId) (d : Nat) :
    Leads (initialState lang) (answer d (.clickProblem p)) [0, 0, 0, 2, 2]
      (afterProblem lang p) := by
  refine Leads.answer d _ ?_ ?_ rfl _ rfl ?_
  · intro now ds
    simp [enabled, settled, offers_problems (initialState lang) rfl rfl p]
  · intro now ds
    simp [handle, onProblemClick, find_problem, settled]
  · simp [State.finalStep, State.needsDestination, initialState]
    split <;> simp

theorem leads_vehicle (lang : Lang) (p : ProblemId) (v : VehicleId) (d : Nat)
    (hf : p ≠ .flat) (hw : p ≠ .wreck) :
    Leads (afterProblem lang p) (answer d (.clickVehicle v)) [2, 2, 2, 4, 4]
      (afterVehicle lang p v) := by
  refine Leads.answer d _ ?_ ?_ rfl _ rfl ?_
  · intro now ds
    simp [enabled, settled, offers_vehicles (afterProblem lang p) rfl rfl _ rfl hw v]
  · intro now ds
    simp [handle, onVehicleClick, settled, afterProblem, bump, State.problemIs, hf]
  · simp [State.finalStep, State.needsDestination, afterProblem, bump, initialState]
    split <;> simp

theorem leads_transmission (lang : Lang) (p : ProblemId) (v : VehicleId) (tr : OptionId)
    (d : Nat) (hf : p ≠ .flat) (hw : p ≠ .wreck) (htr : tr = .manual ∨ tr = .automatic) :
    Leads (afterVehicle lang p v) (answer d (.clickSmallOption tr)) [4, 4, 4, 6, 6]
      (afterTransmission lang p v tr) := by
  have hw1 : (afterVehicle lang p v).problemIs .wreck = false := by
    simp [afterVehicle, afterProblem, bump, State.problemIs, hw]
  have hf1 : (afterVehicle lang p v).problemIs .flat = false := by
    simp [afterVehicle, afterProblem, bump, State.problemIs, hf]
  refine Leads.answer d _ ?_ ?_ rfl _ rfl ?_
  · intro now ds
    simp [enabled, settled,
      offers_transmissions (afterVehicle lang p v) rfl rfl hw1 hf1 v rfl tr htr]
  · intro now ds
    simp [handle, onSmallOptionClick, settled, afterVehicle, afterProblem, bump, initialState]
  · simp [State.finalStep, State.needsDestination, afterVehicle, afterProblem, bump,
      initialState]
    split <;> simp

theorem leads_fourwd (lang : Lang) (p : ProblemId) (v : VehicleId) (tr fw : OptionId)
    (d : Nat) (hw : p ≠ .wreck) (hfw : fw = .yes ∨ fw = .no) :
    Leads (afterTransmission lang p v tr) (answer d (.clickSmallOption fw)) [6, 6, 6, 8, 8]
      (afterFourWheelDrive lang p v tr fw) := by
  have hw1 : (afterTransmission lang p v tr).problemIs .wreck = false := by
    simp [afterTransmission, afterVehicle, afterProblem, bump, State.problemIs, hw]
  refine Leads.answer d _ ?_ ?_ rfl _ rfl ?_
  · intro now ds
    simp [enabled, settled,
      offers_fourwd (afterTransmission lang p v tr) rfl rfl hw1 tr rfl fw hfw]
  · intro now ds
    simp [handle, onSmallOptionClick, settled, afterTransmission, afterVehicle, afterProblem,
      bump, initialState]
  · simp [State.finalStep, State.needsDestination, afterTransmission, afterVehicle,
      afterProblem, bump, initialState]
    split <;> simp

theorem leads_vehicleQuestions (lang : Lang) (p : ProblemId) (v : VehicleId) (tr fw : OptionId)
    (d0 d1 d2 d3 : Nat) (hf : p ≠ .flat) (hw : p ≠ .wreck)
    (htr : tr = .manual ∨ tr = .automatic) (hfw : fw = .yes ∨ fw = .no) :
    Leads (initialState lang) (vehicleQuestions p v tr fw d0 d1 d2 d3)
      [0, 0, 0, 2, 2, 2, 2, 4, 4, 4, 4, 6, 6, 6, 6, 8, 8] (afterFourWheelDrive lang p v tr fw) := by
  have h := (((leads_problem lang p d0).append (leads_vehicle lang p v d1 hf hw)).append
    (leads_transmission lang p v tr d2 hf hw htr)).append (leads_fourwd lang p v tr fw d3 hw hfw)
  simpa [vehicleQuestions] using h

theorem location_pending (st : State) (loc : LocationAnswer) (d now : Nat) (ds : Bool)
    (hloc : loc.wellFormed)
    (hopt : Item.locationOptions ∈ chatHtml st)
    (hinp : Item.addressInput ∈ chatHtml { st with showAddressInput := true })
    (q : Problem) (hp : st.problem = some q) :
    ∃ W t, run (settled st now ds) ([.wait d] ++ loc.acts) = some W ∧
      stepsAlong (settled st now ds) ([.wait d] ++ loc.acts) =
        some (List.replicate (loc.acts.length + 2) st.currentStep) ∧
      W.state = loc.record st ∧ W.modalElement = true ∧ W.visible = true ∧
      W.gpsRequests = 0 ∧ W.routeRequests = 0 ∧ W.headerEvents = true ∧
      W.timers = [⟨t, .goToNextStep⟩] := by
  have hrf : ∀ s1 : State, s1.problem = st.problem → renderThrows s1 = false :=
    fun s1 h => renderThrows_of_some s1 q (h.trans hp)
  cases loc with
  | gps lat lng dl =>
    have hs : stepsAlong (settled st now ds) ([.wait d] ++ (LocationAnswer.gps lat lng dl).acts) =
        some (List.replicate ((LocationAnswer.gps lat lng dl).acts.length + 2)
          st.currentStep) := by
      simp [LocationAnswer.acts, stepsAlong, step, enabled, dispatch, Event.onChatArea, handleTimes, handle, settled,
        handleGPSLocation, hopt, onPosition, World.setTimeout, List.replicate]
    cases hrun : run (settled st now ds) ([.wait d] ++ (LocationAnswer.gps lat lng dl).acts) with
    | none =>
      simp [LocationAnswer.acts, run, step, enabled, dispatch, Event.onChatArea, handleTimes, handle, settled, handleGPSLocation,
        hopt] at hrun
    | some W =>
      simp [LocationAnswer.acts, run, step, enabled, dispatch, Event.onChatArea, handleTimes, handle, settled, handleGPSLocation,
        hopt, onPosition, World.setTimeout] at hrun
      subst hrun
      exact ⟨_, now + d + dl + transitionDelay, rfl, hs, rfl, rfl, rfl, rfl, rfl, rfl, rfl⟩
  | manual address dl =>
    have ha : address ≠ "" := hloc
    have hinp2 := hinp
    simp only [] at hinp2
    have hs : stepsAlong (settled st now ds)
        ([.wait d] ++ (LocationAnswer.manual address dl).acts) =
        some (List.replicate ((LocationAnswer.manual address dl).acts.length + 2)
          st.currentStep) := by
      simp [LocationAnswer.acts, stepsAlong, step, enabled, dispatch, Event.onChatArea, handleTimes, handle, settled, hopt,
        onAddressBtnClick, renderCurrentStep, renderFails, hrf, World.setTimeout, fire, nextTimer, runCallback,
        initAddressPlaces, ha, handleAddressSelect, List.replicate, hinp2]
    cases hrun : run (settled st now ds)
        ([.wait d] ++ (LocationAnswer.manual address dl).acts) with
    | none =>
      simp [LocationAnswer.acts, run, step, enabled, dispatch, Event.onChatArea, handleTimes, handle, settled, hopt,
        onAddressBtnClick, renderCurrentStep, renderFails, hrf, World.setTimeout, fire, nextTimer, runCallback,
        initAddressPlaces, ha, hinp2] at hrun
    | some W =>
      simp [LocationAnswer.acts, run, step, enabled, dispatch, Event.onChatArea, handleTimes, handle, settled, hopt,
        onAddressBtnClick, renderCurrentStep, renderFails, hrf, World.setTimeout, fire, nextTimer, runCallback,
        initAddressPlaces, ha, hinp2, handleAddressSelect] at hrun
      subst hrun
      exact ⟨_, now + d + 100 + dl + transitionDelay, rfl, hs, rfl, rfl, rfl, rfl, rfl, rfl, rfl⟩

theorem record_currentStep (st : State) (loc : LocationAnswer) :
    (loc.record st).currentStep = st.currentStep := by
  cases loc <;> rfl

theorem Leads.location_final (st : State) (loc : LocationAnswer) (d : Nat)
    (hloc : loc.wellFormed)
    (hopt : Item.locationOptions ∈ chatHtml st)
    (hinp : Item.addressInput ∈ chatHtml { st with showAddressInput := true })
    (q : Problem) (hp : st.problem = some q)
    (hf : (loc.record st).currentStep + 2 = (loc.record st).finalStep) :
    Leads st ([.wait d] ++ loc.acts ++ [.fire, .fire, .fire])
      (List.replicate (loc.acts.length + 1) st.currentStep ++
        [st.currentStep, st.currentStep + 2, st.currentStep + 2, st.currentStep + 3])
      (bumpFinal (loc.record st)) := by
  intro now ds
  obtain ⟨W, t, hr, hs, hst, hm, hv, hg, hq, hh, ht⟩ := location_pending st loc d now ds hloc hopt hinp q hp
  obtain ⟨n1, ds1, hr2, hs2⟩ := finish W t hm hv hg hq hh ht q
    (by rw [hst, ← hp]; cases loc <;> rfl)
    (by rw [hst]; exact hf)
  rw [hst] at hr2 hs2
  refine ⟨n1, ds1, ?_, ?_⟩
  · rw [run_append, hr, Option.some_bind, hr2]
  · rw [stepsAlong_append _ _ _ _ _ _ hr hs hs2, record_currentStep]
    cases loc <;> rfl

theorem Leads.location_next (st : State) (loc : LocationAnswer) (d : Nat)
    (hloc : loc.wellFormed)
    (hopt : Item.locationOptions ∈ chatHtml st)
    (hinp : Item.addressInput ∈ chatHtml { st with showAddressInput := true })
    (q : Problem) (hp : st.problem = some q)
    (hnf : (loc.record st).currentStep + 2 ≠ (loc.record st).finalStep) :
    Leads st ([.wait d] ++ loc.acts ++ [.fire, .fire])
      (List.replicate (loc.acts.length + 1) st.currentStep ++
        [st.currentStep, st.currentStep + 2, st.currentStep + 2])
      (bump (loc.record st)) := by
  intro now ds
  obtain ⟨W, t, hr, hs, hst, hm, hv, hg, hq, hh, ht⟩ := location_pending st loc d now ds hloc hopt hinp q hp
  obtain ⟨n1, ds1, hr2, hs2⟩ := advance W t hm hv hg hq hh ht q
    (by rw [hst, ← hp]; cases loc <;> rfl)
    (by rw [hst]; exact hnf)
  rw [hst] at hr2 hs2
  refine ⟨n1, ds1, ?_, ?_⟩
  · rw [run_append, hr, Option.some_bind, hr2]
  · rw [stepsAlong_append _ _ _ _ _ _ hr hs hs2, record_currentStep]
    cases loc <;> rfl

/-- C2. Standard branch: for every problem among battery, nostart, locked and
other, every vehicle category, transmission, four-wheel-drive answer and
location answer (browser position or picked address), and whatever time the
visitor takes before each answer, answering each question once in turn takes
`currentStep` through exactly 0, 1, 2, 3, 4, 5 and then, with the delayed
recap, 5.5 (in half steps: 0, 2, 4, 6, 8, 10, 11). -/
theorem standard_branch_steps (lang : Lang) (p : ProblemId) (v : VehicleId) (tr fw : OptionId)
    (loc : LocationAnswer) (d0 d1 d2 d3 d4 : Nat)
    (hp : p = .battery ∨ p = .nostart ∨ p = .locked ∨ p = .other)
    (htr : tr = .manual ∨ tr = .automatic) (hfw : fw = .yes ∨ fw = .no)
    (hloc : loc.wellFormed) :
    (stepsAlong (pageLoad lang) (standardSession p v tr fw loc d0 d1 d2 d3 d4)).map squeeze
      = some [0, 2, 4, 6, 8, 10, 11] := by
  have hf : p ≠ .flat := by rcases hp with rfl | rfl | rfl | rfl <;> decide
  have hw : p ≠ .wreck := by rcases hp with rfl | rfl | rfl | rfl <;> decide
  have ht : p ≠ .towing := by rcases hp with rfl | rfl | rfl | rfl <;> decide
  have hw1 : (afterFourWheelDrive lang p v tr fw).problemIs .wreck = false := by
    simp [afterFourWheelDrive, afterTransmission, afterVehicle, afterProblem, bump,
      State.problemIs, hw]
  have hloc8 := offers_location (afterFourWheelDrive lang p v tr fw) rfl rfl hw1 _ rfl
  have hloc8b := offers_location
    { afterFourWheelDrive lang p v tr fw with showAddressInput := true } rfl rfl hw1 _ rfl
  have hfin : (loc.record (afterFourWheelDrive lang p v tr fw)).currentStep + 2 =
      (loc.record (afterFourWheelDrive lang p v tr fw)).finalStep := by
    cases loc <;>
    simp [LocationAnswer.record, afterFourWheelDrive, afterTransmission, afterVehicle,
      afterProblem, bump, initialState, State.finalStep, State.needsDestination, ht]
  have h1 := (leads_vehicleQuestions lang p v tr fw d0 d1 d2 d3 hf hw htr hfw).append
    (Leads.location_final _ loc d4 hloc (hloc8.1 rfl) (hloc8b.2 rfl) _ rfl hfin)
  obtain ⟨n, ds, hr, hs⟩ := h1 typingDelayInitial false
  have h2 := stepsAlong_append _ _ _ _ _ _ (opens lang).1 (opens lang).2 hs
  simp only [standardSession, List.append_assoc] at h2 ⊢
  rw [h2]
  cases loc <;> rfl

/-- C2 at a concrete session: battery, berline, manual, no four-wheel drive,
address "Rue Neuve 10, Brussels". -/
theorem standard_branch_steps_witness :
    (ProblemId.battery = .battery ∨ ProblemId.battery = .nostart ∨
      ProblemId.battery = .locked ∨ ProblemId.battery = .other) ∧
    (LocationAnswer.manual "Rue Neuve 10, Brussels" 3000).wellFormed ∧
    (stepsAlong (pageLoad .fr)
      (standardSession .battery .berline .manual .no
        (.manual "Rue Neuve 10, Brussels" 3000) 2000 1500 1000 800 2500)).map squeeze
      = some [0, 2, 4, 6, 8, 10, 11] :=
  ⟨Or.inl rfl, by decide,
   standard_branch_steps .fr .battery .berline .manual .no
     (.manual "Rue Neuve 10, Brussels" 3000) 2000 1500 1000 800 2500
     (Or.inl rfl) (Or.inl rfl) (Or.inr rfl) (by decide)⟩

/-! ## The towing branch -/

theorem offers_destination (s : State) (h10 : s.currentStep = 10)
    (hw : s.problemIs .wreck = false) (hn : s.needsDestination = true)
    (ty : LocationType) (hl : s.location.type = some ty) :
    Item.bot (.t "step4b_bot_question") ∈ chatHtml s ∧
    (s.showDestinationInput = false → Item.destinationOptions ∈ chatHtml s) ∧
    (s.showDestinationInput = true → Item.destinationInput ∈ chatHtml s) := by
  refine ⟨?_, ?_, ?_⟩
  · simp [chatHtml, createStep4b, h10, hw, hn, hl]
  · intro ha
    simp [chatHtml, createStep4b, h10, hw, hn, hl, ha]
  · intro ha
    simp [chatHtml, createStep4b, h10, hw, hn, hl, ha]

theorem destination_pending (st : State) (dest : DestinationAnswer) (now : Nat) (ds : Bool)
    (hdest : dest.wellFormed)
    (hopt : Item.destinationOptions ∈ chatHtml st)
    (hinp : Item.destinationInput ∈ chatHtml { st with showDestinationInput := true })
    (q : Problem) (hp : st.problem = some q) :
    ∃ W t, run (settled st now ds) dest.acts = some W ∧
      stepsAlong (settled st now ds) dest.acts =
        some (List.replicate (dest.acts.length + 1) st.currentStep) ∧
      W.state = dest.record st ∧ W.modalElement = true ∧ W.visible = true ∧
      W.gpsRequests = 0 ∧ W.routeRequests = 0 ∧ W.headerEvents = true ∧
      W.timers = [⟨t, .goToNextStep⟩] := by
  have hrf : ∀ s1 : State, s1.problem = st.problem → renderThrows s1 = false :=
    fun s1 h => renderThrows_of_some s1 q (h.trans hp)
  cases dest with
  | unknown d =>
    have hs : stepsAlong (settled st now ds) (DestinationAnswer.unknown d).acts =
        some (List.replicate ((DestinationAnswer.unknown d).acts.length + 1)
          st.currentStep) := by
      simp [DestinationAnswer.acts, stepsAlong, step, enabled, dispatch, Event.onChatArea, handleTimes, handle, settled, hopt,
        onUnknownBtnClick, World.setTimeout, List.replicate]
    cases hrun : run (settled st now ds) (DestinationAnswer.unknown d).acts with
    | none =>
      simp [DestinationAnswer.acts, run, step, enabled, dispatch, Event.onChatArea, handleTimes, handle, settled, hopt] at hrun
    | some W =>
      simp [DestinationAnswer.acts, run, step, enabled, dispatch, Event.onChatArea, handleTimes, handle, settled, hopt,
        onUnknownBtnClick, World.setTimeout] at hrun
      subst hrun
      exact ⟨_, now + d + transitionDelay, rfl, hs, rfl, rfl, rfl, rfl, rfl, rfl, rfl⟩
  | address a dist dur d l =>
    have ha : a ≠ "" := hdest
    have hinp2 := hinp
    simp only [] at hinp2
    have hs : stepsAlong (settled st now ds) (DestinationAnswer.address a dist dur d l).acts =
        some (List.replicate ((DestinationAnswer.address a dist dur d l).acts.length + 1)
          st.currentStep) := by
      simp [DestinationAnswer.acts, stepsAlong, step, enabled, dispatch, Event.onChatArea, handleTimes, handle, settled, hopt,
        onDestinationAddressBtnClick, renderCurrentStep, hrf, World.setTimeout,
        handleDestinationSelect, calculateDistance, onRoute, ha, hinp2, List.replicate]
    cases hrun : run (settled st now ds) (DestinationAnswer.address a dist dur d l).acts with
    | none =>
      simp [DestinationAnswer.acts, run, step, enabled, dispatch, Event.onChatArea, handleTimes, handle, settled, hopt,
        onDestinationAddressBtnClick, renderCurrentStep, hrf, World.setTimeout,
        handleDestinationSelect, calculateDistance, onRoute, ha, hinp2] at hrun
    | some W =>
      simp [DestinationAnswer.acts, run, step, enabled, dispatch, Event.onChatArea, handleTimes, handle, settled, hopt,
        onDestinationAddressBtnClick, renderCurrentStep, hrf, World.setTimeout,
        handleDestinationSelect, calculateDistance, onRoute, ha, hinp2] at hrun
      subst hrun
      exact ⟨_, now + d + l + 1000, rfl, hs, rfl, rfl, rfl, rfl, rfl, rfl, rfl⟩

theorem destination_currentStep (st : State) (dest : DestinationAnswer) :
    (dest.record st).currentStep = st.currentStep := by
  cases dest <;> rfl

theorem Leads.destination_final (st : State) (dest : DestinationAnswer)
    (hdest : dest.wellFormed)
    (hopt : Item.destinationOptions ∈ chatHtml st)
    (hinp : Item.destinationInput ∈ chatHtml { st with showDestinationInput := true })
    (q : Problem) (hp : st.problem = some q)
    (hf : (dest.record st).currentStep + 2 = (dest.record st).finalStep) :
    Leads st (dest.acts ++ [.fire, .fire, .fire])
      (List.replicate dest.acts.length st.currentStep ++
        [st.currentStep, st.currentStep + 2, st.currentStep + 2, st.currentStep + 3])
      (bumpFinal (dest.record st)) := by
  intro now ds
  obtain ⟨W, t, hr, hs, hst, hm, hv, hg, hq, hh, ht⟩ :=
    destination_pending st dest now ds hdest hopt hinp q hp
  obtain ⟨n1, ds1, hr2, hs2⟩ := finish W t hm hv hg hq hh ht q
    (by rw [hst, ← hp]; cases dest <;> rfl)
    (by rw [hst]; exact hf)
  rw [hst] at hr2 hs2
  refine ⟨n1, ds1, ?_, ?_⟩
  · rw [run_append, hr, Option.some_bind, hr2]
  · rw [stepsAlong_append _ _ _ _ _ _ hr hs hs2, destination_currentStep]
    cases dest <;> rfl

theorem leads_towingToDestination (lang : Lang) (v : VehicleId) (tr fw : OptionId)
    (loc : LocationAnswer) (d0 d1 d2 d3 d4 : Nat)
    (htr : tr = .manual ∨ tr = .automatic) (hfw : fw = .yes ∨ fw = .no)
    (hloc : loc.wellFormed) :
    Leads (initialState lang)
      (vehicleQuestions .towing v tr fw d0 d1 d2 d3 ++ ([.wait d4] ++ loc.acts ++ [.fire, .fire]))
      ([0, 0, 0, 2, 2, 2, 2, 4, 4, 4, 4, 6, 6, 6, 6, 8] ++
        (List.replicate (loc.acts.length + 1) 8 ++ [8, 10, 10]))
      (bump (loc.record (afterFourWheelDrive lang .towing v tr fw))) := by
  have hw1 : (afterFourWheelDrive lang .towing v tr fw).problemIs .wreck = false := rfl
  have hloc8 := offers_location (afterFourWheelDrive lang .towing v tr fw) rfl rfl hw1 _ rfl
  have hloc8b := offers_location
    { afterFourWheelDrive lang .towing v tr fw with showAddressInput := true } rfl rfl hw1 _ rfl
  have hnf : (loc.record (afterFourWheelDrive lang .towing v tr fw)).currentStep + 2 ≠
      (loc.record (afterFourWheelDrive lang .towing v tr fw)).finalStep := by
    cases loc <;> exact (by decide : (8 + 2 : Nat) ≠ 12)
  exact (leads_vehicleQuestions lang .towing v tr fw d0 d1 d2 d3 (by decide) (by decide)
    htr hfw).append (Leads.location_next _ loc d4 hloc (hloc8.1 rfl) (hloc8b.2 rfl) _ rfl hnf)

/-- C3, as amended. Towing sessions in which every question is answered once
and the destination is answered after the typing pause of step 5 has ended
(`towingSession`: any language, vehicle, transmission, drive, location,
destination and waiting times): after the location answer and that pause the
wizard is at step 5 with the destination question in the chat area and no
callback queued (so no recap is scheduled); when the destination answer is
"unknown", or an address whose route request succeeds, `currentStep` goes
through exactly 0, 1, 2, 3, 4, 5, 6 and then 6.5 (in half steps:
0, 2, 4, 6, 8, 10, 12, 13). -/
theorem towing_branch_steps (lang : Lang) (v : VehicleId) (tr fw : OptionId)
    (loc : LocationAnswer) (dest : DestinationAnswer) (d0 d1 d2 d3 d4 : Nat)
    (htr : tr = .manual ∨ tr = .automatic) (hfw : fw = .yes ∨ fw = .no)
    (hloc : loc.wellFormed) (hdest : dest.wellFormed) :
    (∃ w, run (pageLoad lang) (towingToDestination v tr fw loc d0 d1 d2 d3 d4) = some w ∧
      w.state.currentStep = 10 ∧ w.timers = [] ∧
      Item.bot (.t "step4b_bot_question") ∈ w.chatArea) ∧
    (stepsAlong (pageLoad lang)
      (towingSession v tr fw loc dest d0 d1 d2 d3 d4)).map squeeze
      = some [0, 2, 4, 6, 8, 10, 12, 13] := by
  have h5 := leads_towingToDestination lang v tr fw loc d0 d1 d2 d3 d4 htr hfw hloc
  have hty : ∃ ty, (bump (loc.record (afterFourWheelDrive lang .towing v tr fw))).location.type
      = some ty := by
    cases loc <;> exact ⟨_, rfl⟩
  obtain ⟨ty, hty⟩ := hty
  have hk : (bump (loc.record (afterFourWheelDrive lang .towing v tr fw))).currentStep = 10 := by
    cases loc <;> rfl
  have hw : (bump (loc.record (afterFourWheelDrive lang .towing v tr fw))).problemIs .wreck
      = false := by
    cases loc <;> rfl
  have hn : (bump (loc.record (afterFourWheelDrive lang .towing v tr fw))).needsDestination
      = true := by
    cases loc <;> rfl
  have hsd : (bump (loc.record (afterFourWheelDrive lang .towing v tr fw))).showDestinationInput
      = false := by
    cases loc <;> rfl
  have hoff := offers_destination _ hk hw hn ty hty
  have hoff2 := offers_destination
    { bump (loc.record (afterFourWheelDrive lang .towing v tr fw)) with
      showDestinationInput := true } hk hw hn ty hty
  have hfin : (dest.record (bump (loc.record (afterFourWheelDrive lang .towing v tr fw)))
      ).currentStep + 2 =
      (dest.record (bump (loc.record (afterFourWheelDrive lang .towing v tr fw)))).finalStep := by
    cases dest <;> cases loc <;> rfl
  constructor
  · obtain ⟨n, ds, hr, -⟩ := h5 typingDelayInitial false
    refine ⟨settled _ n ds, ?_, hk, rfl, hoff.1⟩
    simp only [towingToDestination, List.append_assoc] at hr ⊢
    rw [run_append, (opens lang).1, Option.some_bind, hr]
    rfl
  · have h6 := h5.append (Leads.destination_final _ dest hdest (hoff.2.1 hsd) (hoff2.2.2 rfl) _
      (by cases loc <;> rfl) hfin)
    obtain ⟨n, ds, hr, hs⟩ := h6 typingDelayInitial false
    have h2 := stepsAlong_append _ _ _ _ _ _ (opens lang).1 (opens lang).2 hs
    simp only [towingSession, towingToDestination, List.append_assoc] at h2 ⊢
    rw [h2, hk]
    cases loc <;> cases dest <;> rfl

/-! ## The chat area follows the state -/

theorem nextTimer_mem : ∀ (l : List Timer) (tm : Timer), nextTimer l = some tm → tm ∈ l
  | [], tm, h => by simp [nextTimer] at h
  | a :: rest, tm, h => by
    simp only [nextTimer] at h
    cases hn : nextTimer rest with
    | none =>
      simp only [hn, Option.some.injEq] at h
      subst h
      exact List.mem_cons_self _ _
    | some m =>
      simp only [hn] at h
      split at h
      · simp only [Option.some.injEq] at h
        subst h
        exact List.mem_cons_of_mem _ (nextTimer_mem rest m hn)
      · simp only [Option.some.injEq] at h
        subst h
        exact List.mem_cons_self _ _

theorem coherent_render (w : World) (h : w.modalElement = false → w.chatArea = [])
    (hnt : renderThrows w.state = false) : Coherent (renderCurrentStep w) := by
  unfold renderCurrentStep
  cases hm : w.modalElement with
  | false => simpa [Coherent, hm] using h hm
  | true =>
    simp only [hnt, and_self, if_true]
    exact ⟨by simp [hm], fun _ => ⟨w.state, rfl, hnt, Or.inl ⟨rfl, fun _ => rfl⟩⟩⟩

theorem Coherent.frame {w w1 : World} (h : Coherent w)
    (hm : w1.modalElement = w.modalElement) (hc : w1.chatArea = w.chatArea)
    (hk : w1.state.currentStep = w.state.currentStep)
    (hp : w1.state.problem = w.state.problem) : Coherent w1 := by
  refine ⟨fun h1 => ?_, fun h1 => ?_⟩
  · rw [hc]; exact h.1 (hm ▸ h1)
  · obtain ⟨snap, h2, h3, h4⟩ := h.2 (hm ▸ h1)
    refine ⟨snap, hc ▸ h2, h3, ?_⟩
    rcases h4 with ⟨h4, h5⟩ | ⟨h4, h5⟩
    · exact Or.inl ⟨hk ▸ h4, fun h6 => hp ▸ h5 h6⟩
    · exact Or.inr ⟨hp ▸ h4, hk ▸ h5.1, h5.2⟩

theorem renderCurrentStep_fails (w : World) (h : renderFails w = true) :
    renderCurrentStep w = w := by
  simp only [renderFails, Bool.and_eq_true] at h
  simp [renderCurrentStep, h.2]

/-! ## Which inputs the chat area can offer -/

theorem affordance_createStep0 (s : State) (it : Item) (h : it ∈ createStep0 s)
    (ha : it.isAffordance = true) :
    it = .problemOptions (PROBLEMS.map (·.id)) ∧ s.currentStep = 0 := by
  unfold createStep0 at h
  split_ifs at h <;> simp at h <;> (try subst h) <;> try simp [Item.isAffordance] at ha
  rcases h with rfl | rfl
  · simp [Item.isAffordance] at ha
  · simp_all

theorem affordance_createStep1 (s : State) (it : Item) (h : it ∈ createStep1 s)
    (ha : it.isAffordance = true) :
    it = .vehicleOptions VEHICLE_CATEGORIES ∧ s.currentStep = 2 ∧ s.problem ≠ none := by
  unfold createStep1 at h
  split at h
  · simp at h
  · split_ifs at h <;> simp at h <;> aesop

theorem affordance_createWreckStep1 (s : State) (it : Item) (h : it ∈ createWreckStep1 s)
    (ha : it.isAffordance = true) :
    it = .textInput .brand ∧ s.currentStep = 2 ∧ s.problemIs .wreck = true := by
  unfold createWreckStep1 answerBubble at h
  split_ifs at h <;> simp at h <;> aesop

theorem affordance_createWreckStep2 (s : State) (it : Item) (h : it ∈ createWreckStep2 s)
    (ha : it.isAffordance = true) :
    it = .textInput .model ∧ s.currentStep = 4 ∧ s.problemIs .wreck = true ∧
      truthy s.vehicleBrand = true := by
  unfold createWreckStep2 answerBubble at h
  split_ifs at h <;> simp at h <;> aesop

theorem affordance_createWreckStep3 (s : State) (it : Item) (h : it ∈ createWreckStep3 s)
    (ha : it.isAffordance = true) :
    it = .textInput .year ∧ s.currentStep = 6 ∧ s.problemIs .wreck = true ∧
      truthy s.vehicleModel = true := by
  unfold createWreckStep3 answerBubble at h
  split_ifs at h <;> simp at h <;> aesop

theorem affordance_createStep1b (s : State) (it : Item) (h : it ∈ createStep1b s)
    (ha : it.isAffordance = true) :
    it = .smallOptions [.front, .rear] ∧ s.currentStep = 3 ∧ s.problemIs .flat = true := by
  unfold createStep1b at h
  split at h
  · simp at h
  · split_ifs at h <;> simp at h <;> aesop

theorem affordance_transmissionQuestion (s : State) (it : Item)
    (h : it ∈ transmissionQuestion s) (ha : it.isAffordance = true) :
    it = .smallOptions TRANSMISSIONS ∧ s.currentStep = 4 := by
  unfold transmissionQuestion at h
  split_ifs at h <;> simp at h <;> aesop

theorem affordance_createStep2 (s : State) (it : Item) (h : it ∈ createStep2 s)
    (ha : it.isAffordance = true) :
    it = .smallOptions TRANSMISSIONS ∧ s.currentStep = 4 := by
  unfold createStep2 at h
  rcases List.mem_append.1 h with h | h
  · split at h
    · simp at h
    · split_ifs at h
      · simp at h
      · rcases List.mem_append.1 h with h | h
        · simp at h; subst h; simp at ha
        · exact affordance_transmissionQuestion s it h ha
  · split at h
    · simp at h
    · split_ifs at h
      · rcases List.mem_append.1 h with h | h
        · simp at h; subst h; simp at ha
        · exact affordance_transmissionQuestion s it h ha
      · simp at h

theorem affordance_createStep3 (s : State) (it : Item) (h : it ∈ createStep3 s)
    (ha : it.isAffordance = true) :
    it = .smallOptions [.yes, .no] ∧ s.currentStep = 6 := by
  unfold createStep3 at h
  split at h
  · simp at h
  · split_ifs at h <;> simp at h <;> aesop

theorem affordance_locationQuestion (s : State) (it : Item) (h : it ∈ locationQuestion s)
    (ha : it.isAffordance = true) :
    (it = .locationOptions ∨ it = .addressInput) ∧ s.currentStep = 8 := by
  unfold locationQuestion at h
  split_ifs at h <;> simp at h <;> aesop

theorem affordance_createStep4 (s : State) (it : Item) (h : it ∈ createStep4 s)
    (ha : it.isAffordance = true) :
    (it = .locationOptions ∨ it = .addressInput) ∧ s.currentStep = 8 := by
  unfold createStep4 at h
  split_ifs at h
  · rcases List.mem_append.1 h with h | h
    · simp at h; subst h; simp at ha
    · exact affordance_locationQuestion s it h ha
  · simp at h
  · split at h
    · simp at h
    · rcases List.mem_append.1 h with h | h
      · simp at h; subst h; simp at ha
      · exact affordance_locationQuestion s it h ha

theorem affordance_createStep4b (s : State) (it : Item) (h : it ∈ createStep4b s)
    (ha : it.isAffordance = true) :
    it = .destinationOptions ∨ it = .destinationInput := by
  unfold createStep4b at h
  split at h
  · simp at h
  · split_ifs at h <;> simp at h <;> aesop

theorem affordance_createStep5 (s : State) (it : Item) (h : it ∈ createStep5 s)
    (ha : it.isAffordance = true) :
    it = .summaryCard ∧ s.finalStep < s.currentStep := by
  unfold createStep5 at h
  split_ifs at h <;> simp at h <;> aesop

theorem mem_ite_nil {c : Prop} [Decidable c] {l : List Item} {it : Item}
    (h : it ∈ (if c then l else [])) : c ∧ it ∈ l := by
  split_ifs at h with hc
  · exact ⟨hc, h⟩
  · simp at h

theorem affordance_chatHtml (s : State) (it : Item) (h : it ∈ chatHtml s)
    (ha : it.isAffordance = true) :
    (it = .problemOptions (PROBLEMS.map (·.id)) ∧ s.currentStep = 0) ∨
    (it = .vehicleOptions VEHICLE_CATEGORIES ∧ s.currentStep = 2 ∧ s.problem ≠ none ∧
      s.problemIs .wreck = false) ∨
    (it = .textInput .brand ∧ s.currentStep = 2 ∧ s.problemIs .wreck = true) ∨
    (it = .textInput .model ∧ s.currentStep = 4 ∧ s.problemIs .wreck = true ∧
      truthy s.vehicleBrand = true) ∨
    (it = .textInput .year ∧ s.currentStep = 6 ∧ s.problemIs .wreck = true ∧
      truthy s.vehicleModel = true) ∨
    (it = .smallOptions [.front, .rear] ∧ s.currentStep = 3 ∧ s.problemIs .flat = true) ∨
    (it = .smallOptions TRANSMISSIONS ∧ s.currentStep = 4 ∧ s.problemIs .wreck = false) ∨
    (it = .smallOptions [.yes, .no] ∧ s.currentStep = 6 ∧ s.problemIs .wreck = false) ∨
    ((it = .locationOptions ∨ it = .addressInput) ∧ s.currentStep = 8) ∨
    ((it = .destinationOptions ∨ it = .destinationInput) ∧ 10 ≤ s.currentStep ∧
      s.needsDestination = true ∧ s.problemIs .wreck = false) ∨
    (it = .summaryCard ∧ s.finalStep < s.currentStep) := by
  unfold chatHtml at h
  rcases List.mem_append.1 h with h | h
  · exact Or.inl (affordance_createStep0 s it (mem_ite_nil h).2 ha)
  · by_cases hw : s.problemIs .wreck = true
    · rw [if_pos hw] at h
      simp only [List.mem_append] at h
      rcases h with (((h | h) | h) | h) | h
      · exact Or.inr (Or.inr (Or.inl (affordance_createWreckStep1 s it (mem_ite_nil h).2 ha)))
      · exact Or.inr (Or.inr (Or.inr (Or.inl
          (affordance_createWreckStep2 s it (mem_ite_nil h).2 ha))))
      · exact Or.inr (Or.inr (Or.inr (Or.inr (Or.inl
          (affordance_createWreckStep3 s it (mem_ite_nil h).2 ha)))))
      · exact Or.inr (Or.inr (Or.inr (Or.inr (Or.inr (Or.inr (Or.inr (Or.inr (Or.inl
          (affordance_createStep4 s it (mem_ite_nil h).2 ha)))))))))
      · exact Or.inr (Or.inr (Or.inr (Or.inr (Or.inr (Or.inr (Or.inr (Or.inr (Or.inr (Or.inr
          (affordance_createStep5 s it (mem_ite_nil h).2 ha))))))))))
    · have hw2 : s.problemIs .wreck = false := by simpa using hw
      rw [if_neg hw] at h
      simp only [List.mem_append] at h
      rcases h with (((((h | h) | h) | h) | h) | h) | h
      · obtain ⟨h1, h2, h3⟩ := affordance_createStep1 s it (mem_ite_nil h).2 ha
        exact Or.inr (Or.inl ⟨h1, h2, h3, hw2⟩)
      · exact Or.inr (Or.inr (Or.inr (Or.inr (Or.inr (Or.inl
          (affordance_createStep1b s it (mem_ite_nil h).2 ha))))))
      · obtain ⟨h1, h2⟩ := affordance_createStep2 s it (mem_ite_nil h).2 ha
        exact Or.inr (Or.inr (Or.inr (Or.inr (Or.inr (Or.inr (Or.inl ⟨h1, h2, hw2⟩))))))
      · obtain ⟨h1, h2⟩ := affordance_createStep3 s it (mem_ite_nil h).2 ha
        exact Or.inr (Or.inr (Or.inr (Or.inr (Or.inr (Or.inr (Or.inr (Or.inl
          ⟨h1, h2, hw2⟩)))))))
      · exact Or.inr (Or.inr (Or.inr (Or.inr (Or.inr (Or.inr (Or.inr (Or.inr (Or.inl
          (affordance_createStep4 s it (mem_ite_nil h).2 ha)))))))))
      · obtain ⟨⟨h1, h2⟩, h3⟩ := mem_ite_nil h
        exact Or.inr (Or.inr (Or.inr (Or.inr (Or.inr (Or.inr (Or.inr (Or.inr (Or.inr (Or.inl
          ⟨affordance_createStep4b s it h3 ha, h1, h2, hw2⟩)))))))))
      · exact Or.inr (Or.inr (Or.inr (Or.inr (Or.inr (Or.inr (Or.inr (Or.inr (Or.inr (Or.inr
          (affordance_createStep5 s it (mem_ite_nil h).2 ha))))))))))

theorem problemIs_congr {s s1 : State} (h : s.problem = s1.problem) (id : ProblemId) :
    s.problemIs id = s1.problemIs id := by
  simp only [State.problemIs, h]

theorem needsDestination_congr {s s1 : State} (h : s.problem = s1.problem) :
    s.needsDestination = s1.needsDestination := by
  simp only [State.needsDestination, h]

theorem finalStep_congr {s s1 : State} (h : s.problem = s1.problem) :
    s.finalStep = s1.finalStep := by
  simp only [State.finalStep, State.needsDestination, h]

theorem finalStep_ge (s : State) : 10 ≤ s.finalStep := by
  unfold State.finalStep
  split <;> decide

theorem renderThrows_iff (s : State) (h : renderThrows s = true) :
    s.problem = none ∧ Item.summaryCard ∈ chatHtml s ∧ 10 < s.currentStep := by
  simp only [renderThrows, Bool.and_eq_true, Option.isNone_iff_eq_none, decide_eq_true_eq] at h
  refine ⟨h.1, h.2, ?_⟩
  have hf := finalStep_ge s
  rcases affordance_chatHtml s _ h.2 rfl with k | k | k | k | k | k | k | k | k | k | k
  · exact absurd k.1 (by simp)
  · exact absurd k.1 (by simp)
  · exact absurd k.1 (by simp)
  · exact absurd k.1 (by simp)
  · exact absurd k.1 (by simp)
  · exact absurd k.1 (by simp)
  · exact absurd k.1 (by simp)
  · exact absurd k.1 (by simp)
  · rcases k.1 with k1 | k1 <;> exact absurd k1 (by simp)
  · rcases k.1 with k1 | k1 <;> exact absurd k1 (by simp)
  · omega

/-- Without a problem, from step 4.5 on, a chat area that could be built
offers no input. -/
theorem quiet_chatHtml (snap : State) (hp : snap.problem = none) (hk : 9 ≤ snap.currentStep)
    (hnt : renderThrows snap = false) : ∀ it ∈ chatHtml snap, it.isAffordance = false := by
  intro it hit
  by_contra ha
  have ha1 : it.isAffordance = true := by simpa using ha
  have hnd : snap.needsDestination = false := by simp [State.needsDestination, hp]
  rcases affordance_chatHtml snap it hit ha1 with
    k | k | k | k | k | k | k | k | k | k | k
  · omega
  · omega
  · omega
  · omega
  · omega
  · omega
  · omega
  · omega
  · omega
  · rw [hnd] at k
    exact Bool.noConfusion k.2.2.1
  · rw [k.1] at hit
    simp [renderThrows, hp, hit] at hnt

/-- In a coherent world every input shown in the chat area belongs to the
current step (or is the destination chooser, from step 5 on). -/
theorem shown_affordance (w : World) (hc : Coherent w) (it : Item) (h : it ∈ w.chatArea)
    (ha : it.isAffordance = true) :
    (it = .problemOptions (PROBLEMS.map (·.id)) ∧ w.state.currentStep = 0) ∨
    (it = .vehicleOptions VEHICLE_CATEGORIES ∧ w.state.currentStep = 2 ∧
      w.state.problem ≠ none ∧ w.state.problemIs .wreck = false) ∨
    (it = .textInput .brand ∧ w.state.currentStep = 2 ∧ w.state.problemIs .wreck = true) ∨
    (it = .textInput .model ∧ w.state.currentStep = 4 ∧ w.state.problemIs .wreck = true) ∨
    (it = .textInput .year ∧ w.state.currentStep = 6 ∧ w.state.problemIs .wreck = true) ∨
    (it = .smallOptions [.front, .rear] ∧ w.state.currentStep = 3 ∧
      w.state.problemIs .flat = true) ∨
    (it = .smallOptions TRANSMISSIONS ∧ w.state.currentStep = 4 ∧
      w.state.problemIs .wreck = false) ∨
    (it = .smallOptions [.yes, .no] ∧ w.state.currentStep = 6 ∧
      w.state.problemIs .wreck = false) ∨
    ((it = .locationOptions ∨ it = .addressInput) ∧ w.state.currentStep = 8) ∨
    ((it = .destinationOptions ∨ it = .destinationInput) ∧ 10 ≤ w.state.currentStep ∧
      w.state.needsDestination = true ∧ w.state.problemIs .wreck = false) ∨
    (it = .summaryCard ∧ w.state.finalStep < w.state.currentStep) := by
  cases hm : w.modalElement with
  | false =>
    rw [hc.1 hm] at h
    simp at h
  | true =>
    obtain ⟨snap, h1, hnt, h23⟩ := hc.2 hm
    rw [h1] at h
    rcases h23 with ⟨h2, h3⟩ | ⟨-, -, hq, h9⟩
    · have key := affordance_chatHtml snap it h ha
      rw [h2] at key
      by_cases h0 : snap.currentStep = 0
      · rw [h2] at h0
        rcases key with k | k | k | k | k | k | k | k | k | k | k
        · exact Or.inl k
        all_goals (exfalso; have := finalStep_ge snap; omega)
      · have hp := h3 h0
        rw [problemIs_congr hp, problemIs_congr hp, needsDestination_congr hp,
          finalStep_congr hp, hp] at key
        rcases key with k | k | k | k | k | k | k | k | k | k | k
        · exact Or.inl k
        · exact Or.inr (Or.inl k)
        · exact Or.inr (Or.inr (Or.inl k))
        · exact Or.inr (Or.inr (Or.inr (Or.inl ⟨k.1, k.2.1, k.2.2.1⟩)))
        · exact Or.inr (Or.inr (Or.inr (Or.inr (Or.inl ⟨k.1, k.2.1, k.2.2.1⟩))))
        · exact Or.inr (Or.inr (Or.inr (Or.inr (Or.inr (Or.inl k)))))
        · exact Or.inr (Or.inr (Or.inr (Or.inr (Or.inr (Or.inr (Or.inl k))))))
        · exact Or.inr (Or.inr (Or.inr (Or.inr (Or.inr (Or.inr (Or.inr (Or.inl k)))))))
        · exact Or.inr (Or.inr (Or.inr (Or.inr (Or.inr (Or.inr (Or.inr (Or.inr (Or.inl k))))))))
        · exact Or.inr (Or.inr (Or.inr (Or.inr (Or.inr (Or.inr (Or.inr (Or.inr (Or.inr
            (Or.inl k)))))))))
        · exact Or.inr (Or.inr (Or.inr (Or.inr (Or.inr (Or.inr (Or.inr (Or.inr (Or.inr
            (Or.inr k)))))))))
    · rw [quiet_chatHtml snap hq h9 hnt it h] at ha
      exact Bool.noConfusion ha

theorem hasProblemOption_mem (html : List Item) (id : ProblemId)
    (h : hasProblemOption html id = true) :
    ∃ ids, Item.problemOptions ids ∈ html ∧ id ∈ ids := by
  simp only [hasProblemOption, List.any_eq_true] at h
  obtain ⟨x, hx, hx2⟩ := h
  cases x <;> simp at hx2
  exact ⟨_, hx, hx2⟩

theorem hasVehicleOption_mem (html : List Item) (id : VehicleId)
    (h : hasVehicleOption html id = true) :
    ∃ ids, Item.vehicleOptions ids ∈ html ∧ id ∈ ids := by
  simp only [hasVehicleOption, List.any_eq_true] at h
  obtain ⟨x, hx, hx2⟩ := h
  cases x <;> simp at hx2
  exact ⟨_, hx, hx2⟩

theorem hasSmallOption_mem (html : List Item) (id : OptionId)
    (h : hasSmallOption html id = true) :
    ∃ ids, Item.smallOptions ids ∈ html ∧ id ∈ ids := by
  simp only [hasSmallOption, List.any_eq_true] at h
  obtain ⟨x, hx, hx2⟩ := h
  cases x <;> simp at hx2
  exact ⟨_, hx, hx2⟩

theorem guard_problem (w : World) (hc : Coherent w) (id : ProblemId)
    (he : enabled w (.clickProblem id) = true) : w.state.currentStep = 0 := by
  simp only [enabled, Bool.and_eq_true] at he
  obtain ⟨ids, h1, -⟩ := hasProblemOption_mem _ _ he.2
  rcases shown_affordance w hc _ h1 rfl with k | k | k | k | k | k | k | k | k | k | k
  · exact k.2
  all_goals exact absurd k.1 (by simp)

theorem guard_vehicle (w : World) (hc : Coherent w) (id : VehicleId)
    (he : enabled w (.clickVehicle id) = true) :
    w.state.currentStep = 2 ∧ w.state.problem ≠ none ∧ w.state.problemIs .wreck = false := by
  simp only [enabled, Bool.and_eq_true] at he
  obtain ⟨ids, h1, -⟩ := hasVehicleOption_mem _ _ he.2
  rcases shown_affordance w hc _ h1 rfl with k | k | k | k | k | k | k | k | k | k | k
  · exact absurd k.1 (by simp)
  · exact k.2
  all_goals exact absurd k.1 (by simp)

theorem guard_small (w : World) (hc : Coherent w) (id : OptionId)
    (he : enabled w (.clickSmallOption id) = true) :
    (w.state.currentStep = 3 ∧ w.state.problemIs .flat = true) ∨
    (w.state.currentStep = 4 ∧ w.state.problemIs .wreck = false) ∨
    (w.state.currentStep = 6 ∧ w.state.problemIs .wreck = false) := by
  simp only [enabled, Bool.and_eq_true] at he
  obtain ⟨ids, h1, -⟩ := hasSmallOption_mem _ _ he.2
  rcases shown_affordance w hc _ h1 rfl with k | k | k | k | k | k | k | k | k | k | k
  · exact absurd k.1 (by simp)
  · exact absurd k.1 (by simp)
  · exact absurd k.1 (by simp)
  · exact absurd k.1 (by simp)
  · exact absurd k.1 (by simp)
  · exact Or.inl k.2
  · exact Or.inr (Or.inl k.2)
  · exact Or.inr (Or.inr k.2)
  all_goals exact absurd k.1 (by simp)

theorem guard_input (w : World) (hc : Coherent w) (id : InputId)
    (h : Item.textInput id ∈ w.chatArea) :
    w.state.problemIs .wreck = true ∧
    (w.state.currentStep = 2 ∨ w.state.currentStep = 4 ∨ w.state.currentStep = 6) := by
  rcases shown_affordance w hc _ h rfl with k | k | k | k | k | k | k | k | k | k | k
  · exact absurd k.1 (by simp)
  · exact absurd k.1 (by simp)
  · exact ⟨k.2.2, Or.inl k.2.1⟩
  · exact ⟨k.2.2, Or.inr (Or.inl k.2.1)⟩
  · exact ⟨k.2.2, Or.inr (Or.inr k.2.1)⟩
  all_goals exact absurd k.1 (by simp)

theorem guard_location (w : World) (hc : Coherent w)
    (h : Item.locationOptions ∈ w.chatArea ∨ Item.addressInput ∈ w.chatArea) :
    w.state.currentStep = 8 := by
  rcases h with h | h <;>
  rcases shown_affordance w hc _ h rfl with k | k | k | k | k | k | k | k | k | k | k <;>
  first
  | exact k.2
  | exact absurd k.1 (by simp)

theorem guard_destination (w : World) (hc : Coherent w)
    (h : Item.destinationOptions ∈ w.chatArea ∨ Item.destinationInput ∈ w.chatArea) :
    10 ≤ w.state.currentStep ∧ w.state.needsDestination = true ∧
      w.state.problemIs .wreck = false := by
  rcases h with h | h <;>
  rcases shown_affordance w hc _ h rfl with k | k | k | k | k | k | k | k | k | k | k <;>
  first
  | exact k.2
  | exact absurd k.1 (by simp)

/-! ## The state after each handler -/

@[simp]
theorem renderCurrentStep_state (w : World) : (renderCurrentStep w).state = w.state := by
  unfold renderCurrentStep
  split <;> rfl

@[simp]
theorem renderCurrentStep_timers (w : World) : (renderCurrentStep w).timers = w.timers := by
  unfold renderCurrentStep
  split <;> rfl

@[simp]
theorem renderCurrentStep_now (w : World) : (renderCurrentStep w).now = w.now := by
  unfold renderCurrentStep
  split <;> rfl

@[simp]
theorem renderCurrentStep_gpsRequests (w : World) :
    (renderCurrentStep w).gpsRequests = w.gpsRequests := by
  unfold renderCurrentStep
  split <;> rfl

@[simp]
theorem renderCurrentStep_routeRequests (w : World) :
    (renderCurrentStep w).routeRequests = w.routeRequests := by
  unfold renderCurrentStep
  split <;> rfl

@[simp]
theorem setTimeout_state (w : World) (cb : Callback) (d : Nat) :
    (w.setTimeout cb d).state = w.state := rfl

@[simp]
theorem setTimeout_timers (w : World) (cb : Callback) (d : Nat) :
    (w.setTimeout cb d).timers = w.timers ++ [⟨w.now + d, cb⟩] := rfl

@[simp]
theorem setTimeout_gpsRequests (w : World) (cb : Callback) (d : Nat) :
    (w.setTimeout cb d).gpsRequests = w.gpsRequests := rfl

@[simp]
theorem setTimeout_routeRequests (w : World) (cb : Callback) (d : Nat) :
    (w.setTimeout cb d).routeRequests = w.routeRequests := rfl

@[simp]
theorem goToNextStep_state (w : World) : (goToNextStep w).state =
    { w.state with currentStep := w.state.currentStep + 2, isTyping := true } := by
  simp only [goToNextStep]
  split <;> simp only [setTimeout_state, renderCurrentStep_state]

@[simp]
theorem afterTyping_state (w : World) :
    (afterTyping w).state = { w.state with isTyping := false } := by
  simp only [afterTyping]
  split
  · rfl
  · split <;> simp only [setTimeout_state, renderCurrentStep_state]

@[simp]
theorem onAddressBtnClick_state (w : World) :
    (onAddressBtnClick w).state = { w.state with showAddressInput := true } := by
  simp only [onAddressBtnClick]
  split <;> simp only [setTimeout_state, renderCurrentStep_state]

theorem goToNextStep_timers (w : World) (x : Timer) (hx : x ∈ (goToNextStep w).timers) :
    x ∈ w.timers ∨ x.cb = .afterTyping := by
  simp only [goToNextStep] at hx
  split at hx
  · exact Or.inl hx
  · simp only [setTimeout_timers, renderCurrentStep_timers, List.mem_append,
      List.mem_singleton] at hx
    rcases hx with hx | rfl
    · exact Or.inl hx
    · exact Or.inr rfl

theorem afterTyping_timers (w : World) (x : Timer) (hx : x ∈ (afterTyping w).timers) :
    x ∈ w.timers ∨ (x.cb = .showRecap ∧ w.state.currentStep = w.state.finalStep) := by
  simp only [afterTyping] at hx
  split at hx
  · exact Or.inl hx
  · split at hx
    · rename_i hf
      simp only [setTimeout_timers, renderCurrentStep_timers, List.mem_append,
        List.mem_singleton] at hx
      simp only [renderCurrentStep_state] at hf
      rcases hx with hx | rfl
      · exact Or.inl hx
      · exact Or.inr ⟨rfl, hf⟩
    · simp only [renderCurrentStep_timers] at hx
      exact Or.inl hx

theorem onAddressBtnClick_timers (w : World) (x : Timer)
    (hx : x ∈ (onAddressBtnClick w).timers) : x ∈ w.timers ∨ x.cb = .initAddressPlaces := by
  simp only [onAddressBtnClick] at hx
  split at hx
  · exact Or.inl hx
  · simp only [setTimeout_timers, renderCurrentStep_timers, List.mem_append,
      List.mem_singleton] at hx
    rcases hx with hx | rfl
    · exact Or.inl hx
    · exact Or.inr rfl

@[simp]
theorem afterTyping_gpsRequests (w : World) : (afterTyping w).gpsRequests = w.gpsRequests := by
  simp only [afterTyping]
  split
  · rfl
  · split <;> simp only [setTimeout_gpsRequests, renderCurrentStep_gpsRequests]

@[simp]
theorem afterTyping_routeRequests (w : World) :
    (afterTyping w).routeRequests = w.routeRequests := by
  simp only [afterTyping]
  split
  · rfl
  · split <;> simp only [setTimeout_routeRequests, renderCurrentStep_routeRequests]

theorem runCallback_problem (w : World) (cb : Callback) :
    (runCallback w cb).state.problem = w.state.problem := by
  cases cb <;>
    simp only [runCallback, goToNextStep_state, afterTyping_state, showRecap, endTyping,
      initAddressPlaces] <;>
    (try split) <;>
    simp only [renderCurrentStep_state]

theorem handle_problem (w : World) (e : Event) (hne : e ≠ .showModal)
    (hnp : ∀ id, e ≠ .clickProblem id) :
    (handle w e).state.problem = w.state.problem := by
  cases e with
  | showModal => exact absurd rfl hne
  | clickProblem id => exact absurd rfl (hnp id)
  | hideModal =>
    simp only [handle, hideModal]
    split <;> rfl
  | clickVehicle id =>
    simp only [handle, onVehicleClick]
    split
    · split
      · rfl
      · simp only [setTimeout_state, renderCurrentStep_state]
    · rfl
  | submitBrand value =>
    simp only [handle, handleBrandSubmit]
    split <;> rfl
  | submitModel value =>
    simp only [handle, handleModelSubmit]
    split <;> rfl
  | submitYear value =>
    simp only [handle, handleYearSubmit]
    split <;> rfl
  | clickSmallOption id =>
    simp only [handle, onSmallOptionClick]
    split
    · rfl
    · split
      · rfl
      · split <;> rfl
  | clickGps =>
    simp only [handle, handleGPSLocation]
    split <;> rfl
  | gpsSuccess lat lng => rfl
  | gpsError code => simp only [handle, onPositionError, renderCurrentStep_state]
  | clickAddressBtn => simp only [handle, onAddressBtnClick_state]
  | clickAddressBack => simp only [handle, onAddressBackClick, renderCurrentStep_state]
  | selectAddress address => rfl
  | clickDestinationAddressBtn =>
    simp only [handle, onDestinationAddressBtnClick, renderCurrentStep_state]
  | clickDestinationBack =>
    simp only [handle, onDestinationBackClick, renderCurrentStep_state]
  | selectDestination address =>
    simp only [handle, handleDestinationSelect, calculateDistance]
    split <;> rfl
  | routeResult result => cases result <;> rfl
  | clickUnknown => rfl
  | changeLanguage lang =>
    simp only [handle, onLanguageOptionClick]
    split
    · split
      · rfl
      · simp only [renderCurrentStep_state]
    · rfl

theorem handle_currentStep (w : World) (e : Event) (hne : e ≠ .showModal)
    (hnv : ∀ id, e ≠ .clickVehicle id) :
    (handle w e).state.currentStep = w.state.currentStep := by
  cases e with
  | showModal => exact absurd rfl hne
  | clickVehicle id => exact absurd rfl (hnv id)
  | clickProblem id => rfl
  | hideModal =>
    simp only [handle, hideModal]
    split <;> rfl
  | submitBrand value =>
    simp only [handle, handleBrandSubmit]
    split <;> rfl
  | submitModel value =>
    simp only [handle, handleModelSubmit]
    split <;> rfl
  | submitYear value =>
    simp only [handle, handleYearSubmit]
    split <;> rfl
  | clickSmallOption id =>
    simp only [handle, onSmallOptionClick]
    split
    · rfl
    · split
      · rfl
      · split <;> rfl
  | clickGps =>
    simp only [handle, handleGPSLocation]
    split <;> rfl
  | gpsSuccess lat lng => rfl
  | gpsError code => simp only [handle, onPositionError, renderCurrentStep_state]
  | clickAddressBtn => simp only [handle, onAddressBtnClick_state]
  | clickAddressBack => simp only [handle, onAddressBackClick, renderCurrentStep_state]
  | selectAddress address => rfl
  | clickDestinationAddressBtn =>
    simp only [handle, onDestinationAddressBtnClick, renderCurrentStep_state]
  | clickDestinationBack =>
    simp only [handle, onDestinationBackClick, renderCurrentStep_state]
  | selectDestination address =>
    simp only [handle, handleDestinationSelect, calculateDistance]
    split <;> rfl
  | routeResult result => cases result <;> rfl
  | clickUnknown => rfl
  | changeLanguage lang =>
    simp only [handle, onLanguageOptionClick]
    split
    · split
      · rfl
      · simp only [renderCurrentStep_state]
    · rfl

theorem handleTimes_problem (e : Event) (hne : e ≠ .showModal)
    (hnp : ∀ id, e ≠ .clickProblem id) :
    ∀ (n : Nat) (w : World), (handleTimes e n w).state.problem = w.state.problem
  | 0, _ => rfl
  | n + 1, w => (handleTimes_problem e hne hnp n (handle w e)).trans (handle_problem w e hne hnp)


/-! ## Coherence is kept by every move -/

theorem coherent_render_state (w : World) (hc : Coherent w) (s1 : State)
    (hk : s1.currentStep ≤ w.state.currentStep + 2) (hp : s1.problem = w.state.problem) :
    Coherent (renderCurrentStep { w with state := s1 }) := by
  by_cases hnt : renderThrows s1 = false
  · exact coherent_render _ hc.1 hnt
  · have ht : renderThrows s1 = true := by simpa using hnt
    have hrw : renderCurrentStep { w with state := s1 } = { w with state := s1 } := by
      simp [renderCurrentStep, ht]
    rw [hrw]
    obtain ⟨hnone, -, hgt⟩ := renderThrows_iff s1 ht
    refine ⟨hc.1, fun hm => ?_⟩
    obtain ⟨snap, h2, h3, h45⟩ := hc.2 hm
    refine ⟨snap, h2, h3, Or.inr ⟨hnone, hgt, ?_⟩⟩
    rcases h45 with ⟨h4, h5⟩ | ⟨-, -, h5⟩
    · exact ⟨by rw [h5 (by omega), ← hp]; exact hnone, by omega⟩
    · exact h5

/-- The world left by a callback that ends in `renderCurrentStep` throwing. -/
theorem coherent_failed (w : World) (hc : Coherent w) (s1 : State)
    (hk : s1.currentStep ≤ w.state.currentStep + 2) (hp : s1.problem = w.state.problem)
    (hf : renderFails { w with state := s1 } = true) :
    Coherent { w with state := s1 } := by
  have h := coherent_render_state w hc s1 hk hp
  rwa [renderCurrentStep_fails _ hf] at h

theorem Coherent.setTimeout {w : World} (h : Coherent w) (cb : Callback) (d : Nat) :
    Coherent (w.setTimeout cb d) :=
  h.frame rfl rfl rfl rfl

theorem coherent_runCallback (w : World) (hc : Coherent w) (cb : Callback) :
    Coherent (runCallback w cb) := by
  cases cb with
  | goToNextStep =>
    simp only [runCallback, goToNextStep]
    split
    · exact coherent_failed w hc _ (by exact Nat.le_refl _) (by rfl) (by assumption)
    · exact (coherent_render_state w hc _ (by exact Nat.le_refl _) (by rfl)).setTimeout _ _
  | afterTyping =>
    simp only [runCallback, afterTyping]
    split
    · exact coherent_failed w hc _ (by exact Nat.le_add_right _ _) (by rfl) (by assumption)
    · split
      · exact (coherent_render_state w hc _ (by exact Nat.le_add_right _ _)
          (by rfl)).setTimeout _ _
      · exact coherent_render_state w hc _ (by exact Nat.le_add_right _ _) (by rfl)
  | showRecap =>
    exact coherent_render_state w hc _ (by exact Nat.add_le_add_left (by decide) _) (by rfl)
  | flatAfterTyping => exact coherent_render_state w hc _ (by exact Nat.le_add_right _ _) (by rfl)
  | initialAfterTyping => exact coherent_render_state w hc _ (by exact Nat.le_add_right _ _) (by rfl)
  | initAddressPlaces =>
    simp only [runCallback, initAddressPlaces]
    split
    · exact hc.frame rfl rfl rfl rfl
    · exact hc

theorem coherent_showModal (w : World) : Coherent (showModal w) :=
  (coherent_render _ (fun h => Bool.noConfusion h) (renderThrows_step0 _ rfl)).frame
    rfl rfl rfl rfl

theorem coherent_handle (w : World) (hc : Coherent w) (e : Event)
    (hg : Guard w e) : Coherent (handle w e) := by
  cases e with
  | showModal => exact coherent_showModal w
  | hideModal =>
    simp only [handle, hideModal]
    split
    · exact hc.frame rfl rfl rfl rfl
    · exact hc
  | clickProblem id =>
    have h0 : w.state.currentStep = 0 := hg
    refine ⟨hc.1, fun hm => ?_⟩
    obtain ⟨snap, h1, h2, h34⟩ := hc.2 hm
    rcases h34 with ⟨h3, -⟩ | ⟨-, h10, -⟩
    · exact ⟨snap, h1, h2, Or.inl ⟨h3, fun h4 => absurd (h3.trans h0) h4⟩⟩
    · omega
  | clickVehicle id =>
    have hk : 3 ≤ w.state.currentStep + 2 := by
      rcases hg.2.2 with k | k <;> omega
    simp only [handle, onVehicleClick]
    split
    · split
      · exact coherent_failed w hc _ (by exact hk) (by rfl) (by assumption)
      · exact (coherent_render_state w hc _ (by exact hk) (by rfl)).setTimeout _ _
    · exact hc.frame rfl rfl rfl rfl
  | submitBrand value =>
    simp only [handle, handleBrandSubmit]
    split
    · exact hc.frame rfl rfl rfl rfl
    · exact hc
  | submitModel value =>
    simp only [handle, handleModelSubmit]
    split
    · exact hc.frame rfl rfl rfl rfl
    · exact hc
  | submitYear value =>
    simp only [handle, handleYearSubmit]
    split
    · exact hc.frame rfl rfl rfl rfl
    · exact hc
  | clickSmallOption id =>
    simp only [handle, onSmallOptionClick]
    split
    · exact hc.frame rfl rfl rfl rfl
    · split
      · exact hc.frame rfl rfl rfl rfl
      · split
        · exact hc.frame rfl rfl rfl rfl
        · exact hc
  | clickGps =>
    simp only [handle, handleGPSLocation]
    split
    · exact hc.frame rfl rfl rfl rfl
    · exact hc
  | gpsSuccess lat lng => exact hc.frame rfl rfl rfl rfl
  | gpsError code =>
    exact coherent_render_state { w with gpsRequests := w.gpsRequests - 1, gpsDisabled := false }
      (hc.frame rfl rfl rfl rfl) _ (by exact Nat.le_add_right _ _) (by rfl)
  | clickAddressBtn =>
    simp only [handle, onAddressBtnClick]
    split
    · exact coherent_failed w hc _ (by exact Nat.le_add_right _ _) (by rfl) (by assumption)
    · exact (coherent_render_state w hc _ (by exact Nat.le_add_right _ _)
        (by rfl)).setTimeout _ _
  | clickAddressBack =>
    exact coherent_render_state w hc _ (by exact Nat.le_add_right _ _) (by rfl)
  | selectAddress address => exact hc.frame rfl rfl rfl rfl
  | clickDestinationAddressBtn =>
    exact coherent_render_state w hc _ (by exact Nat.le_add_right _ _) (by rfl)
  | clickDestinationBack =>
    exact coherent_render_state w hc _ (by exact Nat.le_add_right _ _) (by rfl)
  | selectDestination address =>
    simp only [handle, handleDestinationSelect, calculateDistance]
    split
    · exact hc.frame rfl rfl rfl rfl
    · exact hc.frame rfl rfl rfl rfl
  | routeResult result =>
    cases result with
    | none => exact hc.frame rfl rfl rfl rfl
    | some r => exact hc.frame rfl rfl rfl rfl
  | clickUnknown => exact hc.frame rfl rfl rfl rfl
  | changeLanguage lang =>
    simp only [handle, onLanguageOptionClick]
    split
    · split
      · exact (coherent_failed w hc { w.state with currentLanguage := lang }
          (Nat.le_add_right _ _) rfl (by assumption)).frame rfl rfl rfl rfl
      · exact (coherent_render_state w hc { w.state with currentLanguage := lang }
          (Nat.le_add_right _ _) rfl).frame rfl rfl rfl rfl
    · exact hc

/-- When an event can happen in a coherent world, the state is at the step
of the element it comes from. -/
theorem guard_of_enabled (w : World) (hc : Coherent w) (e : Event)
    (he : enabled w e = true) : Guard w e := by
  cases e with
  | showModal => trivial
  | hideModal => trivial
  | changeLanguage lang => trivial
  | clickProblem id => exact guard_problem w hc id he
  | clickVehicle id =>
    have h := guard_vehicle w hc id he
    exact ⟨h.2.1, h.2.2, Or.inl h.1⟩
  | submitBrand value =>
    simp only [enabled, Bool.and_eq_true, decide_eq_true_eq] at he
    exact guard_input w hc _ he.2
  | submitModel value =>
    simp only [enabled, Bool.and_eq_true, decide_eq_true_eq] at he
    exact guard_input w hc _ he.2
  | submitYear value =>
    simp only [enabled, Bool.and_eq_true, decide_eq_true_eq] at he
    exact guard_input w hc _ he.2
  | clickSmallOption id => exact guard_small w hc id he
  | clickGps =>
    simp only [enabled, Bool.and_eq_true, decide_eq_true_eq] at he
    exact guard_location w hc (Or.inl he.1.2)
  | gpsSuccess lat lng => simpa [enabled] using he
  | gpsError code => simpa [enabled] using he
  | clickAddressBtn =>
    simp only [enabled, Bool.and_eq_true, decide_eq_true_eq] at he
    exact guard_location w hc (Or.inl he.2)
  | clickAddressBack =>
    simp only [enabled, Bool.and_eq_true, decide_eq_true_eq] at he
    exact guard_location w hc (Or.inr he.2)
  | selectAddress address =>
    simp only [enabled, Bool.and_eq_true, decide_eq_true_eq] at he
    exact guard_location w hc (Or.inr he.1.1.2)
  | clickDestinationAddressBtn =>
    simp only [enabled, Bool.and_eq_true, decide_eq_true_eq] at he
    exact guard_destination w hc (Or.inl he.2)
  | clickDestinationBack =>
    simp only [enabled, Bool.and_eq_true, decide_eq_true_eq] at he
    exact guard_destination w hc (Or.inr he.2)
  | selectDestination address =>
    simp only [enabled, Bool.and_eq_true, decide_eq_true_eq] at he
    exact guard_destination w hc (Or.inr he.1.2)
  | routeResult result => simpa [enabled] using he
  | clickUnknown =>
    simp only [enabled, Bool.and_eq_true, decide_eq_true_eq] at he
    exact guard_destination w hc (Or.inl he.2)

theorem Guard.carry {w w1 : World} {e : Event} (he : e.onChatArea = true) (hg : Guard w e)
    (hk : w1.state.currentStep = w.state.currentStep)
    (hp : w1.state.problem = w.state.problem) : Guard w1 e := by
  cases e <;> first
    | exact Bool.noConfusion he
    | (simp only [Guard, hk, problemIs_congr hp, needsDestination_congr hp, hp] at hg ⊢
       exact hg)

/-- The state is still at the step of the element after one of its listeners
has run. -/
theorem guard_handle (w : World) (e : Event) (he : e.onChatArea = true) (hg : Guard w e) :
    Guard (handle w e) e := by
  by_cases hv : ∃ id, e = .clickVehicle id
  · obtain ⟨id, rfl⟩ := hv
    simp only [handle, onVehicleClick]
    split
    · rename_i hf
      have hf1 : w.state.problemIs .flat = true := hf
      split
      · exact ⟨hg.1, hg.2.1, Or.inr ⟨rfl, hf1⟩⟩
      · refine ⟨?_, ?_, Or.inr ⟨?_, ?_⟩⟩
        · simpa only [setTimeout_state, renderCurrentStep_state] using hg.1
        · simpa only [setTimeout_state, renderCurrentStep_state, State.problemIs] using hg.2.1
        · simp only [setTimeout_state, renderCurrentStep_state]
        · simpa only [setTimeout_state, renderCurrentStep_state, State.problemIs] using hf1
    · exact hg
  · by_cases hp : ∃ id, e = .clickProblem id
    · obtain ⟨id, rfl⟩ := hp
      exact hg
    · have hne : e ≠ .showModal := fun h => by
        subst h
        exact Bool.noConfusion he
      exact hg.carry he
        (handle_currentStep w e hne (fun id h => hv ⟨id, h⟩))
        (handle_problem w e hne (fun id h => hp ⟨id, h⟩))

theorem handleTimes_keeps {P : World → Prop} (e : Event) (he : e.onChatArea = true)
    (hP : ∀ w, Coherent w → Guard w e → P w → P (handle w e)) :
    ∀ (n : Nat) (w : World), Coherent w → Guard w e → P w →
      Coherent (handleTimes e n w) ∧ P (handleTimes e n w)
  | 0, _, hc, _, hp => ⟨hc, hp⟩
  | n + 1, w, hc, hg, hp =>
    handleTimes_keeps e he hP n (handle w e) (coherent_handle w hc e hg)
      (guard_handle w e he hg) (hP w hc hg hp)

/-- What every listener keeps, given the step of its element, is kept by the
event. -/
theorem dispatch_keeps (P : World → Prop) (w : World) (e : Event) (hc : Coherent w)
    (he : enabled w e = true)
    (hP : ∀ w, Coherent w → Guard w e → P w → P (handle w e)) (hp : P w) :
    Coherent (dispatch w e) ∧ P (dispatch w e) := by
  have hg := guard_of_enabled w hc e he
  unfold dispatch
  split
  · exact handleTimes_keeps e (by assumption) hP _ w hc hg hp
  · exact ⟨coherent_handle w hc e hg, hP w hc hg hp⟩

theorem fire_eq (w w1 : World) (h : fire w = some w1) :
    ∃ tm ∈ w.timers,
      w1 = runCallback { w with now := tm.due, timers := w.timers.erase tm } tm.cb := by
  unfold fire at h
  cases hn : nextTimer w.timers with
  | none => simp [hn] at h
  | some tm =>
    simp only [hn, Option.some.injEq] at h
    exact ⟨tm, nextTimer_mem _ _ hn, h.symm⟩

theorem coherent_step (w w1 : World) (a : Act) (hc : Coherent w) (h : step w a = some w1) :
    Coherent w1 := by
  cases a with
  | wait ms =>
    simp only [step] at h
    split at h
    · simp only [Option.some.injEq] at h
      subst h
      exact hc.frame rfl rfl rfl rfl
    · exact Option.noConfusion h
  | fire =>
    obtain ⟨tm, -, rfl⟩ := fire_eq w w1 h
    exact coherent_runCallback { w with now := tm.due, timers := w.timers.erase tm }
      (hc.frame rfl rfl rfl rfl) _
  | ev e =>
    simp only [step] at h
    split at h
    · simp only [Option.some.injEq] at h
      subst h
      exact (dispatch_keeps (fun _ => True) w e hc (by assumption) (fun _ _ _ _ => trivial)
        trivial).1
    · exact Option.noConfusion h

theorem coherent_pageLoad (lang : Lang) : Coherent (pageLoad lang) :=
  ⟨fun _ => rfl, fun h => Bool.noConfusion h⟩

theorem Reach.coherent {w : World} (h : Reach w) : Coherent w := by
  induction h with
  | load lang => exact coherent_pageLoad lang
  | move a _ hs ih => exact coherent_step _ _ a ih hs

theorem SessionReach.isCoherent {w0 w : World} (h : SessionReach w0 w) (h0 : Coherent w0) :
    Coherent w := by
  induction h with
  | start => exact h0
  | move a _ _ hs ih => exact coherent_step _ _ a ih hs

/-! ## The wreck branch -/

theorem destinationQuestion_chatHtml (s : State)
    (h : Item.bot (.t "step4b_bot_question") ∈ chatHtml s) :
    s.currentStep ≠ 0 ∧ s.problemIs .wreck = false := by
  refine ⟨fun h0 => ?_, ?_⟩
  · have hf := finalStep_ge s
    simp [chatHtml, h0, createStep0] at h
    split_ifs at h <;> simp at h <;> omega
  · by_contra hw
    have hw1 : s.problemIs .wreck = true := by simpa using hw
    unfold chatHtml at h
    rw [if_pos hw1] at h
    simp only [List.mem_append] at h
    rcases h with h | (((h | h) | h) | h) | h
    · have h := (mem_ite_nil h).2
      unfold createStep0 at h
      split_ifs at h <;> simp at h
    · have h := (mem_ite_nil h).2
      unfold createWreckStep1 answerBubble at h
      (split_ifs at h <;> simp at h); aesop
    · have h := (mem_ite_nil h).2
      unfold createWreckStep2 answerBubble at h
      (split_ifs at h <;> simp at h); aesop
    · have h := (mem_ite_nil h).2
      unfold createWreckStep3 answerBubble at h
      (split_ifs at h <;> simp at h); aesop
    · have h := (mem_ite_nil h).2
      unfold createStep4 locationQuestion at h
      rw [if_pos hw1] at h
      split_ifs at h <;> simp at h
    · have h := (mem_ite_nil h).2
      unfold createStep5 at h
      split_ifs at h <;> simp at h

/-- In every reachable world with problem wreck, nothing of `createStep4b` is
in the chat area and no destination event can happen. -/
theorem wreck_never_destination (w : World) (hr : Reach w)
    (hw : w.state.problemIs .wreck = true) :
    Item.bot (.t "step4b_bot_question") ∉ w.chatArea ∧
    Item.destinationOptions ∉ w.chatArea ∧ Item.destinationInput ∉ w.chatArea ∧
    enabled w .clickDestinationAddressBtn = false ∧ enabled w .clickUnknown = false ∧
    enabled w .clickDestinationBack = false ∧
    ∀ a, enabled w (.selectDestination a) = false := by
  have hc := hr.coherent
  have h1 : Item.destinationOptions ∉ w.chatArea := fun h => by
    have := (guard_destination w hc (Or.inl h)).2.2
    rw [hw] at this
    exact Bool.noConfusion this
  have h2 : Item.destinationInput ∉ w.chatArea := fun h => by
    have := (guard_destination w hc (Or.inr h)).2.2
    rw [hw] at this
    exact Bool.noConfusion this
  refine ⟨fun h => ?_, h1, h2, ?_, ?_, ?_, ?_⟩
  · cases hm : w.modalElement with
    | false =>
      rw [hc.1 hm] at h
      simp at h
    | true =>
      obtain ⟨snap, e1, -, e23⟩ := hc.2 hm
      rcases e23 with ⟨-, e3⟩ | ⟨e3, -⟩
      · rw [e1] at h
        obtain ⟨k1, k2⟩ := destinationQuestion_chatHtml snap h
        rw [problemIs_congr (e3 k1), hw] at k2
        exact Bool.noConfusion k2
      · simp [State.problemIs, e3] at hw
  · simp [enabled, h1]
  · simp [enabled, h1]
  · simp [enabled, h2]
  · intro a
    simp [enabled, h2]

theorem offers_brand (s : State) (h2 : s.currentStep = 2) (ht : s.isTyping = false)
    (hw : s.problemIs .wreck = true) : Item.textInput .brand ∈ chatHtml s := by
  simp [chatHtml, createWreckStep1, h2, ht, hw]

theorem offers_model (s : State) (h4 : s.currentStep = 4) (ht : s.isTyping = false)
    (hw : s.problemIs .wreck = true) (hb : truthy s.vehicleBrand = true) :
    Item.textInput .model ∈ chatHtml s := by
  simp [chatHtml, createWreckStep2, h4, ht, hw, hb]

theorem offers_year (s : State) (h6 : s.currentStep = 6) (ht : s.isTyping = false)
    (hw : s.problemIs .wreck = true) (hm : truthy s.vehicleModel = true) :
    Item.textInput .year ∈ chatHtml s := by
  simp [chatHtml, createWreckStep3, h6, ht, hw, hm]

theorem offers_location_wreck (s : State) (h8 : s.currentStep = 8) (ht : s.isTyping = false)
    (hw : s.problemIs .wreck = true) (hy : truthy s.vehicleYear = true) :
    (s.showAddressInput = false → Item.locationOptions ∈ chatHtml s) ∧
    (s.showAddressInput = true → Item.addressInput ∈ chatHtml s) := by
  constructor <;> intro ha <;>
  simp [chatHtml, createStep4, locationQuestion, h8, ht, hw, hy, ha]

theorem truthy_some (v : String) (h : v ≠ "") : truthy (some v) = true := by
  simp [truthy, h]

theorem leads_brand (lang : Lang) (brand : String) (d : Nat) (hb : brand ≠ "") :
    Leads (afterProblem lang .wreck) (answer d (.submitBrand brand)) [2, 2, 2, 4, 4]
      (afterBrand lang brand) := by
  refine Leads.answer d _ ?_ ?_ rfl _ rfl (by decide : (2 + 2 : Nat) ≠ 10)
  · intro now ds
    simp [enabled, settled, offers_brand (afterProblem lang .wreck) rfl rfl rfl]
  · intro now ds
    simp [handle, handleBrandSubmit, settled, hb]

theorem leads_model (lang : Lang) (brand model : String) (d : Nat) (hb : brand ≠ "")
    (hm : model ≠ "") :
    Leads (afterBrand lang brand) (answer d (.submitModel model)) [4, 4, 4, 6, 6]
      (afterModel lang brand model) := by
  refine Leads.answer d _ ?_ ?_ rfl _ rfl (by decide : (4 + 2 : Nat) ≠ 10)
  · intro now ds
    simp [enabled, settled,
      offers_model (afterBrand lang brand) rfl rfl rfl (truthy_some brand hb)]
  · intro now ds
    simp [handle, handleModelSubmit, settled, hm]

theorem leads_year (lang : Lang) (brand model year : String) (d : Nat)
    (hm : model ≠ "") (hy : year ≠ "") :
    Leads (afterModel lang brand model) (answer d (.submitYear year)) [6, 6, 6, 8, 8]
      (afterYear lang brand model year) := by
  refine Leads.answer d _ ?_ ?_ rfl _ rfl (by decide : (6 + 2 : Nat) ≠ 10)
  · intro now ds
    simp [enabled, settled,
      offers_year (afterModel lang brand model) rfl rfl rfl (truthy_some model hm)]
  · intro now ds
    simp [handle, handleYearSubmit, settled, hy]

/-- C4. Wreck branch: with problem wreck, submitting a non-empty brand, model and
year in turn and then a location (browser position or picked address),
whatever time the visitor takes, takes `currentStep` through exactly
0, 1, 2, 3, 4, 5 and then 5.5 (in half steps: 0, 2, 4, 6, 8, 10, 11); and in
every reachable world whose problem is wreck the destination sub-step is
neither rendered (its question and its two choosers are absent from the chat
area) nor entered (no destination event can happen). -/
theorem wreck_branch (lang : Lang) (brand model year : String) (loc : LocationAnswer)
    (d0 d1 d2 d3 d4 : Nat) (hb : brand ≠ "") (hm : model ≠ "") (hy : year ≠ "")
    (hloc : loc.wellFormed) :
    (stepsAlong (pageLoad lang)
      (wreckSession brand model year loc d0 d1 d2 d3 d4)).map squeeze
      = some [0, 2, 4, 6, 8, 10, 11] ∧
    ∀ w, Reach w → w.state.problemIs .wreck = true →
      Item.bot (.t "step4b_bot_question") ∉ w.chatArea ∧
      Item.destinationOptions ∉ w.chatArea ∧ Item.destinationInput ∉ w.chatArea ∧
      enabled w .clickDestinationAddressBtn = false ∧ enabled w .clickUnknown = false ∧
      enabled w .clickDestinationBack = false ∧
      ∀ a, enabled w (.selectDestination a) = false := by
  refine ⟨?_, wreck_never_destination⟩
  have hl := offers_location_wreck (afterYear lang brand model year) rfl rfl rfl
    (truthy_some year hy)
  have hl2 := offers_location_wreck
    { afterYear lang brand model year with showAddressInput := true } rfl rfl rfl
    (truthy_some year hy)
  have hfin : (loc.record (afterYear lang brand model year)).currentStep + 2 =
      (loc.record (afterYear lang brand model year)).finalStep := by
    cases loc <;> rfl
  have h1 := ((((leads_problem lang .wreck d0).append (leads_brand lang brand d1 hb)).append
    (leads_model lang brand model d2 hb hm)).append
    (leads_year lang brand model year d3 hm hy)).append
    (Leads.location_final _ loc d4 hloc (hl.1 rfl) (hl2.2 rfl) _ rfl hfin)
  obtain ⟨n, ds, hr, hs⟩ := h1 typingDelayInitial false
  have h2 := stepsAlong_append _ _ _ _ _ _ (opens lang).1 (opens lang).2 hs
  simp only [wreckSession, List.append_assoc] at h2 ⊢
  rw [h2]
  cases loc <;> rfl

/-! ## The wheel position -/

theorem wheelOnlyFlat_runCallback (w : World) (cb : Callback) (h : WheelOnlyFlat w.state) :
    WheelOnlyFlat (runCallback w cb).state := by
  cases cb <;>
    simp only [runCallback, goToNextStep_state, afterTyping_state, showRecap, endTyping,
      initAddressPlaces] <;>
    (try split) <;>
    simp only [renderCurrentStep_state, WheelOnlyFlat, State.problemIs] at h ⊢ <;>
    intro hw <;> have := h hw <;> first | exact this | exact ⟨this.1, by omega⟩

theorem wheelOnlyFlat_handle (w : World) (_hc : Coherent w) (e : Event)
    (hg : Guard w e) (hne : e ≠ .showModal) (h : WheelOnlyFlat w.state) :
    WheelOnlyFlat (handle w e).state := by
  cases e with
  | showModal => exact absurd rfl hne
  | hideModal =>
    simp only [handle, hideModal]
    split <;> exact h
  | clickProblem id =>
    have h0 : w.state.currentStep = 0 := hg
    intro hw
    have := (h hw).2
    omega
  | clickVehicle id =>
    simp only [handle, onVehicleClick]
    split
    · rename_i hf
      split
      · intro _
        exact ⟨hf, le_refl _⟩
      · simp only [renderCurrentStep_state, setTimeout_state]
        intro _
        exact ⟨hf, le_refl _⟩
    · exact h
  | submitBrand value =>
    simp only [handle, handleBrandSubmit]
    split <;> exact h
  | submitModel value =>
    simp only [handle, handleModelSubmit]
    split <;> exact h
  | submitYear value =>
    simp only [handle, handleYearSubmit]
    split <;> exact h
  | clickSmallOption id =>
    simp only [handle, onSmallOptionClick]
    split
    · rename_i h3
      intro _
      rcases hg with k | k | k
      · exact ⟨k.2, by simp only [setTimeout_state]; omega⟩
      · omega
      · omega
    · split
      · exact h
      · split <;> exact h
  | clickGps =>
    simp only [handle, handleGPSLocation]
    split <;> exact h
  | gpsSuccess lat lng => exact h
  | gpsError code =>
    simp only [handle, onPositionError, renderCurrentStep_state]
    exact h
  | clickAddressBtn =>
    simp only [handle, onAddressBtnClick_state]
    exact h
  | clickAddressBack =>
    simp only [handle, onAddressBackClick, renderCurrentStep_state]
    exact h
  | selectAddress address => exact h
  | clickDestinationAddressBtn =>
    simp only [handle, onDestinationAddressBtnClick, renderCurrentStep_state]
    exact h
  | clickDestinationBack =>
    simp only [handle, onDestinationBackClick, renderCurrentStep_state]
    exact h
  | selectDestination address =>
    simp only [handle, handleDestinationSelect, calculateDistance]
    split <;> exact h
  | routeResult result =>
    cases result <;> exact h
  | clickUnknown => exact h
  | changeLanguage lang =>
    simp only [handle, onLanguageOptionClick]
    split
    · split
      · exact h
      · simp only [renderCurrentStep_state]
        exact h
    · exact h

theorem wheelOnlyFlat_step (w w1 : World) (a : Act) (hc : Coherent w)
    (h : WheelOnlyFlat w.state) (hne : a ≠ .ev .showModal) (hs : step w a = some w1) :
    WheelOnlyFlat w1.state := by
  cases a with
  | wait ms =>
    simp only [step] at hs
    split at hs
    · simp only [Option.some.injEq] at hs
      subst hs
      exact h
    · exact Option.noConfusion hs
  | fire =>
    obtain ⟨tm, -, rfl⟩ := fire_eq w w1 hs
    exact wheelOnlyFlat_runCallback { w with now := tm.due, timers := w.timers.erase tm } _ h
  | ev e =>
    simp only [step] at hs
    split at hs
    · simp only [Option.some.injEq] at hs
      subst hs
      exact (dispatch_keeps (fun x => WheelOnlyFlat x.state) w e hc (by assumption)
        (fun x hx hgx hp => wheelOnlyFlat_handle x hx e hgx (fun h => hne (by rw [h])) hp)
        h).2
    · exact Option.noConfusion hs

/-! ## Runs and reachability -/

theorem Reach.afterRun {w w1 : World} (h : Reach w) (acts : List Act)
    (hr : run w acts = some w1) : Reach w1 := by
  induction acts generalizing w with
  | nil =>
    simp only [WhatsAppSmart.run, Option.some.injEq] at hr
    exact hr ▸ h
  | cons a rest ih =>
    simp only [WhatsAppSmart.run] at hr
    cases hs : step w a with
    | none => simp [hs] at hr
    | some w2 =>
      simp only [hs] at hr
      exact ih (Reach.move a h hs) hr

theorem SessionReach.extend {w0 w w1 : World} (h : SessionReach w0 w) (acts : List Act)
    (hn : ∀ a ∈ acts, a ≠ .ev .showModal) (hr : run w acts = some w1) :
    SessionReach w0 w1 := by
  induction acts generalizing w with
  | nil =>
    simp only [WhatsAppSmart.run, Option.some.injEq] at hr
    exact hr ▸ h
  | cons a rest ih =>
    simp only [WhatsAppSmart.run] at hr
    cases hs : step w a with
    | none => simp [hs] at hr
    | some w2 =>
      simp only [hs] at hr
      exact ih (SessionReach.move a h (hn a (List.mem_cons_self _ _)) hs)
        (fun b hb => hn b (List.mem_cons_of_mem _ hb)) hr

theorem worldAfter_eq (w0 w : World) (acts : List Act) (h : run w0 acts = some w) :
    worldAfter w0 acts = w := by
  simp [worldAfter, h]

/-! ## Recap callbacks and the half step -/

theorem recapAtFinal_runCallback (w : World) (tm : Timer) (hm : tm ∈ w.timers)
    (h : RecapAtFinal w) :
    RecapAtFinal (runCallback { w with now := tm.due, timers := w.timers.erase tm } tm.cb) := by
  obtain ⟨h1, h2, h3⟩ := h
  have hsub : ∀ x ∈ w.timers.erase tm, x ∈ w.timers := fun x hx => List.mem_of_mem_erase hx
  cases hcb : tm.cb with
  | goToNextStep =>
    refine ⟨fun x hx hxc => ?_, ?_, ?_⟩
    · simp only [runCallback] at hx
      rcases goToNextStep_timers _ x hx with hx | hx
      · have := h1 x (hsub x hx) hxc
        simp only [runCallback, goToNextStep_state]
        omega
      · rw [hx] at hxc
        exact Callback.noConfusion hxc
    · simp only [runCallback, goToNextStep_state]
      omega
    · simp only [runCallback, goToNextStep_state]
      intro h
      omega
  | afterTyping =>
    refine ⟨fun x hx hxc => ?_, ?_, ?_⟩
    · simp only [runCallback] at hx
      simp only [runCallback, afterTyping_state]
      rcases afterTyping_timers _ x hx with hx | ⟨-, hfin⟩
      · exact h1 x (hsub x hx) hxc
      · have hfin1 : w.state.currentStep = w.state.finalStep := hfin
        have := finalStep_ge w.state
        show 10 ≤ w.state.currentStep
        omega
    · simpa only [runCallback, afterTyping_state] using h2
    · simpa only [runCallback, afterTyping_state, State.problemIs] using h3
  | showRecap =>
    have h10 := h1 tm hm hcb
    refine ⟨fun x hx hxc => ?_, ?_, ?_⟩
    · simp only [runCallback, showRecap, renderCurrentStep_state]
      omega
    · simp only [runCallback, showRecap, renderCurrentStep_state]
      omega
    · simp only [runCallback, showRecap, renderCurrentStep_state]
      intro h
      omega
  | flatAfterTyping =>
    refine ⟨fun x hx hxc => ?_, ?_, ?_⟩
    · simp only [runCallback, endTyping, renderCurrentStep_timers] at hx
      simpa only [runCallback, endTyping, renderCurrentStep_state] using h1 x (hsub x hx) hxc
    · simpa only [runCallback, endTyping, renderCurrentStep_state] using h2
    · simpa only [runCallback, endTyping, renderCurrentStep_state, State.problemIs] using h3
  | initialAfterTyping =>
    refine ⟨fun x hx hxc => ?_, ?_, ?_⟩
    · simp only [runCallback, endTyping, renderCurrentStep_timers] at hx
      simpa only [runCallback, endTyping, renderCurrentStep_state] using h1 x (hsub x hx) hxc
    · simpa only [runCallback, endTyping, renderCurrentStep_state] using h2
    · simpa only [runCallback, endTyping, renderCurrentStep_state, State.problemIs] using h3
  | initAddressPlaces =>
    simp only [runCallback, initAddressPlaces]
    split
    · exact ⟨fun x hx hxc => h1 x (hsub x hx) hxc, h2, h3⟩
    · exact ⟨fun x hx hxc => h1 x (hsub x hx) hxc, h2, h3⟩

theorem RecapAtFinal.transfer {w w1 : World} (h : RecapAtFinal w)
    (ht : ∀ tm ∈ w1.timers, tm.cb = .showRecap → tm ∈ w.timers)
    (hk : w1.state.currentStep = w.state.currentStep)
    (hp : w1.state.problem = w.state.problem) : RecapAtFinal w1 := by
  refine ⟨fun tm hm hc => ?_, ?_, ?_⟩
  · rw [hk]
    exact h.1 tm (ht tm hm hc) hc
  · rw [hk]
    exact h.2.1
  · rw [hk, problemIs_congr hp]
    exact h.2.2

theorem recap_mem_append {l : List Timer} {t : Nat} {cb : Callback} (hcb : cb ≠ .showRecap)
    (tm : Timer) (hm : tm ∈ l ++ [⟨t, cb⟩]) (hc : tm.cb = .showRecap) : tm ∈ l := by
  rcases List.mem_append.1 hm with h | h
  · exact h
  · simp only [List.mem_singleton] at h
    subst h
    exact absurd hc hcb

theorem recapAtFinal_handle (w : World) (_hc : Coherent w) (e : Event)
    (hg : Guard w e) (hne : e ≠ .showModal) (h : RecapAtFinal w) :
    RecapAtFinal (handle w e) := by
  cases e with
  | showModal => exact absurd rfl hne
  | hideModal =>
    simp only [handle, hideModal]
    split
    · exact h.transfer (fun _ hm _ => hm) rfl rfl
    · exact h
  | clickProblem id =>
    have h0 : w.state.currentStep = 0 := hg
    refine ⟨fun tm hm hcb => ?_, ?_, ?_⟩
    · have := h.1 tm (recap_mem_append (by decide) tm hm hcb) hcb
      omega
    · exact h.2.1
    · intro h3
      have : w.state.currentStep = 3 := h3
      omega
  | clickVehicle id =>
    have hk : w.state.currentStep ≤ 3 := by
      rcases hg.2.2 with k | k <;> omega
    simp only [handle, onVehicleClick]
    split
    · rename_i hf
      split
      · refine ⟨fun tm hm hcb => ?_, (by decide : (3 : Nat) ≠ 1), fun _ => hf⟩
        have := h.1 tm hm hcb
        omega
      · refine ⟨fun tm hm hcb => ?_, ?_, ?_⟩
        · simp only [setTimeout_timers, renderCurrentStep_timers] at hm
          have := h.1 tm (recap_mem_append (by decide) tm hm hcb) hcb
          omega
        · simp only [setTimeout_state, renderCurrentStep_state]
          decide
        · intro _
          simp only [setTimeout_state, renderCurrentStep_state]
          exact hf
    · exact h.transfer (recap_mem_append (by decide)) rfl rfl
  | submitBrand value =>
    simp only [handle, handleBrandSubmit]
    split
    · exact h.transfer (recap_mem_append (by decide)) rfl rfl
    · exact h
  | submitModel value =>
    simp only [handle, handleModelSubmit]
    split
    · exact h.transfer (recap_mem_append (by decide)) rfl rfl
    · exact h
  | submitYear value =>
    simp only [handle, handleYearSubmit]
    split
    · exact h.transfer (recap_mem_append (by decide)) rfl rfl
    · exact h
  | clickSmallOption id =>
    simp only [handle, onSmallOptionClick]
    split
    · exact h.transfer (recap_mem_append (by decide)) rfl rfl
    · split
      · exact h.transfer (recap_mem_append (by decide)) rfl rfl
      · split
        · exact h.transfer (recap_mem_append (by decide)) rfl rfl
        · exact h
  | clickGps =>
    simp only [handle, handleGPSLocation]
    split
    · exact h.transfer (fun _ hm _ => hm) rfl rfl
    · exact h
  | gpsSuccess lat lng => exact h.transfer (recap_mem_append (by decide)) rfl rfl
  | gpsError code =>
    refine h.transfer (fun tm hm _ => ?_) ?_ ?_
    · simpa only [handle, onPositionError, renderCurrentStep_timers] using hm
    · simp only [handle, onPositionError, renderCurrentStep_state]
    · simp only [handle, onPositionError, renderCurrentStep_state]
  | clickAddressBtn =>
    refine h.transfer (fun tm hm hcb => ?_) ?_ ?_
    · simp only [handle] at hm
      rcases onAddressBtnClick_timers _ tm hm with hm | hm
      · exact hm
      · rw [hm] at hcb
        exact Callback.noConfusion hcb
    · simp only [handle, onAddressBtnClick_state]
    · simp only [handle, onAddressBtnClick_state]
  | clickAddressBack =>
    refine h.transfer (fun tm hm _ => ?_) ?_ ?_
    · simpa only [handle, onAddressBackClick, renderCurrentStep_timers] using hm
    · simp only [handle, onAddressBackClick, renderCurrentStep_state]
    · simp only [handle, onAddressBackClick, renderCurrentStep_state]
  | selectAddress address => exact h.transfer (recap_mem_append (by decide)) rfl rfl
  | clickDestinationAddressBtn =>
    refine h.transfer (fun tm hm _ => ?_) ?_ ?_
    · simpa only [handle, onDestinationAddressBtnClick, renderCurrentStep_timers] using hm
    · simp only [handle, onDestinationAddressBtnClick, renderCurrentStep_state]
    · simp only [handle, onDestinationAddressBtnClick, renderCurrentStep_state]
  | clickDestinationBack =>
    refine h.transfer (fun tm hm _ => ?_) ?_ ?_
    · simpa only [handle, onDestinationBackClick, renderCurrentStep_timers] using hm
    · simp only [handle, onDestinationBackClick, renderCurrentStep_state]
    · simp only [handle, onDestinationBackClick, renderCurrentStep_state]
  | selectDestination address =>
    simp only [handle, handleDestinationSelect, calculateDistance]
    split
    · exact h.transfer (fun _ hm _ => hm) rfl rfl
    · exact h.transfer (fun _ hm _ => hm) rfl rfl
  | routeResult result =>
    cases result with
    | none => exact h.transfer (fun _ hm _ => hm) rfl rfl
    | some r => exact h.transfer (recap_mem_append (by decide)) rfl rfl
  | clickUnknown => exact h.transfer (recap_mem_append (by decide)) rfl rfl
  | changeLanguage lang =>
    simp only [handle, onLanguageOptionClick]
    split
    · split
      · exact h.transfer (fun _ hm _ => hm) rfl rfl
      · refine h.transfer (fun tm hm _ => ?_) ?_ ?_
        · simpa only [renderCurrentStep_timers] using hm
        · simp only [renderCurrentStep_state]
        · simp only [renderCurrentStep_state]
    · exact h

theorem recapAtFinal_step (w w1 : World) (a : Act) (hc : Coherent w)
    (h : RecapAtFinal w) (hne : a ≠ .ev .showModal) (hs : step w a = some w1) :
    RecapAtFinal w1 := by
  cases a with
  | wait ms =>
    simp only [step] at hs
    split at hs
    · simp only [Option.some.injEq] at hs
      subst hs
      exact h.transfer (fun _ hm _ => hm) rfl rfl
    · exact Option.noConfusion hs
  | fire =>
    obtain ⟨tm, hm, rfl⟩ := fire_eq w w1 hs
    exact recapAtFinal_runCallback w tm hm h
  | ev e =>
    simp only [step] at hs
    split at hs
    · simp only [Option.some.injEq] at hs
      subst hs
      exact (dispatch_keeps RecapAtFinal w e hc (by assumption)
        (fun x hx hgx hp => recapAtFinal_handle x hx e hgx (fun h => hne (by rw [h])) hp)
        h).2
    · exact Option.noConfusion hs

theorem recapAtFinal_showModal (pre : World) (h : NoRecapPending pre) :
    RecapAtFinal (showModal pre) := by
  refine ⟨fun tm hm hcb => ?_, ?_, ?_⟩
  · simp only [showModal, setTimeout_timers, renderCurrentStep_timers] at hm
    exact absurd hcb (h tm (recap_mem_append (by decide) tm hm hcb))
  · simp [showModal]
  · simp [showModal]

theorem SessionReach.recapAtFinal {pre w : World} (h : NoRecapPending pre)
    (hr : SessionReach (showModal pre) w) : Coherent w ∧ RecapAtFinal w := by
  induction hr with
  | start => exact ⟨coherent_showModal pre, recapAtFinal_showModal pre h⟩
  | move a _ hne hs ih =>
    exact ⟨coherent_step _ _ a ih.1 hs, recapAtFinal_step _ _ a ih.1 ih.2 hne hs⟩

/-! ## The chosen problem -/

theorem find_problem_mem (id : ProblemId) :
    ∃ p ∈ PROBLEMS, PROBLEMS.find? (fun q => q.id == id) = some p := by
  cases id <;> exact ⟨_, by decide, rfl⟩

theorem pending_mem_append {l : List Timer} {t : Nat} {cb : Callback}
    (h : ∀ tm ∈ l, tm.cb ≠ .goToNextStep ∧ tm.cb ≠ .showRecap)
    (hcb : cb ≠ .goToNextStep ∧ cb ≠ .showRecap) :
    ∀ tm ∈ l ++ [⟨t, cb⟩], tm.cb ≠ .goToNextStep ∧ tm.cb ≠ .showRecap := by
  intro tm hm
  rcases List.mem_append.1 hm with h1 | h1
  · exact h tm h1
  · simp only [List.mem_singleton] at h1
    subst h1
    exact hcb

theorem ProblemChosen.keep {w w1 : World} (h : ProblemChosen w)
    (hs : w.state.problem ≠ none) (hp : w1.state.problem = w.state.problem) :
    ProblemChosen w1 :=
  ⟨fun hn => absurd (hp ▸ hn) hs, fun p hq => h.2 p (hp ▸ hq)⟩

theorem ProblemChosen.preserved {w w1 : World} (h : ProblemChosen w)
    (hp : w1.state.problem = w.state.problem)
    (hk : w1.state.currentStep = w.state.currentStep)
    (ht : (∀ tm ∈ w.timers, tm.cb ≠ .goToNextStep ∧ tm.cb ≠ .showRecap) →
      ∀ tm ∈ w1.timers, tm.cb ≠ .goToNextStep ∧ tm.cb ≠ .showRecap)
    (hg : w1.gpsRequests = w.gpsRequests) (hr : w1.routeRequests = w.routeRequests) :
    ProblemChosen w1 := by
  refine ⟨fun hn => ?_, fun p hq => h.2 p (hp ▸ hq)⟩
  obtain ⟨h0, h1, h2, h3⟩ := h.1 (hp ▸ hn)
  exact ⟨hk ▸ h0, ht h1, hg ▸ h2, hr ▸ h3⟩

theorem problemChosen_runCallback (w : World) (tm : Timer) (hm : tm ∈ w.timers)
    (h : ProblemChosen w) :
    ProblemChosen (runCallback { w with now := tm.due, timers := w.timers.erase tm } tm.cb) := by
  have hsub : ∀ x ∈ w.timers.erase tm, x ∈ w.timers := fun x hx => List.mem_of_mem_erase hx
  by_cases hn : w.state.problem = none
  · obtain ⟨h0, h1, h2, h3⟩ := h.1 hn
    have hcb := h1 tm hm
    have hfin : w.state.finalStep = 10 := by
      simp [State.finalStep, State.needsDestination, hn]
    cases hc : tm.cb with
    | goToNextStep => exact absurd hc hcb.1
    | showRecap => exact absurd hc hcb.2
    | afterTyping =>
      simp only [runCallback]
      refine h.preserved ?_ ?_ (fun _ x hx => ?_) ?_ ?_
      · simp only [afterTyping_state]
      · simp only [afterTyping_state]
      · rcases afterTyping_timers _ x hx with hx | ⟨-, hf⟩
        · exact h1 x (hsub x hx)
        · have hf1 : w.state.currentStep = w.state.finalStep := hf
          omega
      · simp only [afterTyping_gpsRequests]
      · simp only [afterTyping_routeRequests]
    | flatAfterTyping =>
      refine h.preserved ?_ ?_ (fun _ x hx => ?_) ?_ ?_
      · simp only [runCallback, endTyping, renderCurrentStep_state]
      · simp only [runCallback, endTyping, renderCurrentStep_state]
      · simp only [runCallback, endTyping, renderCurrentStep_timers] at hx
        exact h1 x (hsub x hx)
      · simp only [runCallback, endTyping, renderCurrentStep_gpsRequests]
      · simp only [runCallback, endTyping, renderCurrentStep_routeRequests]
    | initialAfterTyping =>
      refine h.preserved ?_ ?_ (fun _ x hx => ?_) ?_ ?_
      · simp only [runCallback, endTyping, renderCurrentStep_state]
      · simp only [runCallback, endTyping, renderCurrentStep_state]
      · simp only [runCallback, endTyping, renderCurrentStep_timers] at hx
        exact h1 x (hsub x hx)
      · simp only [runCallback, endTyping, renderCurrentStep_gpsRequests]
      · simp only [runCallback, endTyping, renderCurrentStep_routeRequests]
    | initAddressPlaces =>
      simp only [runCallback, initAddressPlaces]
      split
      · exact h.preserved rfl rfl (fun _ x hx => h1 x (hsub x hx)) rfl rfl
      · exact h.preserved rfl rfl (fun _ x hx => h1 x (hsub x hx)) rfl rfl
  · cases tm.cb with
    | goToNextStep =>
      exact h.keep hn (by simp only [runCallback, goToNextStep_state])
    | afterTyping =>
      exact h.keep hn (by simp only [runCallback, afterTyping_state])
    | showRecap =>
      exact h.keep hn (by simp only [runCallback, showRecap, renderCurrentStep_state])
    | flatAfterTyping =>
      exact h.keep hn (by simp only [runCallback, endTyping, renderCurrentStep_state])
    | initialAfterTyping =>
      exact h.keep hn (by simp only [runCallback, endTyping, renderCurrentStep_state])
    | initAddressPlaces =>
      simp only [runCallback, initAddressPlaces]
      split
      · exact h.keep hn rfl
      · exact h.keep hn rfl

/-- Once the step is past 0, no move other than opening the wizard again
changes the problem. -/
theorem problem_unchanged (w w1 : World) (a : Act) (hc : Coherent w)
    (hk : 0 < w.state.currentStep) (hne : a ≠ .ev .showModal) (hs : step w a = some w1) :
    w1.state.problem = w.state.problem := by
  cases a with
  | wait ms =>
    simp only [step] at hs
    split at hs
    · simp only [Option.some.injEq] at hs
      subst hs
      rfl
    · exact Option.noConfusion hs
  | fire =>
    obtain ⟨tm, -, rfl⟩ := fire_eq w w1 hs
    exact runCallback_problem { w with now := tm.due, timers := w.timers.erase tm } tm.cb
  | ev e =>
    simp only [step] at hs
    split at hs
    · rename_i he
      simp only [Option.some.injEq] at hs
      subst hs
      have hg := guard_of_enabled w hc e he
      have hne1 : e ≠ .showModal := fun h => hne (by rw [h])
      have hnp : ∀ id, e ≠ .clickProblem id := fun id h => by
        subst h
        have h0 : w.state.currentStep = 0 := hg
        omega
      unfold dispatch
      split
      · exact handleTimes_problem e hne1 hnp _ w
      · exact handle_problem w e hne1 hnp
    · exact Option.noConfusion hs

theorem problemChosen_handle (w : World) (_hc : Coherent w) (e : Event)
    (hg : Guard w e) (hne : e ≠ .showModal) (h : ProblemChosen w) :
    ProblemChosen (handle w e) := by
  have hstep : w.state.currentStep ≠ 0 → w.state.problem ≠ none :=
    fun hk hn => hk (h.1 hn).1
  have keep : w.state.problem ≠ none → (∀ id, e ≠ .clickProblem id) →
      ProblemChosen (handle w e) :=
    fun hn hnp => h.keep hn (handle_problem w e hne hnp)
  cases e with
  | showModal => exact absurd rfl hne
  | hideModal =>
    simp only [handle, hideModal]
    split
    · exact h.preserved rfl rfl (fun ht => ht) rfl rfl
    · exact h
  | clickProblem id =>
    obtain ⟨p, hp, hf⟩ := find_problem_mem id
    refine ⟨fun hn => ?_, fun q hq => ?_⟩
    · simp [handle, onProblemClick, hf] at hn
    · simp only [handle, onProblemClick, setTimeout_state, hf, Option.some.injEq] at hq
      exact hq ▸ hp
  | clickVehicle id => exact keep hg.1 (fun _ h => Event.noConfusion h)
  | submitBrand value =>
    have := hg.2
    exact keep (hstep (by omega)) (fun _ h => Event.noConfusion h)
  | submitModel value =>
    have := hg.2
    exact keep (hstep (by omega)) (fun _ h => Event.noConfusion h)
  | submitYear value =>
    have := hg.2
    exact keep (hstep (by omega)) (fun _ h => Event.noConfusion h)
  | clickSmallOption id =>
    have h1 : w.state.currentStep ≠ 0 := by
      rcases hg with k | k | k <;> omega
    exact keep (hstep h1) (fun _ h => Event.noConfusion h)
  | clickGps =>
    have h8 : w.state.currentStep = 8 := hg
    exact keep (hstep (by omega)) (fun _ h => Event.noConfusion h)
  | gpsSuccess lat lng =>
    have he : 0 < w.gpsRequests := hg
    exact keep (fun hn => by have := (h.1 hn).2.2.1; omega) (fun _ h => Event.noConfusion h)
  | gpsError code =>
    have he : 0 < w.gpsRequests := hg
    exact keep (fun hn => by have := (h.1 hn).2.2.1; omega) (fun _ h => Event.noConfusion h)
  | clickAddressBtn =>
    have h8 : w.state.currentStep = 8 := hg
    exact keep (hstep (by omega)) (fun _ h => Event.noConfusion h)
  | clickAddressBack =>
    have h8 : w.state.currentStep = 8 := hg
    exact keep (hstep (by omega)) (fun _ h => Event.noConfusion h)
  | selectAddress address =>
    have h8 : w.state.currentStep = 8 := hg
    exact keep (hstep (by omega)) (fun _ h => Event.noConfusion h)
  | clickDestinationAddressBtn =>
    have := hg.1
    exact keep (hstep (by omega)) (fun _ h => Event.noConfusion h)
  | clickDestinationBack =>
    have := hg.1
    exact keep (hstep (by omega)) (fun _ h => Event.noConfusion h)
  | selectDestination address =>
    have := hg.1
    exact keep (hstep (by omega)) (fun _ h => Event.noConfusion h)
  | routeResult result =>
    have he : 0 < w.routeRequests := hg
    exact keep (fun hn => by have := (h.1 hn).2.2.2; omega) (fun _ h => Event.noConfusion h)
  | clickUnknown =>
    have := hg.1
    exact keep (hstep (by omega)) (fun _ h => Event.noConfusion h)
  | changeLanguage lang =>
    simp only [handle, onLanguageOptionClick]
    split
    · split
      · exact h.preserved rfl rfl (fun ht => ht) rfl rfl
      · refine h.preserved ?_ ?_ (fun ht tm hm => ht tm ?_) ?_ ?_
        · simp only [renderCurrentStep_state]
        · simp only [renderCurrentStep_state]
        · simpa only [renderCurrentStep_timers] using hm
        · simp only [renderCurrentStep_gpsRequests]
        · simp only [renderCurrentStep_routeRequests]
    · exact h

theorem problemChosen_step (w w1 : World) (a : Act) (hc : Coherent w)
    (h : ProblemChosen w) (hne : a ≠ .ev .showModal) (hs : step w a = some w1) :
    ProblemChosen w1 := by
  cases a with
  | wait ms =>
    simp only [step] at hs
    split at hs
    · simp only [Option.some.injEq] at hs
      subst hs
      exact h.preserved rfl rfl (fun ht => ht) rfl rfl
    · exact Option.noConfusion hs
  | fire =>
    obtain ⟨tm, hm, rfl⟩ := fire_eq w w1 hs
    exact problemChosen_runCallback w tm hm h
  | ev e =>
    simp only [step] at hs
    split at hs
    · simp only [Option.some.injEq] at hs
      subst hs
      exact (dispatch_keeps ProblemChosen w e hc (by assumption)
        (fun x hx hgx hp => problemChosen_handle x hx e hgx (fun h => hne (by rw [h])) hp)
        h).2
    · exact Option.noConfusion hs

theorem problemChosen_showModal (pre : World) (h : NothingPending pre) :
    ProblemChosen (showModal pre) := by
  refine ⟨fun _ => ⟨?_, ?_, ?_, ?_⟩, fun p hp => ?_⟩
  · simp [showModal]
  · intro tm hm
    simp only [showModal, setTimeout_timers, renderCurrentStep_timers] at hm
    exact pending_mem_append h.1 (by decide) tm hm
  · simpa [showModal, World.setTimeout] using h.2.1
  · simpa [showModal, World.setTimeout] using h.2.2
  · simp [showModal] at hp

theorem SessionReach.problemChosen {pre w : World} (h : NothingPending pre)
    (hr : SessionReach (showModal pre) w) : Coherent w ∧ ProblemChosen w := by
  induction hr with
  | start => exact ⟨coherent_showModal pre, problemChosen_showModal pre h⟩
  | move a _ hne hs ih =>
    exact ⟨coherent_step _ _ a ih.1 hs, problemChosen_step _ _ a ih.1 ih.2 hne hs⟩

/-! ## The wheel-position question -/

theorem wheelQuestion_chatHtml (s : State)
    (h : Item.bot (.t "step1b_bot_question") ∈ chatHtml s) :
    3 ≤ s.currentStep ∧ s.problemIs .flat = true := by
  unfold chatHtml at h
  rcases List.mem_append.1 h with h | h
  · have h := (mem_ite_nil h).2
    unfold createStep0 at h
    split_ifs at h <;> simp at h
  · by_cases hw : s.problemIs .wreck = true
    · rw [if_pos hw] at h
      simp only [List.mem_append] at h
      rcases h with (((h | h) | h) | h) | h
      · have h := (mem_ite_nil h).2
        unfold createWreckStep1 answerBubble at h
        (split_ifs at h <;> simp at h); aesop
      · have h := (mem_ite_nil h).2
        unfold createWreckStep2 answerBubble at h
        (split_ifs at h <;> simp at h); aesop
      · have h := (mem_ite_nil h).2
        unfold createWreckStep3 answerBubble at h
        (split_ifs at h <;> simp at h); aesop
      · have h := (mem_ite_nil h).2
        unfold createStep4 locationQuestion at h
        rw [if_pos hw] at h
        split_ifs at h <;> simp at h
      · have h := (mem_ite_nil h).2
        unfold createStep5 at h
        split_ifs at h <;> simp at h
    · rw [if_neg hw] at h
      simp only [List.mem_append] at h
      rcases h with (((((h | h) | h) | h) | h) | h) | h
      · have h := (mem_ite_nil h).2
        unfold createStep1 at h
        split at h
        · simp at h
        · rename_i p _
          split_ifs at h <;> simp at h
          all_goals (rcases p with ⟨id, nd⟩; cases id <;> simp [ProblemId.name] at h)
      · exact (mem_ite_nil h).1
      · have h := (mem_ite_nil h).2
        unfold createStep2 transmissionQuestion at h
        rcases List.mem_append.1 h with h | h <;> split at h <;>
          first
          | (simp at h; done)
          | (split_ifs at h <;> simp at h)
      · have h := (mem_ite_nil h).2
        unfold createStep3 at h
        split at h
        · simp at h
        · split_ifs at h <;> simp at h
      · have h := (mem_ite_nil h).2
        unfold createStep4 locationQuestion at h
        rw [if_neg hw] at h
        split at h
        · simp at h
        · split_ifs at h <;> simp at h
      · have h := (mem_ite_nil h).2
        unfold createStep4b at h
        split at h
        · simp at h
        · split_ifs at h <;> simp at h
      · have h := (mem_ite_nil h).2
        unfold createStep5 at h
        split_ifs at h <;> simp at h

/-- In every reachable world the wheel-position question and its two
options are only in the chat area when the problem is flat. -/
theorem wheel_question_only_flat (w : World) (hr : Reach w)
    (h : Item.bot (.t "step1b_bot_question") ∈ w.chatArea ∨
      Item.smallOptions [.front, .rear] ∈ w.chatArea) :
    w.state.problemIs .flat = true := by
  have hc := hr.coherent
  rcases h with h | h
  · cases hm : w.modalElement with
    | false =>
      rw [hc.1 hm] at h
      simp at h
    | true =>
      obtain ⟨snap, e1, -, e23⟩ := hc.2 hm
      rw [e1] at h
      obtain ⟨k1, k2⟩ := wheelQuestion_chatHtml snap h
      rcases e23 with ⟨-, e3⟩ | ⟨-, -, e3, -⟩
      · rw [← problemIs_congr (e3 (by omega))]
        exact k2
      · simp [State.problemIs, e3] at k2
  · rcases shown_affordance w hc _ h rfl with k | k | k | k | k | k | k | k | k | k | k
    · exact absurd k.1 (by simp)
    · exact absurd k.1 (by simp)
    · exact absurd k.1 (by simp)
    · exact absurd k.1 (by simp)
    · exact absurd k.1 (by simp)
    · exact k.2.2
    · exact absurd k.1 (by simp [TRANSMISSIONS])
    · exact absurd k.1 (by simp)
    · exact absurd k.1 (by simp)
    · exact absurd k.1 (by simp)
    · exact absurd k.1 (by simp)

theorem run_worldAfter (w0 : World) (acts : List Act) (h : (run w0 acts).isSome = true) :
    run w0 acts = some (worldAfter w0 acts) := by
  unfold worldAfter
  cases hr : run w0 acts with
  | none => simp [hr] at h
  | some w => rfl

/-! # The claims -/

/-- C1 (the code departs from the claim). On the flat-tyre branch the vehicle
answer sets `currentStep` to 1.5, and the wheel answer is followed by
`goToNextStep`, whose `currentStep++` gives 2.5 and not 2: for every vehicle
category and both wheel positions `currentStep` goes through 0, 1, 1.5, 2.5
(half steps 0, 2, 3, 5), and when the typing pause has ended the chat area
offers no transmission option and no callback is queued. -/
theorem flat_wheel_answer_reaches_2_5 (v : VehicleId) :
    ((stepsAlong (pageLoad .fr) (flatTyreSession v .front)).map squeeze = some [0, 2, 3, 5] ∧
      (run (pageLoad .fr) (flatTyreSession v .front)).map
        (fun w => (w.state.currentStep, hasSmallOption w.chatArea .manual,
          hasSmallOption w.chatArea .automatic, w.timers)) = some (5, false, false, [])) ∧
    ((stepsAlong (pageLoad .fr) (flatTyreSession v .rear)).map squeeze = some [0, 2, 3, 5] ∧
      (run (pageLoad .fr) (flatTyreSession v .rear)).map
        (fun w => (w.state.currentStep, hasSmallOption w.chatArea .manual,
          hasSmallOption w.chatArea .automatic, w.timers)) = some (5, false, false, [])) := by
  cases v <;> decide

/-- C3 (counterexample). In a towing session the visitor picks the destination
address "Garage X" and the route request fails: the wizard stays at step 5
(half step 10) with the address stored, no callback queued and no request
open, so nothing will move it to step 6. -/
theorem towing_route_failure_stays_at_5 :
    (run (pageLoad .fr) towingRouteFailure).map
      (fun w => (w.state.currentStep, w.state.destination.address, w.timers,
        w.routeRequests, w.gpsRequests)) = some (10, "Garage X", [], 0, 0) := by
  decide

/-- C6 (the code departs from the claim). A reachable world has
`currentStep` 2.5 (half step 5) with final step 5: the value is not an
integer, not 1.5 and not the final step plus 0.5. -/
theorem half_step_2_5_reachable :
    Reach (worldAfter (pageLoad .en) (flatTyreSession .citadine .rear)) ∧
    (worldAfter (pageLoad .en) (flatTyreSession .citadine .rear)).state.currentStep = 5 ∧
    (worldAfter (pageLoad .en) (flatTyreSession .citadine .rear)).state.finalStep = 10 ∧
    5 % 2 ≠ 0 ∧ 5 ≠ 3 ∧ 5 ≠ 10 + 1 :=
  ⟨(Reach.load .en).afterRun _ (run_worldAfter _ _ (by decide)), by decide, by decide,
    by decide, by decide, by decide⟩

/-- C7 (the code departs from the claim). `showModal` never touches
`wheelPosition`, `vehicleBrand`, `vehicleModel` and `vehicleYear`: after a
wreck session "Fiat" "Panda" "2009" the reopened wizard is at step 0 with
all three still set, and after a flat-tyre session with wheel position rear
the reopened wizard still has that wheel position. -/
theorem showModal_keeps_wheel_and_wreck_answers :
    (∀ w : World, (showModal w).state.wheelPosition = w.state.wheelPosition ∧
      (showModal w).state.vehicleBrand = w.state.vehicleBrand ∧
      (showModal w).state.vehicleModel = w.state.vehicleModel ∧
      (showModal w).state.vehicleYear = w.state.vehicleYear) ∧
    (run (pageLoad .fr) wreckThenReopen).map
      (fun w => (w.state.currentStep, w.state.problem, w.state.vehicleBrand,
        w.state.vehicleModel, w.state.vehicleYear))
      = some (0, none, some "Fiat", some "Panda", some "2009") ∧
    (run (pageLoad .fr) flatThenReopen).map
      (fun w => (w.state.currentStep, w.state.problem, w.state.wheelPosition))
      = some (0, none, some .rear) := by
  refine ⟨fun w => ?_, by decide, by decide⟩
  simp [showModal]

/-- C9 (the code departs from the claim). After a wreck session "Fiat" "Panda"
"2009" the wizard is opened again and "battery" is chosen: at the vehicle
question the problem is battery while brand, model and year are still
set. -/
theorem wreck_answers_survive_into_battery_session :
    (run (pageLoad .fr) wreckThenBattery).map
      (fun w => (w.state.currentStep, w.state.problem, w.state.vehicleBrand,
        w.state.vehicleModel, w.state.vehicleYear))
      = some (2, some ⟨.battery, false⟩, some "Fiat", some "Panda", some "2009") := by
  decide

/-- C5 (counterexample). A battery session reaches its final step with a
position request still open; while the recap is pending the visitor closes
and reopens the wizard and only then allows the position. In the new
session, in which no problem has been chosen, the `goToNextStep` queued by
the position and the recap of the first session run, and `currentStep`
becomes 1.5 (half step 3) although the problem is not flat. -/
theorem half_step_without_flat :
    (run (pageLoad .fr) staleRecapAndPosition).map
      (fun w => (w.state.currentStep, w.state.problem, w.state.problemIs .flat))
      = some (3, none, false) := by
  decide

/-- C5, as amended. A flat-tyre session reaches step 1.5 (half step 3) when a
vehicle category is submitted, for every language and category; in every
world of a session opened while no recap callback of an earlier session was
pending, `currentStep` is 1.5 only if the problem is flat; and in every
reachable world the wheel-position question and its two options are in the
chat area only if the problem is flat. -/
theorem flat_substep_only_on_flat :
    (∀ (lang : Lang) (v : VehicleId),
      (run (showModal (pageLoad lang)) (flatUpToVehicle v)).map
        (fun w => (w.state.problemIs .flat, w.state.currentStep)) = some (true, 3)) ∧
    (∀ pre w : World, NoRecapPending pre → SessionReach (showModal pre) w →
      w.state.currentStep = 3 → w.state.problemIs .flat = true) ∧
    (∀ w : World, Reach w →
      Item.bot (.t "step1b_bot_question") ∈ w.chatArea ∨
        Item.smallOptions [.front, .rear] ∈ w.chatArea →
      w.state.problemIs .flat = true) := by
  refine ⟨fun lang v => ?_, fun pre w h hr => (hr.recapAtFinal h).2.2.2,
    wheel_question_only_flat⟩
  cases lang <;> cases v <;> decide

/-- C5, as amended, at the first session of a page: the vehicle answer
"berline" of a flat-tyre session. -/
theorem flat_substep_only_on_flat_witness :
    NoRecapPending (pageLoad .fr) ∧
    SessionReach (showModal (pageLoad .fr))
      (worldAfter (showModal (pageLoad .fr)) (flatUpToVehicle .berline)) ∧
    (worldAfter (showModal (pageLoad .fr)) (flatUpToVehicle .berline)).state.currentStep = 3 ∧
    (worldAfter (showModal (pageLoad .fr)) (flatUpToVehicle .berline)).state.problemIs .flat
      = true :=
  ⟨by decide,
   SessionReach.start.extend _ (by decide) (run_worldAfter _ _ (by decide)),
   by decide,
   flat_substep_only_on_flat.2.1 (pageLoad .fr) _ (by decide)
     (SessionReach.start.extend _ (by decide) (run_worldAfter _ _ (by decide))) (by decide)⟩

/-- C8 (counterexample). At the vehicle question of a flat-tyre session the
problem is flat and the wheel position is not set. -/
theorem flat_before_wheel_answer :
    (run (pageLoad .fr) flatAtVehicleQuestion).map
      (fun w => (w.state.currentStep, w.state.problemIs .flat, w.state.wheelPosition))
      = some (2, true, none) := by
  decide

/-- C10 (counterexample). A battery session reaches its final step; while the
recap is pending the visitor closes and reopens the wizard; the recap
callback of the first session then runs in the new session and
`currentStep` becomes 0.5 (half step 1) while no problem is set. -/
theorem step_past_0_without_problem :
    (run (pageLoad .fr) staleRecap).map (fun w => (w.state.currentStep, w.state.problem))
      = some (1, none) := by
  decide

/-- C10, as amended. In every world of a session opened while nothing of an
earlier session was pending (no queued `goToNextStep`, no recap callback, no
open position or route request), once `currentStep` is past 0 the problem is
set to an entry of `PROBLEMS`, and no move other than opening the wizard
again changes it. -/
theorem problem_set_and_kept (pre w : World) (h : NothingPending pre)
    (hr : SessionReach (showModal pre) w) (hk : 0 < w.state.currentStep) :
    (∃ p ∈ PROBLEMS, w.state.problem = some p) ∧
    ∀ (a : Act) (w1 : World), a ≠ .ev .showModal → step w a = some w1 →
      w1.state.problem = w.state.problem := by
  obtain ⟨hc, hp⟩ := hr.problemChosen h
  refine ⟨?_, fun a w1 hne hs => problem_unchanged w w1 a hc hk hne hs⟩
  cases hq : w.state.problem with
  | none =>
    have := (hp.1 hq).1
    omega
  | some p => exact ⟨p, hp.2 p hq, rfl⟩

/-- C10, as amended, at the first session of a page, at the vehicle question of
a battery session. -/
theorem problem_set_and_kept_witness :
    NothingPending (pageLoad .fr) ∧
    SessionReach (showModal (pageLoad .fr))
      (worldAfter (showModal (pageLoad .fr)) batteryUpToVehicleQuestion) ∧
    0 < (worldAfter (showModal (pageLoad .fr)) batteryUpToVehicleQuestion).state.currentStep ∧
    (worldAfter (showModal (pageLoad .fr)) batteryUpToVehicleQuestion).state.problem
      = some ⟨.battery, false⟩ ∧
    ∃ p ∈ PROBLEMS,
      (worldAfter (showModal (pageLoad .fr)) batteryUpToVehicleQuestion).state.problem = some p :=
  ⟨by decide,
   SessionReach.start.extend _ (by decide) (run_worldAfter _ _ (by decide)),
   by decide,
   by decide,
   (problem_set_and_kept (pageLoad .fr)
     (worldAfter (showModal (pageLoad .fr)) batteryUpToVehicleQuestion) (by decide)
     (SessionReach.start.extend _ (by decide) (run_worldAfter _ _ (by decide)))
     (by decide)).1⟩

/-- C3, as amended, at a concrete towing session: position (48.85, 2.35),
destination "Garage X" with route metrics "12 km" and "18 min". -/
theorem towing_branch_steps_witness :
    (OptionId.manual = .manual ∨ OptionId.manual = .automatic) ∧
    (OptionId.no = .yes ∨ OptionId.no = .no) ∧
    (LocationAnswer.gps "48.85" "2.35" 900).wellFormed ∧
    (DestinationAnswer.address "Garage X" "12 km" "18 min" 4000 700).wellFormed ∧
    (stepsAlong (pageLoad .fr)
      (towingSession .berline .manual .no (.gps "48.85" "2.35" 900)
        (.address "Garage X" "12 km" "18 min" 4000 700) 2000 1500 1000 800 500)).map squeeze
      = some [0, 2, 4, 6, 8, 10, 12, 13] :=
  ⟨Or.inl rfl, Or.inr rfl, by decide, by decide,
   (towing_branch_steps .fr .berline .manual .no (.gps "48.85" "2.35" 900)
     (.address "Garage X" "12 km" "18 min" 4000 700) 2000 1500 1000 800 500
     (Or.inl rfl) (Or.inr rfl) (by decide) (by decide)).2⟩

/-- C4 at a concrete wreck session: "Fiat", "Panda", "2009", then the browser
position. -/
theorem wreck_branch_witness :
    "Fiat" ≠ "" ∧ "Panda" ≠ "" ∧ "2009" ≠ "" ∧
    (LocationAnswer.gps "50.85" "4.35" 900).wellFormed ∧
    (stepsAlong (pageLoad .fr)
      (wreckSession "Fiat" "Panda" "2009" (.gps "50.85" "4.35" 900)
        2000 3000 3000 3000 500)).map squeeze
      = some [0, 2, 4, 6, 8, 10, 11] :=
  ⟨by decide, by decide, by decide, by decide,
   (wreck_branch .fr "Fiat" "Panda" "2009" (.gps "50.85" "4.35" 900) 2000 3000 3000 3000 500
     (by decide) (by decide) (by decide) (by decide)).1⟩

/-! ## The step never goes back -/

theorem currentStep_le_runCallback (w : World) (cb : Callback) :
    w.state.currentStep ≤ (runCallback w cb).state.currentStep := by
  cases cb with
  | goToNextStep =>
    simp only [runCallback, goToNextStep_state]
    omega
  | afterTyping =>
    simp only [runCallback, afterTyping_state]
    exact le_refl _
  | showRecap =>
    simp only [runCallback, showRecap, renderCurrentStep_state]
    omega
  | flatAfterTyping =>
    simp only [runCallback, endTyping, renderCurrentStep_state]
    exact le_refl _
  | initialAfterTyping =>
    simp only [runCallback, endTyping, renderCurrentStep_state]
    exact le_refl _
  | initAddressPlaces =>
    simp only [runCallback, initAddressPlaces]
    split <;> exact le_refl _

theorem currentStep_le_handle (w : World) (e : Event) (hg : Guard w e) (hne : e ≠ .showModal) :
    w.state.currentStep ≤ (handle w e).state.currentStep := by
  by_cases hv : ∃ id, e = .clickVehicle id
  · obtain ⟨id, rfl⟩ := hv
    have hk : w.state.currentStep ≤ 3 := by
      rcases hg.2.2 with k | k <;> omega
    simp only [handle, onVehicleClick]
    split
    · split
      · exact hk
      · simp only [setTimeout_state, renderCurrentStep_state]
        exact hk
    · exact le_refl _
  · rw [handle_currentStep w e hne (fun id h => hv ⟨id, h⟩)]

theorem currentStep_le_step (w w1 : World) (a : Act) (hc : Coherent w)
    (hne : a ≠ .ev .showModal) (hs : step w a = some w1) :
    w.state.currentStep ≤ w1.state.currentStep := by
  cases a with
  | wait ms =>
    simp only [step] at hs
    split at hs
    · simp only [Option.some.injEq] at hs
      subst hs
      exact le_refl _
    · exact Option.noConfusion hs
  | fire =>
    obtain ⟨tm, -, rfl⟩ := fire_eq w w1 hs
    exact currentStep_le_runCallback { w with now := tm.due, timers := w.timers.erase tm } tm.cb
  | ev e =>
    simp only [step] at hs
    split at hs
    · simp only [Option.some.injEq] at hs
      subst hs
      exact (dispatch_keeps (fun x => w.state.currentStep ≤ x.state.currentStep) w e hc
        (by assumption)
        (fun x _ hgx hp =>
          le_trans hp (currentStep_le_handle x e hgx (fun h => hne (by rw [h]))))
        (le_refl _)).2
    · exact Option.noConfusion hs

theorem stepsAlong_head (w : World) (acts : List Act) (ks : List Nat)
    (h : stepsAlong w acts = some ks) : ks.head? = some w.state.currentStep := by
  cases acts with
  | nil =>
    simp only [stepsAlong, Option.some.injEq] at h
    subst h
    rfl
  | cons a rest =>
    simp only [stepsAlong] at h
    cases hs : step w a with
    | none => simp [hs] at h
    | some w1 =>
      simp only [hs] at h
      cases hr : stepsAlong w1 rest with
      | none => simp [hr] at h
      | some l =>
        simp only [hr, Option.map_some', Option.some.injEq] at h
        subst h
        rfl

/-- C11. From any reachable world, along any run that does not open the wizard
again (so within one session: visitor actions, answers of the browser and of
the Maps service, timer callbacks and waiting), the successive values of
`currentStep` never decrease: each is less than or equal to the next. -/
theorem currentStep_never_decreases (w : World) (acts : List Act) (ks : List Nat)
    (hr : Reach w) (hn : ∀ a ∈ acts, a ≠ .ev .showModal)
    (hs : stepsAlong w acts = some ks) : List.Chain' (· ≤ ·) ks := by
  induction acts generalizing w ks with
  | nil =>
    simp only [stepsAlong, Option.some.injEq] at hs
    subst hs
    exact List.chain'_singleton _
  | cons a rest ih =>
    simp only [stepsAlong] at hs
    cases hst : step w a with
    | none => simp [hst] at hs
    | some w1 =>
      simp only [hst] at hs
      cases hrest : stepsAlong w1 rest with
      | none => simp [hrest] at hs
      | some l =>
        simp only [hrest, Option.map_some', Option.some.injEq] at hs
        subst hs
        have hl := ih w1 l (Reach.move a hr hst)
          (fun b hb => hn b (List.mem_cons_of_mem _ hb)) hrest
        have hh := stepsAlong_head w1 rest l hrest
        have hle := currentStep_le_step w w1 a hr.coherent
          (hn a (List.mem_cons_self _ _)) hst
        cases l with
        | nil => exact List.chain'_singleton _
        | cons k l1 =>
          simp only [List.head?_cons, Option.some.injEq] at hh
          subst hh
          exact List.Chain'.cons hle hl

/-- C11 at the first session of a page: a flat-tyre session after the wizard
has been opened, whose steps are 0, 1, 1.5 (half steps 0, 2, 3). -/
theorem currentStep_never_decreases_witness :
    Reach (showModal (pageLoad .fr)) ∧
    (∀ a ∈ flatUpToWheel, a ≠ Act.ev Event.showModal) ∧
    stepsAlong (showModal (pageLoad .fr)) flatUpToWheel
      = some [0, 0, 0, 0, 2, 2, 2, 3, 3, 3, 3] ∧
    List.Chain' (· ≤ ·) [0, 0, 0, 0, 2, 2, 2, 3, 3, 3, 3] :=
  ⟨Reach.move (.ev .showModal) (Reach.load .fr) rfl, by decide, by decide,
   currentStep_never_decreases (showModal (pageLoad .fr)) flatUpToWheel _
     (Reach.move (.ev .showModal) (Reach.load .fr) rfl) (by decide) (by decide)⟩

/-! ## Listeners of the chat area -/

theorem Attached.sameChat {w w1 : World} (h : Attached w) (hc : w1.chatArea = w.chatArea)
    (hl : w.listeners ≤ w1.listeners) : Attached w1 :=
  fun hne => le_trans (h (hc ▸ hne)) hl

theorem attached_render (w : World) (h : Attached w) (s1 : State) :
    Attached (renderCurrentStep { w with state := s1 }) := by
  unfold renderCurrentStep
  split
  · intro _
    exact le_refl _
  · exact h.sameChat rfl (le_refl _)

theorem Attached.afterSetTimeout {w : World} (h : Attached w) (cb : Callback) (d : Nat) :
    Attached (w.setTimeout cb d) :=
  h.sameChat rfl (le_refl _)

theorem attached_runCallback (w : World) (h : Attached w) (cb : Callback) :
    Attached (runCallback w cb) := by
  cases cb with
  | goToNextStep =>
    simp only [runCallback, goToNextStep]
    split
    · exact h.sameChat rfl (le_refl _)
    · exact (attached_render w h _).afterSetTimeout _ _
  | afterTyping =>
    simp only [runCallback, afterTyping]
    split
    · exact h.sameChat rfl (le_refl _)
    · split
      · exact (attached_render w h _).afterSetTimeout _ _
      · exact attached_render w h _
  | showRecap => exact attached_render w h _
  | flatAfterTyping => exact attached_render w h _
  | initialAfterTyping => exact attached_render w h _
  | initAddressPlaces =>
    simp only [runCallback, initAddressPlaces]
    split
    · exact h.sameChat rfl (le_refl _)
    · exact h

theorem attached_handle (w : World) (h : Attached w) (e : Event) : Attached (handle w e) := by
  cases e with
  | showModal =>
    intro _
    simp [handle, showModal, renderCurrentStep, renderThrows_step0, World.setTimeout]
  | hideModal =>
    simp only [handle, hideModal]
    split
    · exact h.sameChat rfl (le_refl _)
    · exact h
  | clickProblem id => exact h.sameChat rfl (le_refl _)
  | clickVehicle id =>
    simp only [handle, onVehicleClick]
    split
    · split
      · exact h.sameChat rfl (le_refl _)
      · exact (attached_render w h _).afterSetTimeout _ _
    · exact h.sameChat rfl (le_refl _)
  | submitBrand value =>
    simp only [handle, handleBrandSubmit]
    split
    · exact h.sameChat rfl (le_refl _)
    · exact h
  | submitModel value =>
    simp only [handle, handleModelSubmit]
    split
    · exact h.sameChat rfl (le_refl _)
    · exact h
  | submitYear value =>
    simp only [handle, handleYearSubmit]
    split
    · exact h.sameChat rfl (le_refl _)
    · exact h
  | clickSmallOption id =>
    simp only [handle, onSmallOptionClick]
    split
    · exact h.sameChat rfl (le_refl _)
    · split
      · exact h.sameChat rfl (le_refl _)
      · split
        · exact h.sameChat rfl (le_refl _)
        · exact h
  | clickGps =>
    simp only [handle, handleGPSLocation]
    split
    · exact h.sameChat rfl (le_refl _)
    · exact h
  | gpsSuccess lat lng => exact h.sameChat rfl (le_refl _)
  | gpsError code =>
    exact attached_render { w with gpsRequests := w.gpsRequests - 1, gpsDisabled := false }
      (h.sameChat rfl (le_refl _)) _
  | clickAddressBtn =>
    simp only [handle, onAddressBtnClick]
    split
    · exact h.sameChat rfl (le_refl _)
    · exact (attached_render w h _).afterSetTimeout _ _
  | clickAddressBack => exact attached_render w h _
  | selectAddress address => exact h.sameChat rfl (le_refl _)
  | clickDestinationAddressBtn => exact attached_render w h _
  | clickDestinationBack => exact attached_render w h _
  | selectDestination address =>
    simp only [handle, handleDestinationSelect, calculateDistance]
    split
    · exact h.sameChat rfl (le_refl _)
    · exact h.sameChat rfl (le_refl _)
  | routeResult result =>
    cases result with
    | none => exact h.sameChat rfl (le_refl _)
    | some r => exact h.sameChat rfl (le_refl _)
  | clickUnknown => exact h.sameChat rfl (le_refl _)
  | changeLanguage lang =>
    simp only [handle, onLanguageOptionClick]
    split
    · split
      · exact h.sameChat rfl (le_refl _)
      · exact (attached_render w h { w.state with currentLanguage := lang }).sameChat rfl
          (Nat.le_succ _)
    · exact h

theorem attached_handleTimes (e : Event) :
    ∀ (n : Nat) (w : World), Attached w → Attached (handleTimes e n w)
  | 0, _, h => h
  | n + 1, w, h => attached_handleTimes e n (handle w e) (attached_handle w h e)

theorem attached_step (w w1 : World) (a : Act) (h : Attached w) (hs : step w a = some w1) :
    Attached w1 := by
  cases a with
  | wait ms =>
    simp only [step] at hs
    split at hs
    · simp only [Option.some.injEq] at hs
      subst hs
      exact h.sameChat rfl (le_refl _)
    · exact Option.noConfusion hs
  | fire =>
    obtain ⟨tm, -, rfl⟩ := fire_eq w w1 hs
    exact attached_runCallback { w with now := tm.due, timers := w.timers.erase tm }
      (h.sameChat rfl (le_refl _)) _
  | ev e =>
    simp only [step] at hs
    split at hs
    · simp only [Option.some.injEq] at hs
      subst hs
      unfold dispatch
      split
      · exact attached_handleTimes e _ w h
      · exact attached_handle w h e
    · exact Option.noConfusion hs

theorem Reach.attached {w : World} (h : Reach w) : Attached w := by
  induction h with
  | load lang => exact fun hne => absurd rfl hne
  | move a _ hs ih => exact attached_step _ _ a ih hs

/-- A handler whose effect on the state is a fixed idempotent change has that
effect however many listeners run. -/
theorem handleTimes_state (e : Event) (f : State → State)
    (hf : ∀ w, (handle w e).state = f w.state) (hi : ∀ s, f (f s) = f s) :
    ∀ (n : Nat) (w : World), (handleTimes e (n + 1) w).state = f w.state
  | 0, w => hf w
  | n + 1, w => by
    have h := handleTimes_state e f hf hi n (handle w e)
    rw [hf, hi] at h
    exact h

/-- C12. In every reachable world where the "enter address" button can be
clicked, `currentStep` is 4 (half step 8) and the click changes the state in
`showAddressInput` only, which becomes true; where the "back" link can be
clicked, `currentStep` is 4 and the click changes the state in
`showAddressInput` only, which becomes false. So `currentStep` and every
answer field are unchanged by the two actions. -/
theorem address_and_back_only_toggle_flag (w : World) (hr : Reach w) :
    (enabled w .clickAddressBtn = true →
      w.state.currentStep = 8 ∧
      (dispatch w .clickAddressBtn).state = { w.state with showAddressInput := true }) ∧
    (enabled w .clickAddressBack = true →
      w.state.currentStep = 8 ∧
      (dispatch w .clickAddressBack).state = { w.state with showAddressInput := false }) := by
  have hc := hr.coherent
  have ha := hr.attached
  constructor
  · intro he
    have hg : w.state.currentStep = 8 := guard_of_enabled w hc _ he
    refine ⟨hg, ?_⟩
    simp only [enabled, Bool.and_eq_true, decide_eq_true_eq] at he
    have hl := ha (List.ne_nil_of_mem he.2)
    obtain ⟨n, hn⟩ : ∃ n, w.listeners = n + 1 := ⟨w.listeners - 1, by omega⟩
    show (if Event.onChatArea .clickAddressBtn then handleTimes .clickAddressBtn w.listeners w
      else handle w .clickAddressBtn).state = _
    rw [hn]
    exact handleTimes_state .clickAddressBtn (fun s => { s with showAddressInput := true })
      (fun x => onAddressBtnClick_state x) (fun _ => rfl) n w
  · intro he
    have hg : w.state.currentStep = 8 := guard_of_enabled w hc _ he
    refine ⟨hg, ?_⟩
    simp only [enabled, Bool.and_eq_true, decide_eq_true_eq] at he
    have hl := ha (List.ne_nil_of_mem he.2)
    obtain ⟨n, hn⟩ : ∃ n, w.listeners = n + 1 := ⟨w.listeners - 1, by omega⟩
    show (if Event.onChatArea .clickAddressBack then handleTimes .clickAddressBack w.listeners w
      else handle w .clickAddressBack).state = _
    rw [hn]
    exact handleTimes_state .clickAddressBack (fun s => { s with showAddressInput := false })
      (fun x => by simp only [handle, onAddressBackClick, renderCurrentStep_state])
      (fun _ => rfl) n w

/-- C12 at the location question of a battery session: the "enter address"
button, and then the "back" link. -/
theorem address_and_back_only_toggle_flag_witness :
    (Reach (worldAfter (pageLoad .fr) batteryUpToLocation) ∧
      enabled (worldAfter (pageLoad .fr) batteryUpToLocation) .clickAddressBtn = true ∧
      (dispatch (worldAfter (pageLoad .fr) batteryUpToLocation) .clickAddressBtn).state =
        { (worldAfter (pageLoad .fr) batteryUpToLocation).state with
          showAddressInput := true }) ∧
    (Reach (worldAfter (pageLoad .fr) batteryAtAddressInput) ∧
      enabled (worldAfter (pageLoad .fr) batteryAtAddressInput) .clickAddressBack = true ∧
      (dispatch (worldAfter (pageLoad .fr) batteryAtAddressInput) .clickAddressBack).state =
        { (worldAfter (pageLoad .fr) batteryAtAddressInput).state with
          showAddressInput := false }) :=
  ⟨⟨(Reach.load .fr).afterRun _ (run_worldAfter _ _ (by decide)), by decide,
    ((address_and_back_only_toggle_flag _
      ((Reach.load .fr).afterRun _ (run_worldAfter _ _ (by decide)))).1 (by decide)).2⟩,
   ⟨(Reach.load .fr).afterRun _ (run_worldAfter _ _ (by decide)), by decide,
    ((address_and_back_only_toggle_flag _
      ((Reach.load .fr).afterRun _ (run_worldAfter _ _ (by decide)))).2 (by decide)).2⟩⟩

/-! ## The same answer given twice -/

theorem advance_twice (w : World) (t1 t2 : Nat) (hm : w.modalElement = true)
    (ht : w.timers = [⟨t1, .goToNextStep⟩, ⟨t2, .goToNextStep⟩])
    (h12 : ¬ t2 < t1) (h21 : ¬ t1 + typingDelayAfterUser < t2)
    (q : Problem) (hq : w.state.problem = some q)
    (hnf : w.state.currentStep + 4 ≠ w.state.finalStep) :
    stepsAlong w [.fire, .fire, .fire, .fire] = some
      [w.state.currentStep, w.state.currentStep + 2, w.state.currentStep + 4,
       w.state.currentStep + 4, w.state.currentStep + 4] := by
  simp only [State.finalStep, State.needsDestination] at hnf
  have hrf : ∀ s1 : State, s1.problem = w.state.problem → renderThrows s1 = false :=
    fun s1 h => renderThrows_of_some s1 q (h.trans hq)
  have h3 : ¬ t2 + typingDelayAfterUser < t1 + typingDelayAfterUser := by omega
  simp [stepsAlong, step, fire, ht, nextTimer, runCallback, goToNextStep, afterTyping,
    renderCurrentStep, renderFails, hrf, hm, World.setTimeout, hnf, State.finalStep,
    State.needsDestination, h12, h21, h3]

theorem problem_clicked_twice (lang : Lang) (p : ProblemId) (d gap now : Nat) (ds : Bool)
    (hgap : gap ≤ transitionDelay) :
    ∃ W : World,
      run (settled (initialState lang) now ds)
        [.wait d, .ev (.clickProblem p), .wait gap, .ev (.clickProblem p)] = some W ∧
      stepsAlong (settled (initialState lang) now ds)
        [.wait d, .ev (.clickProblem p), .wait gap, .ev (.clickProblem p)]
        = some [0, 0, 0, 0, 0] ∧
      W.modalElement = true ∧
      W.timers = [⟨now + d + transitionDelay, .goToNextStep⟩,
                  ⟨now + d + gap + transitionDelay, .goToNextStep⟩] ∧
      W.state = { initialState lang with problem := some ⟨p, decide (p = .towing)⟩ } := by
  have ho := offers_problems (initialState lang) rfl rfl p
  have hk : (initialState lang).currentStep = 0 := rfl
  have hs : stepsAlong (settled (initialState lang) now ds)
      [.wait d, .ev (.clickProblem p), .wait gap, .ev (.clickProblem p)]
      = some [0, 0, 0, 0, 0] := by
    simp [stepsAlong, step, enabled, dispatch, Event.onChatArea, handleTimes, handle,
      onProblemClick, find_problem, settled, World.setTimeout, ho, hgap, hk]
  cases hrun : run (settled (initialState lang) now ds)
      [.wait d, .ev (.clickProblem p), .wait gap, .ev (.clickProblem p)] with
  | none =>
    simp [run, step, enabled, dispatch, Event.onChatArea, handleTimes, handle, onProblemClick,
      find_problem, settled, World.setTimeout, ho, hgap] at hrun
  | some W =>
    simp [run, step, enabled, dispatch, Event.onChatArea, handleTimes, handle, onProblemClick,
      find_problem, settled, World.setTimeout, ho, hgap] at hrun
    subst hrun
    exact ⟨_, rfl, hs, rfl, rfl, rfl⟩

/-- C13 (counterexample). The visitor clicks the problem "battery" at 3500 ms
and again 150 ms later, both while `currentStep` is 0 and before the first
queued `goToNextStep` (due at 3900 ms) has run. Both queued transitions are
applied: `currentStep` goes 0, 1, 2 (half steps 0, 2, 4), two steps and not
one. -/
theorem double_click_advances_two_steps :
    stepsAlong (pageLoad .fr) doubleClickProblem
      = some [0, 0, 0, 0, 0, 0, 0, 2, 4, 4, 4] ∧
    (run (pageLoad .fr) (openWizard ++
        [.wait 2000, .ev (.clickProblem .battery), .wait 150, .ev (.clickProblem .battery)])).map
      (fun w => (w.state.currentStep, w.now, w.timers))
      = some (0, 3650, [⟨3900, .goToNextStep⟩, ⟨4050, .goToNextStep⟩]) := by
  decide

/-- C13, as amended. `goToNextStep` has no check of the step: whenever it
runs it adds one step (two half steps) to `currentStep`. So if the visitor
clicks a problem twice within the transition delay, each click queues its own
`goToNextStep` and both are applied: `currentStep` advances by two steps, from
0 to 1 to 2 (half steps 0, 2, 4), whatever the language, the problem and the
timing of the two clicks; and a transmission clicked twice takes a battery
session from step 2 to 3 to 4 (half steps 4, 6, 8). -/
theorem double_submission_advances_twice (lang : Lang) (p : ProblemId) (d gap : Nat)
    (hgap : gap ≤ transitionDelay) :
    (∀ w : World, (goToNextStep w).state.currentStep = w.state.currentStep + 2) ∧
    stepsAlong (pageLoad lang) (openWizard ++ answerTwice d gap (.clickProblem p))
      = some [0, 0, 0, 0, 0, 0, 0, 2, 4, 4, 4] ∧
    (stepsAlong (pageLoad .fr) doubleClickTransmission).map squeeze
      = some [0, 2, 4, 6, 8] := by
  refine ⟨fun w => by simp only [goToNextStep_state], ?_, by decide⟩
  obtain ⟨ho1, ho2⟩ := opens lang
  obtain ⟨W, hr, hs, hm, ht, hst⟩ :=
    problem_clicked_twice lang p d gap typingDelayInitial false hgap
  have hf := advance_twice W _ _ hm ht (by omega)
    (by simp only [transitionDelay, typingDelayAfterUser] at hgap ⊢; omega)
    ⟨p, decide (p = .towing)⟩ (by rw [hst])
    (by
      rw [hst]
      simp only [State.finalStep, State.needsDestination, initialState]
      split <;> simp)
  rw [hst] at hf
  have h2 := stepsAlong_append _ _ _ _ _ _ hr hs hf
  exact stepsAlong_append _ _ _ _ _ _ ho1 ho2 h2

/-- C13, as amended, for the problem "battery" clicked at 3500 ms and again
150 ms later. -/
theorem double_submission_advances_twice_witness :
    150 ≤ transitionDelay ∧
    stepsAlong (pageLoad .fr) doubleClickProblem
      = some [0, 0, 0, 0, 0, 0, 0, 2, 4, 4, 4] :=
  ⟨by decide, (double_submission_advances_twice .fr .battery 2000 150 (by decide)).2.1⟩

/-! ## Pending timers -/

theorem timers_runCallback (w : World) (cb : Callback) (tm : Timer) (h : tm ∈ w.timers) :
    tm ∈ (runCallback w cb).timers := by
  cases cb with
  | goToNextStep =>
    simp only [runCallback, goToNextStep]
    split
    · exact h
    · simp only [setTimeout_timers, renderCurrentStep_timers]
      exact List.mem_append_left _ h
  | afterTyping =>
    simp only [runCallback, afterTyping]
    split
    · exact h
    · split
      · simp only [setTimeout_timers, renderCurrentStep_timers]
        exact List.mem_append_left _ h
      · simp only [renderCurrentStep_timers]
        exact h
  | showRecap =>
    simp only [runCallback, showRecap, renderCurrentStep_timers]
    exact h
  | flatAfterTyping =>
    simp only [runCallback, endTyping, renderCurrentStep_timers]
    exact h
  | initialAfterTyping =>
    simp only [runCallback, endTyping, renderCurrentStep_timers]
    exact h
  | initAddressPlaces =>
    simp only [runCallback, initAddressPlaces]
    split <;> exact h

theorem timers_showModal (w : World) (tm : Timer) (h : tm ∈ w.timers) :
    tm ∈ (showModal w).timers := by
  simp only [showModal, setTimeout_timers, renderCurrentStep_timers]
  exact List.mem_append_left _ h

theorem timers_handle (w : World) (e : Event) (tm : Timer) (h : tm ∈ w.timers) :
    tm ∈ (handle w e).timers := by
  cases e with
  | showModal => exact timers_showModal w tm h
  | hideModal =>
    simp only [handle, hideModal]
    split <;> exact h
  | clickProblem id => exact List.mem_append_left _ h
  | clickVehicle id =>
    simp only [handle, onVehicleClick]
    split
    · split
      · exact h
      · simp only [setTimeout_timers, renderCurrentStep_timers]
        exact List.mem_append_left _ h
    · exact List.mem_append_left _ h
  | submitBrand value =>
    simp only [handle, handleBrandSubmit]
    split
    · exact List.mem_append_left _ h
    · exact h
  | submitModel value =>
    simp only [handle, handleModelSubmit]
    split
    · exact List.mem_append_left _ h
    · exact h
  | submitYear value =>
    simp only [handle, handleYearSubmit]
    split
    · exact List.mem_append_left _ h
    · exact h
  | clickSmallOption id =>
    simp only [handle, onSmallOptionClick]
    split
    · exact List.mem_append_left _ h
    · split
      · exact List.mem_append_left _ h
      · split
        · exact List.mem_append_left _ h
        · exact h
  | clickGps =>
    simp only [handle, handleGPSLocation]
    split <;> exact h
  | gpsSuccess lat lng => exact List.mem_append_left _ h
  | gpsError code =>
    simp only [handle, onPositionError, renderCurrentStep_timers]
    exact h
  | clickAddressBtn =>
    simp only [handle, onAddressBtnClick]
    split
    · exact h
    · simp only [setTimeout_timers, renderCurrentStep_timers]
      exact List.mem_append_left _ h
  | clickAddressBack =>
    simp only [handle, onAddressBackClick, renderCurrentStep_timers]
    exact h
  | selectAddress address => exact List.mem_append_left _ h
  | clickDestinationAddressBtn =>
    simp only [handle, onDestinationAddressBtnClick, renderCurrentStep_timers]
    exact h
  | clickDestinationBack =>
    simp only [handle, onDestinationBackClick, renderCurrentStep_timers]
    exact h
  | selectDestination address =>
    simp only [handle, handleDestinationSelect, calculateDistance]
    split <;> exact h
  | routeResult result =>
    cases result with
    | none => exact h
    | some r => exact List.mem_append_left _ h
  | clickUnknown => exact List.mem_append_left _ h
  | changeLanguage lang =>
    simp only [handle, onLanguageOptionClick]
    split
    · split
      · exact h
      · simp only [renderCurrentStep_timers]
        exact h
    · exact h

theorem timers_handleTimes (e : Event) (tm : Timer) :
    ∀ (n : Nat) (w : World), tm ∈ w.timers → tm ∈ (handleTimes e n w).timers
  | 0, _, h => h
  | n + 1, w, h => timers_handleTimes e tm n (handle w e) (timers_handle w e tm h)

theorem timers_dispatch (w : World) (e : Event) (tm : Timer) (h : tm ∈ w.timers) :
    tm ∈ (dispatch w e).timers := by
  unfold dispatch
  split
  · exact timers_handleTimes e tm _ w h
  · exact timers_handle w e tm h

/-- C14 (counterexample). A battery session has reached its final step and its
recap callback, queued at 16200 ms, is due at 18200 ms. The visitor closes
the wizard at 16700 ms and opens it again at 17400 ms: `showModal` resets
`currentStep` to 0 and the problem to `null`, and the recap callback is still
the next timer. When it runs, `currentStep` of the new session becomes 0.5
(half step 1). -/
theorem recap_of_closed_session_runs_in_next :
    (run (pageLoad .fr) recapPending).map (fun w => (w.state.currentStep, w.now, w.timers))
      = some (10, 16700, [⟨18200, .showRecap⟩]) ∧
    (run (pageLoad .fr) (recapPending ++ closeAndReopen)).map
        (fun w => (w.state.currentStep, w.state.problem, w.now, nextTimer w.timers))
      = some (0, none, 17400, some ⟨18200, .showRecap⟩) ∧
    (run (pageLoad .fr) (recapPending ++ closeAndReopen ++ [.fire])).map
        (fun w => (w.state.currentStep, w.state.problem, w.now))
      = some (1, none, 18200) := by
  decide

/-- C14, as amended. `hideModal` changes neither the state nor the queue of
timers, `showModal` keeps every pending timer, and so does every move of the
page: a pending timer stays pending until it is the one that runs. So a
callback queued before the wizard is closed still runs, in the session opened
by the next `showModal` if that comes first. -/
theorem pending_timers_survive_hideModal :
    (∀ w : World, (hideModal w).timers = w.timers ∧ (hideModal w).state = w.state) ∧
    (∀ (w : World) (tm : Timer), tm ∈ w.timers → tm ∈ (showModal (hideModal w)).timers) ∧
    (∀ (w w1 : World) (a : Act) (tm : Timer), step w a = some w1 → tm ∈ w.timers →
      tm ∈ w1.timers ∨ (a = .fire ∧ nextTimer w.timers = some tm)) := by
  refine ⟨fun w => ?_, fun w tm h => ?_, fun w w1 a tm hs h => ?_⟩
  · simp only [hideModal]
    split <;> exact ⟨rfl, rfl⟩
  · refine timers_showModal _ tm ?_
    simp only [hideModal]
    split <;> exact h
  · cases a with
    | wait ms =>
      simp only [step] at hs
      split at hs
      · simp only [Option.some.injEq] at hs
        subst hs
        exact Or.inl h
      · exact Option.noConfusion hs
    | fire =>
      simp only [step, fire] at hs
      cases hn : nextTimer w.timers with
      | none => simp [hn] at hs
      | some tm0 =>
        simp only [hn, Option.some.injEq] at hs
        subst hs
        by_cases htm : tm = tm0
        · exact Or.inr ⟨rfl, by rw [htm]⟩
        · exact Or.inl (timers_runCallback _ _ tm ((List.mem_erase_of_ne htm).2 h))
    | ev e =>
      simp only [step] at hs
      split at hs
      · simp only [Option.some.injEq] at hs
        subst hs
        exact Or.inl (timers_dispatch w e tm h)
      · exact Option.noConfusion hs

/-- C14, as amended, at the battery session whose recap is pending: the recap
callback is still queued after the wizard has been closed and opened again. -/
theorem pending_timers_survive_hideModal_witness :
    (⟨18200, .showRecap⟩ : Timer) ∈ (worldAfter (pageLoad .fr) recapPending).timers ∧
    (⟨18200, .showRecap⟩ : Timer) ∈
      (showModal (hideModal (worldAfter (pageLoad .fr) recapPending))).timers :=
  ⟨by decide,
   pending_timers_survive_hideModal.2.1 (worldAfter (pageLoad .fr) recapPending)
     ⟨18200, .showRecap⟩ (by decide)⟩

/-! ## An answer that does not belong to the step -/

theorem onSmallOptionClick_other_step (w : World) (id : OptionId)
    (h3 : w.state.currentStep ≠ 3) (h4 : w.state.currentStep ≠ 4)
    (h6 : w.state.currentStep ≠ 6) : onSmallOptionClick id w = w := by
  simp only [onSmallOptionClick, if_neg h3, if_neg h4, if_neg h6]

theorem handleTimes_fixed (e : Event) (w : World) (h : handle w e = w) :
    ∀ n : Nat, handleTimes e n w = w
  | 0 => rfl
  | n + 1 => by
    rw [handleTimes, h]
    exact handleTimes_fixed e w h n

/-! ## The message sent to WhatsApp -/

theorem table_get_append (a b : Table) (key : String) :
    Table.get (a ++ b) key =
      match Table.get b key with
      | some x => some x
      | none => Table.get a key := by
  induction a with
  | nil =>
    simp only [List.nil_append]
    cases Table.get b key <;> rfl
  | cons e rest ih =>
    obtain ⟨k, v⟩ := e
    have h : Table.get ((k, v) :: rest ++ b) key =
        match Table.get (rest ++ b) key with
        | some x => some x
        | none => if k = key then some v else none := rfl
    rw [h, ih]
    cases Table.get b key <;> rfl

theorem tText_congr (T T1 : Lang → Table) (s s1 : State)
    (h : T s.currentLanguage = T1 s1.currentLanguage) (key : String) :
    tText T s key = tText T1 s1 key := by
  simp only [tText, t, h]

/-- The composer is the concatenation of the parts of the message. -/
theorem buildWhatsAppMessage_eq (T : Lang → Table) (s : State) :
    buildWhatsAppMessage T s =
      match s.problem with
      | none => none
      | some p =>
        (locationLine T s).map fun loc =>
          greetingLines T s p ++ vehicleLines T s p ++ loc ++ destinationLines T s p ++
            closingLines T s := by
  unfold buildWhatsAppMessage
  cases hp : s.problem with
  | none => rfl
  | some p =>
    simp only [locationLine, greetingLines, vehicleLines, wreckVehicleLine, vehicleLine,
      transmissionLine, destinationLines, distanceLine, closingLines]
    by_cases hg : s.location.type = some .gps
    · cases hc : s.location.coords with
      | none => simp [hg, hc]
      | some c =>
        by_cases hw : p.id = .wreck <;> by_cases hn : p.needsDestination = true <;>
        by_cases hu : s.destination.unknown = true <;>
        by_cases hd : truthy s.destination.distance = true <;>
        by_cases hr : truthy s.destination.duration = true <;>
        simp [hg, hc, hw, hn, hu, hd, hr, String.append_assoc]
    · by_cases hw : p.id = .wreck <;> by_cases hn : p.needsDestination = true <;>
      by_cases hu : s.destination.unknown = true <;>
      by_cases hd : truthy s.destination.distance = true <;>
      by_cases hr : truthy s.destination.duration = true <;>
      simp [hg, hw, hn, hu, hd, hr, String.append_assoc]

theorem buildWhatsAppMessage_of (T : Lang → Table) (s : State) (p : Problem) (loc : String)
    (hp : s.problem = some p) (hl : locationLine T s = some loc) :
    buildWhatsAppMessage T s =
      some (greetingLines T s p ++ vehicleLines T s p ++ loc ++ destinationLines T s p ++
        closingLines T s) := by
  rw [buildWhatsAppMessage_eq, hp]
  simp only [hl, Option.map_some']

/-- C16. `buildWhatsAppMessage` is a function of the answers and of the
current translation table only: for any two states that agree on problem,
vehicle, transmission, fourWheelDrive, vehicleBrand, vehicleModel,
vehicleYear, location and destination and whose current translation tables
are equal, it gives the same result (the same string, or an exception in
both). It only reads the state: its embedding returns the string and nothing
else. -/
theorem buildWhatsAppMessage_pure (T T1 : Lang → Table) (s s1 : State)
    (hp : s.problem = s1.problem) (hv : s.vehicle = s1.vehicle)
    (htr : s.transmission = s1.transmission) (hfw : s.fourWheelDrive = s1.fourWheelDrive)
    (hb : s.vehicleBrand = s1.vehicleBrand) (hm : s.vehicleModel = s1.vehicleModel)
    (hy : s.vehicleYear = s1.vehicleYear) (hl : s.location = s1.location)
    (hd : s.destination = s1.destination)
    (hT : T s.currentLanguage = T1 s1.currentLanguage) :
    buildWhatsAppMessage T s = buildWhatsAppMessage T1 s1 := by
  have ht : ∀ key, tText T s key = tText T1 s1 key := tText_congr T T1 s s1 hT
  simp only [buildWhatsAppMessage, ht, hp, hv, htr, hfw, hb, hm, hy, hl, hd]

/-- C16 at the end of the session "Rue Neuve": the message does not change
when the step, the typing flag and the wheel position do. -/
theorem buildWhatsAppMessage_pure_witness :
    buildWhatsAppMessage TRANSLATIONS (worldAfter (pageLoad .fr) rueNeuveSession).state =
      buildWhatsAppMessage TRANSLATIONS
        { (worldAfter (pageLoad .fr) rueNeuveSession).state with
          currentStep := 0, isTyping := true, wheelPosition := some .rear } :=
  buildWhatsAppMessage_pure TRANSLATIONS TRANSLATIONS _ _ rfl rfl rfl rfl rfl rfl rfl rfl rfl rfl

/-- C17. Whenever the problem is not wreck, the vehicle category, the
transmission and the four-wheel-drive answer are set and the location is a
typed address (as at the end of every completed non-wreck session with a
manual location), the message contains, one after the other and in this
order: the vehicle line (`t('msg_vehicle')`, a blank and the translated
category), the transmission line (`t('msg_transmission')`, the translated
transmission, a comma and the drive label, `fourwd_label_yes` when
fourWheelDrive is true and `fourwd_label_no` otherwise) and the location line
with the address as it was typed. -/
theorem vehicle_transmission_location_lines_in_order (T : Lang → Table) (s : State)
    (p : Problem) (v : VehicleId) (tr : OptionId) (b : Bool)
    (hp : s.problem = some p) (hw : p.id ≠ .wreck) (hv : s.vehicle = some v)
    (htr : s.transmission = some tr) (hb : s.fourWheelDrive = some b)
    (hl : s.location.type = some .manual) :
    ∃ pre post : String, buildWhatsAppMessage T s = some (pre ++
      (tText T s "msg_vehicle" ++ " " ++ tText T s ("vehicle_" ++ v.name) ++ "\n") ++
      (tText T s "msg_transmission" ++ " " ++ tText T s ("transmission_" ++ tr.name) ++ ", " ++
        (if b = true then tText T s "fourwd_label_yes" else tText T s "fourwd_label_no") ++
        "\n") ++
      (tText T s "msg_location" ++ " " ++ s.location.address ++ "\n") ++ post) := by
  refine ⟨greetingLines T s p, destinationLines T s p ++ closingLines T s, ?_⟩
  rw [buildWhatsAppMessage_eq, hp]
  cases b <;>
  simp [locationLine, vehicleLines, vehicleLine, transmissionLine, hw, hv, htr, hb, hl,
    optText, String.append_assoc]

set_option maxRecDepth 100000 in
/-- C17 at the end of the session "Rue Neuve" (battery, berline, manual, no
four-wheel drive, address "Rue Neuve 10, Brussels"), with the built-in
tables: the three lines, and the whole message. -/
theorem vehicle_transmission_location_lines_in_order_witness :
    (∃ pre post : String,
      buildWhatsAppMessage TRANSLATIONS (worldAfter (pageLoad .fr) rueNeuveSession).state =
        some (pre ++
          (tText TRANSLATIONS (worldAfter (pageLoad .fr) rueNeuveSession).state "msg_vehicle"
            ++ " " ++ tText TRANSLATIONS (worldAfter (pageLoad .fr) rueNeuveSession).state
              ("vehicle_" ++ VehicleId.berline.name) ++ "\n") ++
          (tText TRANSLATIONS (worldAfter (pageLoad .fr) rueNeuveSession).state
              "msg_transmission" ++ " " ++
            tText TRANSLATIONS (worldAfter (pageLoad .fr) rueNeuveSession).state
              ("transmission_" ++ OptionId.manual.name) ++ ", " ++
            (if false = true then
              tText TRANSLATIONS (worldAfter (pageLoad .fr) rueNeuveSession).state
                "fourwd_label_yes"
             else tText TRANSLATIONS (worldAfter (pageLoad .fr) rueNeuveSession).state
                "fourwd_label_no") ++ "\n") ++
          (tText TRANSLATIONS (worldAfter (pageLoad .fr) rueNeuveSession).state "msg_location"
            ++ " " ++ (worldAfter (pageLoad .fr) rueNeuveSession).state.location.address ++ "\n")
          ++ post)) ∧
    buildWhatsAppMessage TRANSLATIONS (worldAfter (pageLoad .fr) rueNeuveSession).state =
      some ("Bonjour,\n\nJe souhaite obtenir un devis pour une intervention.\n\n" ++
        "Problème : Ma batterie est plate\n" ++
        "Véhicule : Berline / SUV\n" ++
        "Transmission : Manuelle, 2RM\n" ++
        "Localisation : Rue Neuve 10, Brussels\n" ++
        "\nMerci de me communiquer le tarif et le délai d\x27intervention.") :=
  ⟨vehicle_transmission_location_lines_in_order TRANSLATIONS
      (worldAfter (pageLoad .fr) rueNeuveSession).state ⟨.battery, false⟩ .berline .manual false
      (by decide) (by decide) (by decide) (by decide) (by decide) (by decide),
   by decide⟩

set_option maxRecDepth 100000 in
/-- C18 (counterexample). At the end of the towing session with the browser
position (48.85, 2.35), the destination "Garage X" and a route of 12 km and
18 min, the message built with the built-in French table has these lines. The
destination line is "Destination : Garage X"; it holds neither "12 km" nor
"18 min", which stand on the line after it, the distance line. -/
theorem destination_line_has_no_distance :
    (buildWhatsAppMessage TRANSLATIONS (worldAfter (pageLoad .fr) garageSession).state).map
        (fun msg => linesOf msg.data)
      = some ["Bonjour,", "", "Je souhaite obtenir un devis pour une intervention.", "",
          "Problème : J\x27ai besoin d\x27un remorquage",
          "Véhicule : Berline / SUV",
          "Transmission : Manuelle, 2RM",
          "Localisation : https://maps.google.com/?q=48.85,2.35",
          "Destination : Garage X",
          "Distance estimée : 12 km (~18 min)",
          "",
          "Merci de me communiquer le tarif et le délai d\x27intervention."] ∧
    (buildWhatsAppMessage TRANSLATIONS (worldAfter (pageLoad .fr) garageSession).state).map
        (fun msg => (linesOf msg.data).filter
          (fun line => containsText line "Garage X" &&
            (containsText line "12 km" || containsText line "18 min")))
      = some [] := by
  decide

/-- C18, as amended. Whenever the problem needs a destination, the location
is the browser position (48.85, 2.35), and the destination is the address
"Garage X" (not unknown) with the distance "12 km" and the duration "18 min",
the message contains, one after the other: the location line with the map
link https://maps.google.com/?q=48.85,2.35, the destination line with the
address "Garage X", and the distance line with "12 km" and, in parentheses,
"18 min"; the closing lines follow. -/
theorem towing_message_link_and_distance_line (T : Lang → Table) (s : State) (p : Problem)
    (address : String) (hp : s.problem = some p) (hn : p.needsDestination = true)
    (hl : s.location = ⟨some .gps, some ⟨"48.85", "2.35"⟩, address⟩)
    (hd : s.destination = ⟨"Garage X", false, some "12 km", some "18 min"⟩) :
    ∃ pre : String, buildWhatsAppMessage T s = some (pre ++
      (tText T s "msg_location" ++ " " ++ "https://maps.google.com/?q=48.85,2.35" ++ "\n") ++
      (tText T s "msg_destination" ++ " " ++ "Garage X" ++ "\n") ++
      (tText T s "msg_distance" ++ " " ++ "12 km" ++ " (~" ++ "18 min" ++ ")" ++ "\n") ++
      ("\n" ++ tText T s "msg_closing")) := by
  refine ⟨greetingLines T s p ++ vehicleLines T s p, ?_⟩
  have hlink : createGoogleMapsLink "48.85" "2.35" = "https://maps.google.com/?q=48.85,2.35" := by
    decide
  rw [buildWhatsAppMessage_eq, hp]
  simp [locationLine, destinationLines, distanceLine, closingLines, hn, hl, hd, hlink, truthy,
    optText, String.append_assoc]

/-- C18, as amended, at the end of the towing session with the position
(48.85, 2.35), the destination "Garage X" and a route of 12 km and 18 min. -/
theorem towing_message_link_and_distance_line_witness :
    ∃ pre : String,
      buildWhatsAppMessage TRANSLATIONS (worldAfter (pageLoad .fr) garageSession).state =
        some (pre ++
          (tText TRANSLATIONS (worldAfter (pageLoad .fr) garageSession).state "msg_location" ++
            " " ++ "https://maps.google.com/?q=48.85,2.35" ++ "\n") ++
          (tText TRANSLATIONS (worldAfter (pageLoad .fr) garageSession).state "msg_destination"
            ++ " " ++ "Garage X" ++ "\n") ++
          (tText TRANSLATIONS (worldAfter (pageLoad .fr) garageSession).state "msg_distance" ++
            " " ++ "12 km" ++ " (~" ++ "18 min" ++ ")" ++ "\n") ++
          ("\n" ++ tText TRANSLATIONS (worldAfter (pageLoad .fr) garageSession).state
            "msg_closing")) :=
  towing_message_link_and_distance_line TRANSLATIONS
    (worldAfter (pageLoad .fr) garageSession).state ⟨.towing, true⟩ "" (by decide) rfl
    (by decide) (by decide)

/-- C19. The message has destination lines if and only if the problem needs
a destination: the message is the greeting, the vehicle part and the location
line, which do not depend on the destination, then the destination part and
the closing lines; the destination part is empty when `needsDestination` is
false; when it is true the part is the line with `t('destination_unknown')`
if `destination.unknown` is set, whatever distance and duration are stored,
and otherwise the line with the destination address, followed by the distance
text only when a distance is stored and by the duration text only when,
besides, a duration is stored. -/
theorem destination_lines_iff_needsDestination (T : Lang → Table) (s : State) (p : Problem)
    (loc : String) (hp : s.problem = some p) (hl : locationLine T s = some loc) :
    (∀ d : Destination, buildWhatsAppMessage T { s with destination := d } =
      some (greetingLines T s p ++ vehicleLines T s p ++ loc ++
        destinationLines T { s with destination := d } p ++ closingLines T s)) ∧
    (p.needsDestination = false →
      ∀ d : Destination, destinationLines T { s with destination := d } p = "") ∧
    (p.needsDestination = true → ∀ d : Destination,
      (d.unknown = true → destinationLines T { s with destination := d } p =
        tText T s "msg_destination" ++ " " ++ tText T s "destination_unknown" ++ "\n") ∧
      (d.unknown = false → truthy d.distance = false →
        destinationLines T { s with destination := d } p =
          tText T s "msg_destination" ++ " " ++ d.address ++ "\n") ∧
      (d.unknown = false → truthy d.distance = true → truthy d.duration = false →
        destinationLines T { s with destination := d } p =
          tText T s "msg_destination" ++ " " ++ d.address ++ "\n" ++
            (tText T s "msg_distance" ++ " " ++ optText d.distance ++ "\n")) ∧
      (d.unknown = false → truthy d.distance = true → truthy d.duration = true →
        destinationLines T { s with destination := d } p =
          tText T s "msg_destination" ++ " " ++ d.address ++ "\n" ++
            (tText T s "msg_distance" ++ " " ++ optText d.distance ++
              " (~" ++ optText d.duration ++ ")" ++ "\n"))) := by
  have ht : ∀ (d : Destination) (key : String),
      tText T { s with destination := d } key = tText T s key := fun _ _ => rfl
  refine ⟨fun d => ?_, fun hn d => ?_, fun hn d => ⟨fun hu => ?_, fun hu hd => ?_,
    fun hu hd hr => ?_, fun hu hd hr => ?_⟩⟩
  · exact buildWhatsAppMessage_of T { s with destination := d } p loc hp hl
  · simp [destinationLines, hn]
  · simp [destinationLines, hn, hu, ht]
  · simp [destinationLines, hn, hu, hd, ht]
  · simp [destinationLines, distanceLine, hn, hu, hd, hr, ht, String.append_assoc]
  · simp [destinationLines, distanceLine, hn, hu, hd, hr, ht, String.append_assoc]

/-- C19 at the end of the towing session "Garage X": the message when the
destination is replaced by "unknown" with the stored route kept. -/
theorem destination_lines_iff_needsDestination_witness :
    buildWhatsAppMessage TRANSLATIONS
      { (worldAfter (pageLoad .fr) garageSession).state with
        destination := ⟨"", true, some "12 km", some "18 min"⟩ } =
      some (greetingLines TRANSLATIONS (worldAfter (pageLoad .fr) garageSession).state
          ⟨.towing, true⟩ ++
        vehicleLines TRANSLATIONS (worldAfter (pageLoad .fr) garageSession).state
          ⟨.towing, true⟩ ++
        "Localisation : https://maps.google.com/?q=48.85,2.35\n" ++
        destinationLines TRANSLATIONS
          { (worldAfter (pageLoad .fr) garageSession).state with
            destination := ⟨"", true, some "12 km", some "18 min"⟩ } ⟨.towing, true⟩ ++
        closingLines TRANSLATIONS (worldAfter (pageLoad .fr) garageSession).state) :=
  (destination_lines_iff_needsDestination TRANSLATIONS
    (worldAfter (pageLoad .fr) garageSession).state ⟨.towing, true⟩
    "Localisation : https://maps.google.com/?q=48.85,2.35\n" (by decide) (by decide)).1
    ⟨"", true, some "12 km", some "18 min"⟩

/-- C20. The vehicle part of the message depends on the branch. The message
is the greeting and problem lines, the vehicle part, and the location,
destination and closing lines. When the problem is wreck the vehicle part is
the single line `<msg_vehicle> <brand> <model> (<year>)`, and the message does
not depend on the vehicle category, the transmission or the four-wheel-drive
answer: there is no transmission line. For every other problem the vehicle
part is the line of the translated vehicle category followed by the line of
the transmission and the drive label, and the message does not depend on
brand, model or year: they never appear. -/
theorem vehicle_part_is_branch_specific (T : Lang → Table) (s : State) (p : Problem)
    (loc : String) (hp : s.problem = some p) (hl : locationLine T s = some loc) :
    buildWhatsAppMessage T s =
      some (greetingLines T s p ++ vehicleLines T s p ++
        (loc ++ destinationLines T s p ++ closingLines T s)) ∧
    (p.id = .wreck →
      vehicleLines T s p = tText T s "msg_vehicle" ++ " " ++ optText s.vehicleBrand ++ " " ++
        optText s.vehicleModel ++ " (" ++ optText s.vehicleYear ++ ")\n" ∧
      ∀ (v : Option VehicleId) (tr : Option OptionId) (fw : Option Bool),
        buildWhatsAppMessage T { s with vehicle := v, transmission := tr, fourWheelDrive := fw }
          = buildWhatsAppMessage T s) ∧
    (p.id ≠ .wreck →
      vehicleLines T s p = vehicleLine T s ++ transmissionLine T s ∧
      ∀ b m y : Option String,
        buildWhatsAppMessage T { s with vehicleBrand := b, vehicleModel := m, vehicleYear := y }
          = buildWhatsAppMessage T s) := by
  refine ⟨?_, fun hw => ⟨?_, fun v tr fw => ?_⟩, fun hw => ⟨?_, fun b m y => ?_⟩⟩
  · rw [buildWhatsAppMessage_of T s p loc hp hl]
    simp only [String.append_assoc]
  · simp [vehicleLines, wreckVehicleLine, hw]
  · have h1 : vehicleLines T { s with vehicle := v, transmission := tr, fourWheelDrive := fw } p
        = vehicleLines T s p := by
      simp only [vehicleLines, if_pos hw]
      rfl
    rw [buildWhatsAppMessage_of T s p loc hp hl,
      buildWhatsAppMessage_of T { s with vehicle := v, transmission := tr, fourWheelDrive := fw }
        p loc hp hl, h1]
    rfl
  · simp [vehicleLines, hw]
  · have h1 : vehicleLines T { s with vehicleBrand := b, vehicleModel := m, vehicleYear := y } p
        = vehicleLines T s p := by
      simp only [vehicleLines, if_neg hw]
      rfl
    rw [buildWhatsAppMessage_of T s p loc hp hl,
      buildWhatsAppMessage_of T { s with vehicleBrand := b, vehicleModel := m, vehicleYear := y }
        p loc hp hl, h1]
    rfl

/-- C20 at the end of the session "Rue Neuve", a battery session: the vehicle
part is the category line and the transmission line, and a brand, model and
year left in the state do not show in the message. -/
theorem vehicle_part_is_branch_specific_witness :
    vehicleLines TRANSLATIONS (worldAfter (pageLoad .fr) rueNeuveSession).state
        ⟨.battery, false⟩ =
      vehicleLine TRANSLATIONS (worldAfter (pageLoad .fr) rueNeuveSession).state ++
        transmissionLine TRANSLATIONS (worldAfter (pageLoad .fr) rueNeuveSession).state ∧
    buildWhatsAppMessage TRANSLATIONS
      { (worldAfter (pageLoad .fr) rueNeuveSession).state with
        vehicleBrand := some "Fiat", vehicleModel := some "Panda", vehicleYear := some "2009" }
      = buildWhatsAppMessage TRANSLATIONS (worldAfter (pageLoad .fr) rueNeuveSession).state :=
  ⟨((vehicle_part_is_branch_specific TRANSLATIONS
      (worldAfter (pageLoad .fr) rueNeuveSession).state ⟨.battery, false⟩
      "Localisation : Rue Neuve 10, Brussels\n" (by decide) (by decide)).2.2 (by decide)).1,
   ((vehicle_part_is_branch_specific TRANSLATIONS
      (worldAfter (pageLoad .fr) rueNeuveSession).state ⟨.battery, false⟩
      "Localisation : Rue Neuve 10, Brussels\n" (by decide) (by decide)).2.2 (by decide)).2
      (some "Fiat") (some "Panda") (some "2009")⟩

/-! ## A route request that fails -/

set_option maxRecDepth 100000 in
/-- C21 (counterexample). In a towing session the visitor picks the
destination "Garage X" and the route request fails. The wizard does not
proceed: `currentStep` stays 5 (half step 10) while the final step is 6 (half
step 12), the typing flag is off and no callback is queued, so no later move
of the timers changes the step. -/
theorem route_failure_does_not_reach_final_step :
    (run (pageLoad .fr) towingRouteFailure).map
      (fun w => (w.state.currentStep, w.state.finalStep, w.state.isTyping, nextTimer w.timers,
        w.state.destination))
      = some (10, 12, false, none, ⟨"Garage X", false, none, none⟩) ∧
    (run (pageLoad .fr) (towingRouteFailure ++ [.fire])) = none := by
  decide

set_option maxRecDepth 100000 in
/-- C21, as amended. A route lookup that fails changes nothing and queues
nothing: the callback of `route` with a status other than OK, or without a
route, leaves the page as it is, so the wizard stays at the destination step;
picking the address stores it with `unknown` false, leaves `currentStep`,
`distance`, `duration` and the queue of timers as they were, and sends no
request when there is no directions service. A message composed from such a
state (problem needing a destination, address stored, no distance) has the
destination line with the address and no distance or duration text. The
session can still be completed: in the towing session "Garage X" with a failed
lookup, going back and choosing "unknown" leads to step 6 and the recap (half
steps 12 and 13). -/
theorem route_failure_keeps_destination_step :
    (∀ w : World, onRoute none w = w) ∧
    (∀ (w : World) (a : String),
      (handleDestinationSelect a w).state =
        { w.state with destination := { w.state.destination with address := a, unknown := false } }
      ∧ (handleDestinationSelect a w).timers = w.timers
      ∧ (w.directionsService = false →
          (handleDestinationSelect a w).routeRequests = w.routeRequests)) ∧
    (∀ (T : Lang → Table) (s : State) (p : Problem) (a : String),
      p.needsDestination = true → s.destination = ⟨a, false, none, none⟩ →
      destinationLines T s p = tText T s "msg_destination" ++ " " ++ a ++ "\n") ∧
    (stepsAlong (pageLoad .fr) (towingRouteFailure ++ backToUnknown)).map squeeze
      = some [0, 2, 4, 6, 8, 10, 12, 13] := by
  refine ⟨fun w => rfl, fun w a => ⟨?_, ?_, fun h => ?_⟩, fun T s p a hn hd => ?_, by decide⟩
  · simp only [handleDestinationSelect, calculateDistance]
    split <;> rfl
  · simp only [handleDestinationSelect, calculateDistance]
    split <;> rfl
  · simp [handleDestinationSelect, calculateDistance, h]
  · simp [destinationLines, hn, hd, truthy]

set_option maxRecDepth 100000 in
/-- C21, as amended, at the towing session "Garage X" with a failed lookup:
the destination part of the message, with the built-in French table. -/
theorem route_failure_keeps_destination_step_witness :
    (worldAfter (pageLoad .fr) towingRouteFailure).state.destination =
      ⟨"Garage X", false, none, none⟩ ∧
    destinationLines TRANSLATIONS (worldAfter (pageLoad .fr) towingRouteFailure).state
      ⟨.towing, true⟩ =
      tText TRANSLATIONS (worldAfter (pageLoad .fr) towingRouteFailure).state "msg_destination"
        ++ " " ++ "Garage X" ++ "\n" ∧
    buildWhatsAppMessage TRANSLATIONS (worldAfter (pageLoad .fr) towingRouteFailure).state =
      some ("Bonjour,\n\nJe souhaite obtenir un devis pour une intervention.\n\n" ++
        "Problème : J\x27ai besoin d\x27un remorquage\n" ++
        "Véhicule : Berline / SUV\n" ++
        "Transmission : Manuelle, 2RM\n" ++
        "Localisation : https://maps.google.com/?q=48.85,2.35\n" ++
        "Destination : Garage X\n" ++
        "\nMerci de me communiquer le tarif et le délai d\x27intervention.") :=
  ⟨by decide,
   route_failure_keeps_destination_step.2.2.1 TRANSLATIONS
     (worldAfter (pageLoad .fr) towingRouteFailure).state ⟨.towing, true⟩ "Garage X" rfl
     (by decide),
   by decide⟩

/-! ## What the chat area shows -/

/-- C23 (the code departs from the claim). In a towing session, right after
the `goToNextStep` that follows the location answer, `currentStep` is 5 (half
step 10) and the typing flag is set; the chat area then has no typing
indicator: it ends with the question of the destination step and its two
buttons, and the "unknown" button can be clicked. -/
theorem destination_question_shown_while_typing :
    (run (pageLoad .fr) towingTyping).map
      (fun w => (w.state.currentStep, w.state.isTyping, w.chatArea, enabled w .clickUnknown))
      = some (10, true,
          [Item.bot (.t "step0_bot_message"), Item.user (.t "problem_towing"),
           Item.user (.t "vehicle_berline"), Item.user (.t "transmission_manual"),
           Item.user (.t "fourwd_no"), Item.bot (.t "step4_bot_question"),
           Item.user (.t "location_gps"), Item.bot (.t "step4b_bot_question"),
           Item.destinationOptions], true) := by
  decide

/-- C24 (the code departs from the claim). At the location step of a wreck
session answered with "Fiat", "Panda", "2009" the typing flag is off and the
user turns are brand, model, year and the year once more. At the final step of
the battery session "Rue Neuve" the location has been answered and the user
turns are problem, vehicle, transmission and four-wheel drive only. -/
theorem wreck_year_shown_twice :
    (run (pageLoad .fr) wreckUpToLocation).map
      (fun w => (w.state.currentStep, w.state.isTyping, userTurns w.chatArea))
      = some (8, false, [.lit "Fiat", .lit "Panda", .lit "2009", .lit "2009"]) ∧
    (run (pageLoad .fr) rueNeuveSession).map
      (fun w => (w.state.currentStep, w.state.isTyping, w.state.location,
        userTurns w.chatArea))
      = some (11, false, ⟨some .manual, none, "Rue Neuve 10, Brussels"⟩,
          [.t "problem_battery", .t "vehicle_berline", .t "transmission_manual",
           .t "fourwd_no"]) := by
  decide

/-- C25. On the flat-tyre branch, once the wheel position has been answered
and the typing flag is off (at step 2, half step 4, or at the step 2.5, half
step 5, that the wizard reaches), the chat area is: the greeting, the problem
as a user turn, the vehicle question, the vehicle category as a user turn, the
wheel question, the wheel position as a user turn, the transmission question
(and the transmission options at step 2 only). So the wheel-position turn
stands after the vehicle question and the vehicle-category turn and before the
transmission question, and the vehicle-category turn appears exactly once. -/
theorem wheel_answer_between_vehicle_and_transmission (s : State) (v : VehicleId)
    (wp : OptionId) (hp : s.problem = some ⟨.flat, false⟩) (hv : s.vehicle = some v)
    (hw : s.wheelPosition = some wp) (ht : s.isTyping = false)
    (hk : s.currentStep = 4 ∨ s.currentStep = 5) :
    chatHtml s =
      [Item.bot (.t "step0_bot_message"), Item.user (.t "problem_flat"),
       Item.bot (.t "response_flat"), Item.user (.t ("vehicle_" ++ v.name)),
       Item.bot (.t "step1b_bot_question"), Item.user (.t ("wheel_position_" ++ wp.name)),
       Item.bot (.t "step2_bot_question")] ++
      (if s.currentStep = 4 then [Item.smallOptions TRANSMISSIONS] else []) ∧
    (chatHtml s).count (Item.user (.t ("vehicle_" ++ v.name))) = 1 := by
  have h1 : chatHtml s =
      [Item.bot (.t "step0_bot_message"), Item.user (.t "problem_flat"),
       Item.bot (.t "response_flat"), Item.user (.t ("vehicle_" ++ v.name)),
       Item.bot (.t "step1b_bot_question"), Item.user (.t ("wheel_position_" ++ wp.name)),
       Item.bot (.t "step2_bot_question")] ++
      (if s.currentStep = 4 then [Item.smallOptions TRANSMISSIONS] else []) := by
    rcases hk with h | h <;>
    simp [chatHtml, createStep0, createStep1, createStep1b, createStep2, transmissionQuestion,
      State.problemIs, State.needsDestination, State.finalStep, hp, hv, hw, ht, h,
      ProblemId.name]
  refine ⟨h1, ?_⟩
  rw [h1]
  rcases hk with h | h <;> rw [h] <;> cases v <;> cases wp <;> decide

/-- C25 at the end of the flat-tyre session with a citadine and the rear
wheel: the chat area of the page. -/
theorem wheel_answer_between_vehicle_and_transmission_witness :
    (worldAfter (pageLoad .fr) (flatTyreSession .citadine .rear)).chatArea =
      chatHtml (worldAfter (pageLoad .fr) (flatTyreSession .citadine .rear)).state ∧
    chatHtml (worldAfter (pageLoad .fr) (flatTyreSession .citadine .rear)).state =
      [Item.bot (.t "step0_bot_message"), Item.user (.t "problem_flat"),
       Item.bot (.t "response_flat"), Item.user (.t ("vehicle_" ++ VehicleId.citadine.name)),
       Item.bot (.t "step1b_bot_question"),
       Item.user (.t ("wheel_position_" ++ OptionId.rear.name)),
       Item.bot (.t "step2_bot_question")] ++
      (if (worldAfter (pageLoad .fr) (flatTyreSession .citadine .rear)).state.currentStep = 4
       then [Item.smallOptions TRANSMISSIONS] else []) :=
  ⟨by decide,
   (wheel_answer_between_vehicle_and_transmission
     (worldAfter (pageLoad .fr) (flatTyreSession .citadine .rear)).state .citadine .rear
     (by decide) (by decide) (by decide) (by decide) (Or.inr (by decide))).1⟩

/-- C26 (the code departs from the claim). At the end of a towing session
answered with "unknown", `currentStep` is 6.5 (half step 13) and the chat area
still holds the two buttons of the destination step, next to the recap card,
and the "unknown" button can still be clicked; at the end of the towing
session "Garage X" it still holds the destination input, whose "back" link can
be clicked. -/
theorem destination_chooser_offered_at_final_step :
    (run (pageLoad .fr) towingUnknown).map
      (fun w => (w.state.currentStep, w.state.isTyping,
        w.chatArea.filter Item.isAffordance, enabled w .clickUnknown))
      = some (13, false, [Item.destinationOptions, Item.summaryCard], true) ∧
    (run (pageLoad .fr) garageSession).map
      (fun w => (w.state.currentStep, w.state.isTyping,
        w.chatArea.filter Item.isAffordance, enabled w .clickDestinationBack))
      = some (13, false, [Item.destinationInput, Item.summaryCard], true) := by
  decide

/-- C27. Whatever the error `getCurrentPosition` reports (permission denied,
position unavailable, timeout, unknown), the error callback changes the state
in `showAddressInput` only, which becomes true: `currentStep`, the problem,
the location (its type still unset) and every other answer keep their values.
The session can still be completed with a typed address: in a battery session
the visitor goes back to the two buttons, asks for the address input (which
sets up the autocomplete that the error path leaves out) and picks an
address, and the steps are 0, 1, 2, 3, 4, 5 and 5.5 (half steps 0, 2, 4, 6,
8, 10, 11) with the location stored as manual. -/
theorem gps_error_falls_back_to_address (code : GeoError) :
    (∀ w : World, (handle w (.gpsError code)).state =
      { w.state with showAddressInput := true }) ∧
    (stepsAlong (pageLoad .fr) (gpsErrorSession code)).map squeeze
      = some [0, 2, 4, 6, 8, 10, 11] ∧
    (run (pageLoad .fr) (gpsErrorSession code)).map (fun w => w.state.location)
      = some ⟨some .manual, none, "Rue Neuve 10, Brussels"⟩ := by
  refine ⟨fun w => ?_, ?_, ?_⟩
  · simp only [handle, onPositionError, renderCurrentStep_state]
  · cases code <;> decide
  · cases code <;> decide

/-! ## Translations -/

theorem table_get_isSome_append (a b : Table) (key : String) (v : Json)
    (h : Table.get a key = some v) : ∃ v1, Table.get (a ++ b) key = some v1 := by
  rw [table_get_append]
  cases hb : Table.get b key with
  | none => exact ⟨v, h⟩
  | some x => exact ⟨x, rfl⟩

/-- C28. `loadTranslations` falls back to the tables it starts from, language
by language, whatever happens to the other languages: when the request for a
language throws or its response is not ok, the table of that language is left
exactly as it was; when the file is read, the table of that language has
every key it had before, a key of the flattened file gets the value of the
file, and every other key keeps its value. -/
theorem loadTranslations_falls_back (T : Lang → Table) (fetched : Lang → FetchResult)
    (lang : Lang) :
    (fetched lang = .failed ∨ fetched lang = .notOk →
      loadTranslations T fetched lang = T lang) ∧
    (∀ data : Entries, fetched lang = .ok data →
      (∀ (key : String) (v : Json), Table.get (T lang) key = some v →
        ∃ v1, Table.get (loadTranslations T fetched lang) key = some v1) ∧
      (∀ (key : String) (v : Json), Table.get (flattenTranslations data "") key = some v →
        Table.get (loadTranslations T fetched lang) key = some v) ∧
      (∀ key : String, Table.get (flattenTranslations data "") key = none →
        Table.get (loadTranslations T fetched lang) key = Table.get (T lang) key)) := by
  constructor
  · intro h
    rcases h with h | h <;> simp [loadTranslations, h]
  · intro data h
    have hl : loadTranslations T fetched lang = T lang ++ flattenTranslations data "" := by
      simp [loadTranslations, h]
    refine ⟨fun key v hv => ?_, fun key v hv => ?_, fun key hv => ?_⟩
    · rw [hl]
      exact table_get_isSome_append _ _ key v hv
    · rw [hl, table_get_append, hv]
    · rw [hl, table_get_append, hv]

set_option maxRecDepth 100000 in
/-- C28 with the built-in tables, when the French file is the sample file and
the two other requests fail: the English table is the built-in one, and the
French table has the built-in greeting and the label of the file. -/
theorem loadTranslations_falls_back_witness :
    loadTranslations TRANSLATIONS sampleFetch .en = TRANSLATIONS .en ∧
    Table.get (loadTranslations TRANSLATIONS sampleFetch .fr) "problem_locked" =
      some (.str "Je suis enfermé dehors") ∧
    Table.get (loadTranslations TRANSLATIONS sampleFetch .fr) "msg_greeting" =
      some (.str "Bonjour,") :=
  ⟨(loadTranslations_falls_back TRANSLATIONS sampleFetch .en).1 (Or.inl rfl),
   ((loadTranslations_falls_back TRANSLATIONS sampleFetch .fr).2 sampleLocale rfl).2.1
     "problem_locked" _ (by decide),
   by decide⟩

theorem mem_flattenTranslations_of_get :
    ∀ (es : Entries) (key : String) (v : Json) (pfx : String) (e : String × Json),
      es.get key = some v → e ∈ flattenEntry key v pfx → e ∈ flattenTranslations es pfx
  | .nil, key, v, pfx, e, h, _ => by simp [Entries.get] at h
  | .cons k x rest, key, v, pfx, e, h, he => by
    rw [flattenTranslations]
    by_cases hk : k = key
    · simp only [Entries.get, hk, if_true, Option.some.injEq] at h
      subst h
      subst hk
      exact List.mem_append_left _ he
    · simp only [Entries.get, hk, if_false] at h
      exact List.mem_append_right _ (mem_flattenTranslations_of_get rest key v pfx e h he)

theorem mem_flattenTranslations_of_objectAt :
    ∀ (path : List String) (root sub : Entries) (pfx : String) (e : String × Json),
      Entries.objectAt root path = some sub →
      e ∈ flattenTranslations sub (pathKey pfx path) → e ∈ flattenTranslations root pfx
  | [], root, sub, pfx, e, h, he => by
    simp only [Entries.objectAt, Option.some.injEq] at h
    subst h
    exact he
  | key :: rest, root, sub, pfx, e, h, he => by
    simp only [Entries.objectAt] at h
    cases hg : root.get key with
    | none => simp [hg] at h
    | some v =>
      cases v with
      | obj s1 =>
        simp only [hg] at h
        by_cases hl : isLabelled s1 = true
        · simp [hl] at h
        · simp only [hl, if_false] at h
          have h1 := mem_flattenTranslations_of_objectAt rest s1 sub
            (if pfx ≠ "" then pfx ++ "_" ++ key else key) e h he
          refine mem_flattenTranslations_of_get root key (.obj s1) pfx e hg ?_
          rw [flattenEntry]
          simp only [hl, if_false]
          exact h1
      | null => simp [hg] at h
      | bool b => simp [hg] at h
      | num x => simp [hg] at h
      | str x => simp [hg] at h
      | arr x => simp [hg] at h

theorem underscore_append_ne_empty (a b : String) : a ++ "_" ++ b ≠ "" := by
  intro h
  have h1 := congrArg String.length h
  simp only [String.length_append] at h1
  have h2 : ("_" : String).length = 1 := rfl
  have h3 : ("" : String).length = 0 := rfl
  omega

theorem underscore_append_ne_empty_right (a b : String) : a ++ ("_" ++ b) ≠ "" := by
  rw [← String.append_assoc]
  exact underscore_append_ne_empty a b

theorem pathKey_eq_joined :
    ∀ (segs : List String) (pfx : String), (∀ k ∈ segs, k ≠ "") →
      pathKey pfx segs =
        if segs = [] then pfx
        else if pfx ≠ "" then pfx ++ "_" ++ joinedWithUnderscore segs
        else joinedWithUnderscore segs
  | [], pfx, _ => by simp [pathKey]
  | [key], pfx, h => by
    by_cases hp : pfx = "" <;> simp [pathKey, joinedWithUnderscore, hp]
  | key :: next :: rest, pfx, h => by
    have hk : key ≠ "" := h key (List.mem_cons_self _ _)
    have ih := pathKey_eq_joined (next :: rest)
      (if pfx ≠ "" then pfx ++ "_" ++ key else key)
      (fun k hk1 => h k (List.mem_cons_of_mem _ hk1))
    rw [pathKey, ih]
    by_cases hp : pfx = ""
    · simp [hp, hk, joinedWithUnderscore, String.append_assoc]
    · simp [hp, joinedWithUnderscore, underscore_append_ne_empty_right, String.append_assoc]

theorem pathKey_snoc (segs : List String) (key pfx : String) :
    pathKey pfx (segs ++ [key]) =
      (if pathKey pfx segs ≠ "" then pathKey pfx segs ++ "_" ++ key else key) := by
  induction segs generalizing pfx with
  | nil => rfl
  | cons k rest ih => exact ih _

/-- C29. `flattenTranslations` on an entry `key` of an object reached from
the root of the file along the path of keys `path` (through objects without
`label`, `response` or `examples`; no key empty), whose parent key is the
path joined with "_". When the value of the entry is an object with a truthy
`label`, `response` or `examples` (and the parent key is not empty once a
trailing "s" is removed), the entry gives exactly: its label, when truthy,
under the parent key without one trailing "s", "_" and `key`; its response,
when truthy, under "response_" and `key`; its examples, when truthy, under
the key of the label followed by "_examples"; and each of them is in the
flattened file. When the value is not an object, it is in the flattened file
under the path and `key` joined with "_". A trailing "s" is removed from
"problems" and "vehicles", which gives "problem" and "vehicle". -/
theorem flattenTranslations_singularises (root : Entries) (path : List String)
    (sub : Entries) (key : String) (hpath : Entries.objectAt root path = some sub)
    (hne : ∀ k ∈ path ++ [key], k ≠ "") :
    (∀ value : Entries, sub.get key = some (.obj value) → isLabelled value = true →
      removeTrailingS (joinedWithUnderscore path) ≠ "" →
      flattenEntry key (.obj value) (joinedWithUnderscore path) =
        assignField value "label" (removeTrailingS (joinedWithUnderscore path) ++ "_" ++ key) ++
        assignField value "response" ("response_" ++ key) ++
        assignField value "examples"
          (removeTrailingS (joinedWithUnderscore path) ++ "_" ++ key ++ "_examples") ∧
      ∀ e ∈ flattenEntry key (.obj value) (joinedWithUnderscore path),
        e ∈ flattenTranslations root "") ∧
    (∀ v : Json, sub.get key = some v → v.isObject = false →
      (joinedWithUnderscore (path ++ [key]), v) ∈ flattenTranslations root "") ∧
    removeTrailingS "problems" = "problem" ∧ removeTrailingS "vehicles" = "vehicle" := by
  have hne1 : ∀ k ∈ path, k ≠ "" := fun k hk => hne k (List.mem_append_left _ hk)
  have hj : pathKey "" path = joinedWithUnderscore path := by
    rw [pathKey_eq_joined path "" hne1]
    cases path with
    | nil => rfl
    | cons a b => simp
  refine ⟨fun value hv hl hs => ⟨?_, fun e he => ?_⟩, fun v hv ho => ?_, by decide, by decide⟩
  · rw [flattenEntry]
    simp only [hl, if_true, hs, ne_eq, not_false_eq_true]
  · refine mem_flattenTranslations_of_objectAt path root sub "" e hpath ?_
    rw [hj]
    exact mem_flattenTranslations_of_get sub key _ _ e hv he
  · refine mem_flattenTranslations_of_objectAt path root sub "" _ hpath ?_
    refine mem_flattenTranslations_of_get sub key v _ _ hv ?_
    have hjk : joinedWithUnderscore (path ++ [key]) =
        (if pathKey "" path ≠ "" then pathKey "" path ++ "_" ++ key else key) := by
      rw [← pathKey_snoc, pathKey_eq_joined (path ++ [key]) "" hne]
      simp
    rw [hjk]
    cases v with
    | obj x => simp [Json.isObject] at ho
    | null => simp [flattenEntry]
    | bool b => simp [flattenEntry]
    | num x => simp [flattenEntry]
    | str x => simp [flattenEntry]
    | arr x => simp [flattenEntry]

set_option maxRecDepth 100000 in
/-- C29 on the sample file: the whole flattened file, and the entry "locked"
of "problems". -/
theorem flattenTranslations_singularises_witness :
    flattenTranslations sampleLocale "" =
      [("problem_locked", .str "Je suis enfermé dehors"),
       ("response_locked", .str "On peut ouvrir votre véhicule sans l\x27abîmer."),
       ("problem_locked_examples", .arr "clés à l\x27intérieur,clé perdue"),
       ("step0_bot_message", .str "Bonjour !")] ∧
    (joinedWithUnderscore (["step0", "bot"] ++ ["message"]), Json.str "Bonjour !") ∈
      flattenTranslations sampleLocale "" :=
  ⟨by decide,
   (flattenTranslations_singularises sampleLocale ["step0", "bot"]
     (.cons "message" (.str "Bonjour !") .nil) "message" (by decide) (by decide)).2.1
     (.str "Bonjour !") (by decide) rfl⟩

theorem pathMatch_mem : ∀ (cs : List Char) (code : String),
    pathMatch cs = some code → code ∈ languageCodes
  | [], code, h => by simp [pathMatch] at h
  | c :: rest, code, h => by
    have ih := pathMatch_mem rest code
    unfold pathMatch at h
    split at h
    · split at h
      · simp only [Option.some.injEq] at h
        subst h
        assumption
      · exact ih h
    · exact ih h

theorem ofCode_of_mem (code : String) (h : code ∈ languageCodes) :
    ∃ lang : Lang, Lang.ofCode code = some lang ∧ lang.code = code := by
  simp only [languageCodes, List.mem_cons, List.mem_singleton, List.not_mem_nil, or_false] at h
  rcases h with rfl | rfl | rfl
  · exact ⟨.fr, rfl, rfl⟩
  · exact ⟨.en, rfl, rfl⟩
  · exact ⟨.nl, rfl, rfl⟩

/-! ## The WhatsApp link -/

theorem hexVal_hexDigit (n : Nat) (h : n < 16) : hexVal (hexDigit n) = some n := by
  interval_cases n <;> decide

theorem isUnreserved_hexDigit (n : Nat) (h : n < 16) : isUnreserved (hexDigit n) = true := by
  interval_cases n <;> decide

theorem percent_not_unreserved (c : Char) (h : isUnreserved c = true) : c ≠ '%' := by
  intro hc
  subst hc
  exact absurd h (by decide)

theorem char_valid_toNat (c : Char) :
    c.toNat < 55296 ∨ (57343 < c.toNat ∧ c.toNat < 1114112) := c.valid

theorem utf8Bytes_lt (n b : Nat) (hn : n < 1114112) (hb : b ∈ utf8Bytes n) : b < 256 := by
  unfold utf8Bytes at hb
  split at hb
  · simp at hb; omega
  · split at hb
    · simp at hb; omega
    · split at hb
      · simp at hb; omega
      · simp at hb; omega

theorem uriTokens_byte (b : Nat) (hb : b < 256) (rest : List Char) :
    uriTokens (['%', hexDigit (b / 16), hexDigit (b % 16)] ++ rest)
      = (uriTokens rest).map fun ts => UriToken.byte b :: ts := by
  have h1 : hexVal (hexDigit (b / 16)) = some (b / 16) := hexVal_hexDigit _ (by omega)
  have h2 : hexVal (hexDigit (b % 16)) = some (b % 16) := hexVal_hexDigit _ (by omega)
  have h3 : 16 * (b / 16) + b % 16 = b := by omega
  simp [uriTokens, h1, h2, h3]

theorem uriTokens_bytes (bs : List Nat) (hbs : ∀ b ∈ bs, b < 256) (rest : List Char) :
    uriTokens ((bs.map fun b => ['%', hexDigit (b / 16), hexDigit (b % 16)]).flatten ++ rest)
      = (uriTokens rest).map fun ts => bs.map UriToken.byte ++ ts := by
  induction bs with
  | nil => simp
  | cons b bs ih =>
    have hb := hbs b (by simp)
    have ih2 := ih (fun x hx => hbs x (by simp [hx]))
    have := uriTokens_byte b hb
      ((bs.map fun b => ['%', hexDigit (b / 16), hexDigit (b % 16)]).flatten ++ rest)
    simp only [List.map_cons, List.flatten_cons, List.append_assoc]
    rw [this, ih2]
    cases uriTokens rest <;> simp

theorem uriTokens_char (c : Char) (rest : List Char) :
    uriTokens (percentEncodeChar c ++ rest)
      = (uriTokens rest).map fun ts => charTokens c ++ ts := by
  unfold percentEncodeChar charTokens
  split
  · rename_i h
    have := percent_not_unreserved c h
    simp only [List.cons_append, List.nil_append]
    rw [uriTokens.eq_def]
    simp only [if_neg this]
  · have hv := char_valid_toNat c
    exact uriTokens_bytes _ (fun b hb => utf8Bytes_lt _ b (by omega) hb) rest

theorem utf8Decode_char (c : Char) (ts : List UriToken) :
    utf8Decode (charTokens c ++ ts) none = (utf8Decode ts none).map fun cs => c :: cs := by
  have hv := char_valid_toNat c
  have hc : Char.ofNat c.toNat = c := Char.ofNat_toNat c
  unfold charTokens
  split
  · simp [utf8Decode]
  · unfold utf8Bytes
    generalize c.toNat = n at hv hc
    split
    · rename_i h1
      simp [utf8Decode, h1, hc]
    · rename_i h1
      split
      · rename_i h2
        have a1 : ¬ (192 + n / 64 < 128) := by omega
        have a2 : 192 ≤ 192 + n / 64 ∧ 192 + n / 64 < 224 := by omega
        have a3 : 128 ≤ 128 + n % 64 ∧ 128 + n % 64 < 192 := by omega
        have a4 : (192 + n / 64 - 192) * 64 + (128 + n % 64 - 128) = n := by omega
        have a5 : 128 ≤ n ∧ n < 1114112 ∧ ¬ (55296 ≤ n ∧ n ≤ 57343) := by omega
        simp only [List.map_cons, List.map_nil, List.cons_append, List.nil_append, utf8Decode,
          if_neg a1, if_pos a2, if_pos a3, a4, if_pos a5, hc, if_true]
        rfl
      · rename_i h2
        split
        · rename_i h3
          have a1 : ¬ (224 + n / 4096 < 128) := by omega
          have a2 : ¬ (192 ≤ 224 + n / 4096 ∧ 224 + n / 4096 < 224) := by omega
          have a3 : 224 ≤ 224 + n / 4096 ∧ 224 + n / 4096 < 240 := by omega
          have a4 : 128 ≤ 128 + n / 64 % 64 ∧ 128 + n / 64 % 64 < 192 := by omega
          have a5 : 128 ≤ 128 + n % 64 ∧ 128 + n % 64 < 192 := by omega
          have a6 : ((224 + n / 4096 - 224) * 64 + (128 + n / 64 % 64 - 128)) * 64
              + (128 + n % 64 - 128) = n := by omega
          have a7 : 2048 ≤ n ∧ n < 1114112 ∧ ¬ (55296 ≤ n ∧ n ≤ 57343) := by omega
          simp only [List.map_cons, List.map_nil, List.cons_append, List.nil_append, utf8Decode,
            if_neg a1, if_neg a2, if_pos a3, if_pos a4, if_pos a5, a6, if_pos a7, hc, if_true,
            Nat.reduceSubDiff, Nat.reduceEqDiff, if_false, Nat.add_one_sub_one]
          rfl
        · rename_i h3
          have a1 : ¬ (240 + n / 262144 < 128) := by omega
          have a2 : ¬ (192 ≤ 240 + n / 262144 ∧ 240 + n / 262144 < 224) := by omega
          have a3 : ¬ (224 ≤ 240 + n / 262144 ∧ 240 + n / 262144 < 240) := by omega
          have a4 : 240 ≤ 240 + n / 262144 ∧ 240 + n / 262144 < 248 := by omega
          have a5 : 128 ≤ 128 + n / 4096 % 64 ∧ 128 + n / 4096 % 64 < 192 := by omega
          have a6 : 128 ≤ 128 + n / 64 % 64 ∧ 128 + n / 64 % 64 < 192 := by omega
          have a7 : 128 ≤ 128 + n % 64 ∧ 128 + n % 64 < 192 := by omega
          have a8 : (((240 + n / 262144 - 240) * 64 + (128 + n / 4096 % 64 - 128)) * 64
              + (128 + n / 64 % 64 - 128)) * 64 + (128 + n % 64 - 128) = n := by omega
          have a9 : 65536 ≤ n ∧ n < 1114112 ∧ ¬ (55296 ≤ n ∧ n ≤ 57343) := by omega
          simp only [List.map_cons, List.map_nil, List.cons_append, List.nil_append, utf8Decode,
            if_neg a1, if_neg a2, if_neg a3, if_pos a4, if_pos a5, if_pos a6, if_pos a7, a8,
            if_pos a9, hc, if_true, Nat.reduceSubDiff, Nat.reduceEqDiff, if_false,
            Nat.add_one_sub_one]
          rfl

theorem decode_encode_chars (cs : List Char) :
    (uriTokens (cs.map percentEncodeChar).flatten).bind (fun ts => utf8Decode ts none)
      = some cs := by
  induction cs with
  | nil => rfl
  | cons c cs ih =>
    simp only [List.map_cons, List.flatten_cons]
    rw [uriTokens_char]
    cases h : uriTokens (cs.map percentEncodeChar).flatten with
    | none => simp [h] at ih
    | some ts =>
      simp only [h, Option.some_bind] at ih
      simp [utf8Decode_char, ih]

theorem decodeURIComponent_encodeURIComponent (s : String) :
    decodeURIComponent (encodeURIComponent s) = some s := by
  have h := decode_encode_chars s.data
  unfold decodeURIComponent encodeURIComponent
  cases hu : uriTokens (s.data.map percentEncodeChar).flatten with
  | none => simp [hu] at h
  | some ts =>
    simp only [hu, Option.some_bind] at h
    simp [hu, h]

theorem percentEncodeChar_safe (c x : Char) (hx : x ∈ percentEncodeChar c) :
    isUnreserved x = true ∨ x = '%' := by
  unfold percentEncodeChar at hx
  split at hx
  · rename_i h
    simp only [List.mem_singleton] at hx
    exact Or.inl (hx ▸ h)
  · have hv := char_valid_toNat c
    simp only [List.mem_flatten, List.mem_map] at hx
    obtain ⟨l, ⟨b, hb, rfl⟩, hxl⟩ := hx
    have hlt := utf8Bytes_lt _ b (by omega) hb
    simp only [List.mem_cons, List.mem_singleton, List.not_mem_nil, or_false] at hxl
    rcases hxl with h | h | h
    · exact Or.inr h
    · exact Or.inl (h ▸ isUnreserved_hexDigit _ (by omega))
    · exact Or.inl (h ▸ isUnreserved_hexDigit _ (by omega))

theorem encodeURIComponent_safe (s : String) (x : Char)
    (hx : x ∈ (encodeURIComponent s).data) : isUnreserved x = true ∨ x = '%' := by
  simp only [encodeURIComponent, List.mem_flatten, List.mem_map] at hx
  obtain ⟨l, ⟨c, _, rfl⟩, hxl⟩ := hx
  exact percentEncodeChar_safe c x hxl

theorem buildWhatsAppMessage_isSome (T : Lang → Table) (s : State) (p : Problem)
    (hp : s.problem = some p)
    (hl : s.location.type = some .gps → s.location.coords ≠ none) :
    ∃ msg : String, buildWhatsAppMessage T s = some msg := by
  by_cases hg : s.location.type = some .gps
  · cases hc : s.location.coords with
    | none => exact absurd hc (hl hg)
    | some c =>
      have h : locationLine T s = some
          (tText T s "msg_location" ++ " " ++ createGoogleMapsLink c.lat c.lng ++ "\n") := by
        simp [locationLine, hg, hc]
      exact ⟨_, buildWhatsAppMessage_of T s p _ hp h⟩
  · have h : locationLine T s = some
        (tText T s "msg_location" ++ " " ++ s.location.address ++ "\n") := by
      simp [locationLine, hg]
    exact ⟨_, buildWhatsAppMessage_of T s p _ hp h⟩

/-- C22. For every completed Answer Store (the problem is chosen, and a GPS
location has its coordinates) `buildWhatsAppMessage` returns a message, and
`generateWhatsAppURL` returns exactly "https://wa.me/", the configured phone
number, "?text=" and the percent-encoding of that message. The encoded text
is made of unreserved characters and "%" only, so it is the whole text
parameter of the link, and percent-decoding it yields the message again. -/
theorem generateWhatsAppURL_is_base_and_encoded_message (phoneNumber : String)
    (T : Lang → Table) (s : State) (p : Problem) (hp : s.problem = some p)
    (hl : s.location.type = some .gps → s.location.coords ≠ none) :
    ∃ msg : String, buildWhatsAppMessage T s = some msg ∧
      generateWhatsAppURL phoneNumber T s =
        some ("https://wa.me/" ++ phoneNumber ++ "?text=" ++ encodeURIComponent msg) ∧
      (∀ c ∈ (encodeURIComponent msg).data, isUnreserved c = true ∨ c = '%') ∧
      decodeURIComponent (encodeURIComponent msg) = some msg := by
  obtain ⟨msg, hm⟩ := buildWhatsAppMessage_isSome T s p hp hl
  exact ⟨msg, hm, by simp [generateWhatsAppURL, hm], encodeURIComponent_safe msg,
    decodeURIComponent_encodeURIComponent msg⟩

set_option maxRecDepth 1000000 in
/-- C22 at the end of the session "Garage X" (towing, GPS location 48.85,
2.35, destination "Garage X" at 12 km), with the built-in tables and the
default phone number: the claim, the link itself, and the encoding and
decoding of a text with accented letters, "&" and the euro sign. -/
theorem generateWhatsAppURL_is_base_and_encoded_message_witness :
    (worldAfter (pageLoad .fr) garageSession).state.problem = some ⟨.towing, true⟩ ∧
    ((worldAfter (pageLoad .fr) garageSession).state.location.type = some .gps →
      (worldAfter (pageLoad .fr) garageSession).state.location.coords ≠ none) ∧
    (∃ msg : String,
      buildWhatsAppMessage TRANSLATIONS (worldAfter (pageLoad .fr) garageSession).state
        = some msg ∧
      generateWhatsAppURL defaultPhoneNumber TRANSLATIONS
          (worldAfter (pageLoad .fr) garageSession).state =
        some ("https://wa.me/" ++ defaultPhoneNumber ++ "?text=" ++ encodeURIComponent msg) ∧
      (∀ c ∈ (encodeURIComponent msg).data, isUnreserved c = true ∨ c = '%') ∧
      decodeURIComponent (encodeURIComponent msg) = some msg) ∧
    generateWhatsAppURL defaultPhoneNumber TRANSLATIONS
        (worldAfter (pageLoad .fr) garageSession).state =
      some "https://wa.me/32479890089?text=Bonjour%2C%0A%0AJe%20souhaite%20obtenir%20un%20devis%20pour%20une%20intervention.%0A%0AProbl%C3%A8me%20%3A%20J'ai%20besoin%20d'un%20remorquage%0AV%C3%A9hicule%20%3A%20Berline%20%2F%20SUV%0ATransmission%20%3A%20Manuelle%2C%202RM%0ALocalisation%20%3A%20https%3A%2F%2Fmaps.google.com%2F%3Fq%3D48.85%2C2.35%0ADestination%20%3A%20Garage%20X%0ADistance%20estim%C3%A9e%20%3A%2012%20km%20(~18%20min)%0A%0AMerci%20de%20me%20communiquer%20le%20tarif%20et%20le%20d%C3%A9lai%20d'intervention." ∧
    encodeURIComponent "Problème : 12 km (~18 min) & café €" =
      "Probl%C3%A8me%20%3A%2012%20km%20(~18%20min)%20%26%20caf%C3%A9%20%E2%82%AC" ∧
    decodeURIComponent "Probl%C3%A8me%20%3A%2012%20km%20(~18%20min)%20%26%20caf%C3%A9%20%E2%82%AC"
      = some "Problème : 12 km (~18 min) & café €" :=
  ⟨by decide, by decide,
    generateWhatsAppURL_is_base_and_encoded_message defaultPhoneNumber TRANSLATIONS
      (worldAfter (pageLoad .fr) garageSession).state ⟨.towing, true⟩ (by decide) (by decide),
    by decide, by decide, by decide⟩

/-! ## A destination answered during the typing pause -/

/-- The destination question has no typing state (see `createStep4b`), so
"unknown" can be clicked during the typing pause of step 5. The pause of
step 5 and the pause of step 6 then both end at the final step and each
queues a recap: `currentStep` goes on from 6.5 to 7 (half steps 13, 14). -/
theorem unknown_clicked_while_typing_reaches_7 :
    (run (pageLoad .fr) towingTyping).map
      (fun w => (w.state.currentStep, w.state.isTyping, enabled w .clickUnknown))
      = some (10, true, true) ∧
    (stepsAlong (pageLoad .fr) towingUnknownWhileTyping).map squeeze
      = some [0, 2, 4, 6, 8, 10, 12, 13, 14] := by
  decide

/-- While `currentStep` is 1 (half step 2) no small option is in the chat
area of a reachable world, so a transmission cannot be clicked; and the
handler of the small options, which tests for the steps 1.5, 2 and 3 only,
would leave the page as it is, however many listeners run. -/
theorem small_option_not_offered_at_step_1 (w : World) (id : OptionId)
    (h : w.state.currentStep = 2) :
    (Reach w → enabled w (.clickSmallOption id) = false) ∧
    handle w (.clickSmallOption id) = w ∧
    dispatch w (.clickSmallOption id) = w := by
  have hh : handle w (.clickSmallOption id) = w :=
    onSmallOptionClick_other_step w id (by omega) (by omega) (by omega)
  refine ⟨fun hr => ?_, hh, handleTimes_fixed _ w hh _⟩
  cases he : enabled w (.clickSmallOption id) with
  | false => rfl
  | true =>
    have hg := guard_small w hr.coherent id he
    omega

--THEOREMS
/-! ## The only move that sets the wheel position -/

theorem runCallback_wheelPosition (w : World) (cb : Callback) :
    (runCallback w cb).state.wheelPosition = w.state.wheelPosition := by
  cases cb <;>
    simp only [runCallback, goToNextStep_state, afterTyping_state, showRecap, endTyping,
      initAddressPlaces] <;>
    (try split) <;>
    simp only [renderCurrentStep_state]

theorem handle_wheelPosition (w : World) (e : Event)
    (hns : ∀ id, e ≠ .clickSmallOption id) :
    (handle w e).state.wheelPosition = w.state.wheelPosition := by
  cases e with
  | showModal =>
    simp only [handle, showModal, setTimeout_state, renderCurrentStep_state]
  | clickSmallOption id => exact absurd rfl (hns id)
  | clickProblem id => rfl
  | hideModal =>
    simp only [handle, hideModal]
    split <;> rfl
  | clickVehicle id =>
    simp only [handle, onVehicleClick]
    split
    · split
      · rfl
      · simp only [setTimeout_state, renderCurrentStep_state]
    · rfl
  | submitBrand value =>
    simp only [handle, handleBrandSubmit]
    split <;> rfl
  | submitModel value =>
    simp only [handle, handleModelSubmit]
    split <;> rfl
  | submitYear value =>
    simp only [handle, handleYearSubmit]
    split <;> rfl
  | clickGps =>
    simp only [handle, handleGPSLocation]
    split <;> rfl
  | gpsSuccess lat lng => rfl
  | gpsError code => simp only [handle, onPositionError, renderCurrentStep_state]
  | clickAddressBtn => simp only [handle, onAddressBtnClick_state]
  | clickAddressBack => simp only [handle, onAddressBackClick, renderCurrentStep_state]
  | selectAddress address => rfl
  | clickDestinationAddressBtn =>
    simp only [handle, onDestinationAddressBtnClick, renderCurrentStep_state]
  | clickDestinationBack =>
    simp only [handle, onDestinationBackClick, renderCurrentStep_state]
  | selectDestination address =>
    simp only [handle, handleDestinationSelect, calculateDistance]
    split <;> rfl
  | routeResult result => cases result <;> rfl
  | clickUnknown => rfl
  | changeLanguage lang =>
    simp only [handle, onLanguageOptionClick]
    split
    · split
      · rfl
      · simp only [renderCurrentStep_state]
    · rfl

theorem handleTimes_wheelPosition (e : Event) (hns : ∀ id, e ≠ .clickSmallOption id) :
    ∀ (n : Nat) (w : World), (handleTimes e n w).state.wheelPosition = w.state.wheelPosition
  | 0, _ => rfl
  | n + 1, w => (handleTimes_wheelPosition e hns n (handle w e)).trans
      (handle_wheelPosition w e hns)

theorem onSmallOptionClick_wheelPosition (w : World) (id : OptionId) :
    (w.state.currentStep ≠ 3 ∧
      (handle w (.clickSmallOption id)).state.wheelPosition = w.state.wheelPosition) ∨
    (w.state.currentStep = 3 ∧
      (handle w (.clickSmallOption id)).state.wheelPosition = some id) := by
  simp only [handle, onSmallOptionClick]
  split
  · rename_i h
    exact Or.inr ⟨h, rfl⟩
  · rename_i h
    refine Or.inl ⟨h, ?_⟩
    split
    · rfl
    · split <;> rfl

theorem handleTimes_small_wheelPosition (id : OptionId) :
    ∀ (n : Nat) (w : World),
      (handleTimes (.clickSmallOption id) n w).state.wheelPosition = w.state.wheelPosition ∨
      (w.state.currentStep = 3 ∧
        (handleTimes (.clickSmallOption id) n w).state.wheelPosition = some id)
  | 0, _ => Or.inl rfl
  | n + 1, w => by
    have hk : (handle w (.clickSmallOption id)).state.currentStep = w.state.currentStep :=
      handle_currentStep w _ (fun h => Event.noConfusion h) (fun _ h => Event.noConfusion h)
    have ih := handleTimes_small_wheelPosition id n (handle w (.clickSmallOption id))
    simp only [handleTimes]
    rcases onSmallOptionClick_wheelPosition w id with ⟨h3, hw⟩ | ⟨h3, hw⟩
    · rcases ih with h | ⟨h, -⟩
      · exact Or.inl (h.trans hw)
      · exact absurd (hk ▸ h) h3
    · rcases ih with h | ⟨-, h⟩
      · exact Or.inr ⟨h3, h.trans hw⟩
      · exact Or.inr ⟨h3, h⟩

theorem wheelPosition_set_by (w w1 : World) (a : Act) (hc : Coherent w)
    (hs : step w a = some w1) (hn : w.state.wheelPosition = none)
    (hw : w1.state.wheelPosition ≠ none) :
    ∃ o : OptionId, a = .ev (.clickSmallOption o) ∧
      enabled w (.clickSmallOption o) = true ∧ w.state.currentStep = 3 ∧
      w.state.problemIs .flat = true ∧ w1.state.wheelPosition = some o := by
  cases a with
  | wait ms =>
    simp only [step] at hs
    split at hs
    · simp only [Option.some.injEq] at hs
      subst hs
      exact absurd hn hw
    · exact Option.noConfusion hs
  | fire =>
    obtain ⟨tm, -, rfl⟩ := fire_eq w w1 hs
    rw [runCallback_wheelPosition] at hw
    exact absurd hn hw
  | ev e =>
    simp only [step] at hs
    split at hs
    · rename_i he
      simp only [Option.some.injEq] at hs
      subst hs
      by_cases hsm : ∃ o, e = .clickSmallOption o
      · obtain ⟨o, rfl⟩ := hsm
        have hg := guard_small w hc o he
        have hd : (dispatch w (.clickSmallOption o)).state.wheelPosition
            = w.state.wheelPosition ∨
            (w.state.currentStep = 3 ∧
              (dispatch w (.clickSmallOption o)).state.wheelPosition = some o) := by
          unfold dispatch
          split
          · exact handleTimes_small_wheelPosition o _ w
          · rcases onSmallOptionClick_wheelPosition w o with ⟨-, h⟩ | h
            · exact Or.inl h
            · exact Or.inr h
        rcases hd with h | ⟨h3, h⟩
        · exact absurd (h.trans hn) hw
        · refine ⟨o, rfl, he, h3, ?_, h⟩
          rcases hg with hg | hg | hg
          · exact hg.2
          · omega
          · omega
      · have hns : ∀ id, e ≠ .clickSmallOption id := fun id h => hsm ⟨id, h⟩
        have hd : (dispatch w e).state.wheelPosition = w.state.wheelPosition := by
          unfold dispatch
          split
          · exact handleTimes_wheelPosition e hns _ w
          · exact handle_wheelPosition w e hns
        exact absurd (hd.trans hn) hw
    · exact Option.noConfusion hs

/-- C8, as amended. In every world of a session that was opened with
`wheelPosition` unset (in particular the first session of a page),
`wheelPosition` is set only if the problem is flat, and only once
`currentStep` is at least 1.5 (half step 3). It stays unset until the
wheel-position question is answered: the only move that takes a world of the
session from `wheelPosition` unset to set is a click on a small option that is
shown while `currentStep` is 1.5 and the problem is flat, and it sets
`wheelPosition` to the option clicked. -/
theorem wheel_position_only_on_flat (pre w : World) (h0 : pre.state.wheelPosition = none)
    (hr : SessionReach (showModal pre) w) :
    (w.state.wheelPosition = none ∨ w.state.problemIs .flat = true) ∧
    (w.state.wheelPosition ≠ none → 3 ≤ w.state.currentStep) ∧
    (∀ (a : Act) (w1 : World), step w a = some w1 → w.state.wheelPosition = none →
      w1.state.wheelPosition ≠ none →
      ∃ o : OptionId, a = .ev (.clickSmallOption o) ∧
        enabled w (.clickSmallOption o) = true ∧ w.state.currentStep = 3 ∧
        w.state.problemIs .flat = true ∧ w1.state.wheelPosition = some o) := by
  have key : Coherent w ∧ WheelOnlyFlat w.state := by
    induction hr with
    | start =>
      refine ⟨coherent_showModal pre, fun h => ?_⟩
      simp [showModal, h0] at h
    | move a _ hne hs ih =>
      exact ⟨coherent_step _ _ a ih.1 hs, wheelOnlyFlat_step _ _ a ih.1 ih.2 hne hs⟩
  refine ⟨?_, fun hw => (key.2 hw).2, fun a w1 hs hn hw =>
    wheelPosition_set_by w w1 a key.1 hs hn hw⟩
  by_cases hw : w.state.wheelPosition = none
  · exact Or.inl hw
  · exact Or.inr (key.2 hw).1

/-- C8, as amended, at the first session of a page: after the wheel answer
"front" of a flat-tyre session the wheel position is set and the problem is
flat; and at the wheel question, where it is still unset, the click on
"front" is the move that sets it. -/
theorem wheel_position_only_on_flat_witness :
    (pageLoad .fr).state.wheelPosition = none ∧
    SessionReach (showModal (pageLoad .fr))
      (worldAfter (showModal (pageLoad .fr)) flatUpToWheel) ∧
    (worldAfter (showModal (pageLoad .fr)) flatUpToWheel).state.wheelPosition = some .front ∧
    ((worldAfter (showModal (pageLoad .fr)) flatUpToWheel).state.wheelPosition = none ∨
      (worldAfter (showModal (pageLoad .fr)) flatUpToWheel).state.problemIs .flat = true) ∧
    (worldAfter (showModal (pageLoad .fr))
      (flatUpToVehicle .berline ++ [.fire, .wait 1000])).state.wheelPosition = none ∧
    ((step (worldAfter (showModal (pageLoad .fr))
          (flatUpToVehicle .berline ++ [.fire, .wait 1000]))
        (.ev (.clickSmallOption .front))).map
      fun w => (w.state.currentStep, w.state.wheelPosition)) = some (3, some .front) :=
  ⟨rfl,
   SessionReach.start.extend _ (by decide) (run_worldAfter _ _ (by decide)),
   by decide,
   (wheel_position_only_on_flat (pageLoad .fr) _ rfl
     (SessionReach.start.extend _ (by decide) (run_worldAfter _ _ (by decide)))).1,
   by decide, by decide⟩

/-! ## The language and the lookup of texts -/

theorem hasTranslations_mem (code : String) (h : hasTranslations code = true)
    (hn : code ∉ objectPrototypeNames) : code ∈ languageCodes := by
  simp only [hasTranslations, Bool.or_eq_true, decide_eq_true_eq] at h
  rcases h with h | h
  · exact h
  · exact absurd h hn

theorem detectLanguage_mem (lower : String → String)
    (configLanguage pathname htmlLang browserLang : String)
    (hc : configLanguage ∉ objectPrototypeNames)
    (hh : langCode lower htmlLang ∉ objectPrototypeNames)
    (hb : langCode lower browserLang ∉ objectPrototypeNames) :
    detectLanguage lower configLanguage pathname htmlLang browserLang ∈ languageCodes := by
  unfold detectLanguage
  split
  · rename_i h
    exact hasTranslations_mem _ h.2 hc
  · split
    · rename_i code hm
      exact pathMatch_mem _ code hm
    · split
      · rename_i h
        exact hasTranslations_mem _ h.2 hh
      · split
        · rename_i h
          exact hasTranslations_mem _ h.2 hb
        · decide

theorem languageReach_mem (detected code : String) (hd : detected ∈ languageCodes)
    (hr : LanguageReach detected code) : code ∈ languageCodes := by
  induction hr with
  | load => exact hd
  | change newLang _ hm _ _ => exact hm

theorem t_of_entry (T : Lang → Table) (s : State) (key : String) (hk : key ≠ "") :
    (∀ v : Json, Table.get (T s.currentLanguage) key = some v → v.truthy = true →
      t T s key = v) ∧
    (∀ v : Json, Table.get (T s.currentLanguage) key = some v → v.truthy = false →
      t T s key = .str key) ∧
    (Table.get (T s.currentLanguage) key = none → t T s key = .str key) ∧
    (t T s key).truthy = true ∧ t T s key ≠ .null ∧ t T s key ≠ .str "" := by
  have hkt : (Json.str key).truthy = true := by
    simp [Json.truthy, hk]
  have htr : (t T s key).truthy = true := by
    unfold t
    cases hg : Table.get (T s.currentLanguage) key with
    | none => exact hkt
    | some v =>
      by_cases hv : v.truthy = true
      · simp [hv]
      · simp [hv, hkt]
  refine ⟨fun v hg hv => ?_, fun v hg hv => ?_, fun hg => ?_, htr, fun h => ?_, fun h => ?_⟩
  · simp [t, hg, hv]
  · simp [t, hg, hv]
  · simp [t, hg]
  · rw [h] at htr
    simp [Json.truthy] at htr
  · rw [h] at htr
    simp [Json.truthy] at htr

/-- C30 (counterexample). With `CONFIG.language` set to "constructor", or
with no configured language and "constructor" as the `lang` of the page,
`TRANSLATIONS[code]` is the inherited function `Object`, which is truthy, so
`detectLanguage` returns "constructor": the state the script starts in has a
`currentLanguage` that is not a key of `TRANSLATIONS`. -/
theorem inherited_name_detected_as_language :
    detectLanguage asciiLower "constructor" "/contact" "fr-BE" "fr-BE" = "constructor" ∧
    detectLanguage asciiLower "" "/contact" "constructor" "fr-BE" = "constructor" ∧
    LanguageReach (detectLanguage asciiLower "constructor" "/contact" "fr-BE" "fr-BE")
      "constructor" ∧
    "constructor" ∉ languageCodes ∧ Lang.ofCode "constructor" = none :=
  ⟨by decide, by decide,
   (by decide : "constructor" =
      detectLanguage asciiLower "constructor" "/contact" "fr-BE" "fr-BE") ▸ LanguageReach.load,
   by decide, by decide⟩

/-- C30, as amended. When the configured language and the language codes of
the page and of the browser are not names inherited from `Object.prototype`,
every value `state.currentLanguage` takes (the language `detectLanguage`
returns, and from then on the language options clicked) is a key of
`TRANSLATIONS`, so the table of the current language exists. For a key that
is not empty, `t(key)` is then the entry of that table when there is one and
it is truthy (not empty), and the key itself when the entry is missing or
falsy; so `t(key)` is never `undefined`, `null` or the empty string. -/
theorem t_total_with_key_fallback (lower : String → String)
    (configLanguage pathname htmlLang browserLang : String)
    (hc : configLanguage ∉ objectPrototypeNames)
    (hh : langCode lower htmlLang ∉ objectPrototypeNames)
    (hb : langCode lower browserLang ∉ objectPrototypeNames)
    (code : String)
    (hr : LanguageReach (detectLanguage lower configLanguage pathname htmlLang browserLang) code)
    (T : Lang → Table) (key : String) (hk : key ≠ "") :
    code ∈ languageCodes ∧
    ∃ lang : Lang, Lang.ofCode code = some lang ∧ lang.code = code ∧
      ∀ s : State, s.currentLanguage = lang →
        (∀ v : Json, Table.get (T lang) key = some v → v.truthy = true → t T s key = v) ∧
        (∀ v : Json, Table.get (T lang) key = some v → v.truthy = false →
          t T s key = .str key) ∧
        (Table.get (T lang) key = none → t T s key = .str key) ∧
        (t T s key).truthy = true ∧ t T s key ≠ .null ∧ t T s key ≠ .str "" := by
  have hm := languageReach_mem _ code
    (detectLanguage_mem lower configLanguage pathname htmlLang browserLang hc hh hb) hr
  obtain ⟨lang, hl, hcode⟩ := ofCode_of_mem code hm
  refine ⟨hm, lang, hl, hcode, fun s hs => ?_⟩
  subst hs
  exact t_of_entry T s key hk

set_option maxRecDepth 100000 in
/-- C30, as amended, for a page under "/nl/" with an English browser and no
configured language, after the visitor has switched to French, with the
built-in tables: "fr" is a key of `TRANSLATIONS`, the key "msg_greeting" has
an entry and the key "problem_locked" has none and is returned as it is. -/
theorem t_total_with_key_fallback_witness :
    "" ∉ objectPrototypeNames ∧ langCode asciiLower "" ∉ objectPrototypeNames ∧
    langCode asciiLower "en-GB" ∉ objectPrototypeNames ∧
    detectLanguage asciiLower "" "/nl/depannage/" "" "en-GB" = "nl" ∧
    detectLanguage asciiLower "de" "/contact" "FR-be" "en-GB" = "fr" ∧
    LanguageReach (detectLanguage asciiLower "" "/nl/depannage/" "" "en-GB") "fr" ∧
    "fr" ∈ languageCodes ∧
    t TRANSLATIONS (initialState .fr) "msg_greeting" = .str "Bonjour," ∧
    t TRANSLATIONS (initialState .fr) "problem_locked" = .str "problem_locked" :=
  ⟨by decide, by decide, by decide, by decide, by decide,
   LanguageReach.change "fr" LanguageReach.load (by decide) (by decide),
   (t_total_with_key_fallback asciiLower "" "/nl/depannage/" "" "en-GB" (by decide) (by decide)
     (by decide) "fr" (LanguageReach.change "fr" LanguageReach.load (by decide) (by decide))
     TRANSLATIONS "msg_greeting" (by decide)).1,
   by decide, by decide⟩

end WhatsAppSmart
